import Mathlib

set_option linter.unusedTactic false
set_option linter.unreachableTactic false
set_option linter.unusedVariables false

/-!
# runscript.c: the per-service supervisor of OpenRC

A shallow embedding of `src/rc/runscript.c`.  The supervisor talks to the rest
of the system (librc, the file system, the plugin host, the shell helper)
through library calls; here they are the fields of `Lib`, functions of an
abstract world `σ`.  The static variables of the C file are the fields of
`Sup`.  Every library call that the C code makes is recorded in `Sup.trace`.
Calls of `exit`, `eerrorx` and `ewarnx` end the action with `Res.exit`; the
`atexit` handler `cleanup` is a separate function applied afterwards.
Asynchronous signal delivery is not part of the model: `Sup.sighup` is the
value of the flag that `handle_signal` sets.
-/

namespace Runscript

/-- The bit masks of `rc_service_state_t`; the enum is declared in `rc.h`. -/
structure StateBits where
  STOPPED : Nat
  STARTED : Nat
  STOPPING : Nat
  STARTING : Nat
  INACTIVE : Nat
  COLDPLUGGED : Nat
  FAILED : Nat
  SCHEDULED : Nat
  WASINACTIVE : Nat
deriving DecidableEq, Repr

/-- The values `rc.h` of this OpenRC generation gives to the masks. -/
def rcBits : StateBits where
  STOPPED := 0x0001
  STARTED := 0x0002
  STOPPING := 0x0004
  STARTING := 0x0008
  INACTIVE := 0x0010
  COLDPLUGGED := 0x0100
  FAILED := 0x0200
  SCHEDULED := 0x0400
  WASINACTIVE := 0x0800

/-- The C test `state & MASK`. -/
def has (state mask : Nat) : Bool := (state &&& mask) != 0

/-- The plugin hooks `RC_HOOK_SERVICE_*` that runscript.c fires. -/
inductive Hook where
  | START_IN | START_NOW | START_DONE | START_OUT
  | STOP_IN | STOP_NOW | STOP_DONE | STOP_OUT
deriving DecidableEq, Repr

/-- What the supervisor does to the outside world, in program order.  The event
`enter` is not a call to the outside: it records that a function of runscript.c is
entered, and is written for `uncoldplug` only. -/
inductive Ev where
  | hook (h : Hook) (applet : String)
  | mark (svc : String) (st : Nat)
  | exec (arg1 : String) (arg2 : Option String)
  | einfo (msg : String)
  | ewarn (msg : String)
  | eerror (msg : String)
  | unlink (path : Option String)
  | mkfifo (path : String)
  | symlink (target : String) (path : String)
  | start (svc : String)
  | stop (svc : String)
  | waitpid
  | schedule (trigger : String) (target : String)
  | poll (path : String)
  | sleep (nsec : Nat)
  | setenv (name : String) (value : String)
  | unsetenv (name : String)
  | print (msg : String)
  | stderr (msg : String)
  | kill (pid : Int) (sig : Int)
  | sigpipe (sig : Int)
  | winsize
  | enter (fn : String)
deriving DecidableEq, Repr

/-- The three outcomes of `nanosleep` that `svc_wait` tells apart. -/
inductive SleepRes where
  | done
  | eintr
  | failed
deriving DecidableEq, Repr

/-- The outcomes of `mkfifo` that `make_exclusive` tells apart. -/
inductive FifoRes where
  | created
  | eexist
  | eacces
  | failed
deriving DecidableEq, Repr

/-- The library calls of runscript.c, over a world `σ`. -/
structure Lib (σ : Type) where
  bits : StateBits
  RC_SVCDIR : String
  RC_DEP_TRACE : Nat
  RC_DEP_STRICT : Nat
  RC_DEP_START : Nat
  RC_DEP_STOP : Nat
  geteuid : Nat
  getpid : Nat
  rc_service_state : σ → String → Nat
  rc_service_mark : σ → String → Nat → Bool × σ
  rc_service_start : σ → String → σ
  rc_service_stop : σ → String → σ
  rc_waitpid : σ → σ
  rc_service_schedule_start : σ → String → String → σ
  rc_services_in_state : σ → Nat → List String
  rc_services_scheduled : σ → String → List String
  rc_service_in_runlevel : σ → String → String → Bool
  rc_service_daemons_crashed : σ → String → Bool
  rc_runlevel_starting : σ → Bool
  rc_runlevel_stopping : σ → Bool
  rc_conf_yesno : String → Bool
  deptree_load : σ → Bool
  rc_deptree_depends : σ → List String → String → Option String → Nat → List String
  rc_deptree_depend : σ → String → String → List String
  rc_plugin_run : σ → Hook → String → σ
  fexists : σ → String → Bool
  stat_mtime : σ → String → Option Int
  lstat_mtime : σ → String → Option Int
  unlink : σ → Option String → Bool × σ
  mkfifo : σ → String → FifoRes × σ
  symlink : σ → String → String → Bool × σ
  nanosleep : σ → Nat → SleepRes × σ
  run_child : σ → String → String → Option String → Option Bool × σ

/-- The static variables of runscript.c, the world, and the trace. -/
structure Sup (σ : Type) where
  w : σ
  applet : String
  service : Option String
  exclusive : Option String
  mtime_test : Option String
  softlevel : Option String
  sighup : Bool
  ibsave : Option String
  in_background : Bool
  in_hotplug : Bool
  hook_out : Option Hook
  rc_in_plugin : Bool
  prefix_locked : Bool
  deptree : Bool
  services : List String
  tmplist : List String
  providelist : List String
  restart_services : List String
  need_services : List String
  use_services : List String
  retval : Int
  trace : List Ev

/-- How a piece of the supervisor ends: it returns, the process exits, or (only
in the wait loop of `svc_wait`) the fuel of the model ran out while the loop was
still going round. -/
inductive Res (α : Type) where
  | ok (a : α)
  | exit (code : Int)
  | hang
deriving DecidableEq, Repr

/-- A piece of the supervisor: it transforms the variables and may exit. -/
def M (σ α : Type) : Type := Sup σ → Res α × Sup σ

/-- Sequencing: an exit skips the rest. -/
def M.bind {σ α β : Type} (m : M σ α) (f : α → M σ β) : M σ β := fun s =>
  match m s with
  | (Res.ok a, s1) => f a s1
  | (Res.exit c, s1) => (Res.exit c, s1)
  | (Res.hang, s1) => (Res.hang, s1)

instance {σ : Type} : Monad (M σ) where
  pure a := fun s => (Res.ok a, s)
  bind := M.bind

def EXIT_FAILURE : Int := 1
def EXIT_SUCCESS : Int := 0

/-- The C call `exit (code)`. -/
def exit {σ α : Type} (code : Int) : M σ α := fun s => (Res.exit code, s)

/-- Record an event. -/
def emit {σ : Type} (e : Ev) : M σ Unit := fun s =>
  (Res.ok (), { s with trace := s.trace ++ [e] })

def get {σ : Type} : M σ (Sup σ) := fun s => (Res.ok s, s)

def modify {σ : Type} (f : Sup σ → Sup σ) : M σ Unit := fun s => (Res.ok (), f s)

/-- A library call that changes the world and returns a value. -/
def call {σ α : Type} (f : σ → α × σ) : M σ α := fun s =>
  let r := f s.w
  (Res.ok r.1, { s with w := r.2 })

/-- A library call that only changes the world. -/
def call0 {σ : Type} (f : σ → σ) : M σ Unit := fun s => (Res.ok (), { s with w := f s.w })

def einfo {σ : Type} (msg : String) : M σ Unit := emit (Ev.einfo msg)
def ewarn {σ : Type} (msg : String) : M σ Unit := emit (Ev.ewarn msg)
def eerror {σ : Type} (msg : String) : M σ Unit := emit (Ev.eerror msg)

/-- The einfo call `ewarnx`: warn, then `exit (EXIT_FAILURE)`. -/
def ewarnx {σ α : Type} (msg : String) : M σ α := fun s =>
  (Res.exit EXIT_FAILURE, { s with trace := s.trace ++ [Ev.ewarn msg] })

/-- The einfo call `eerrorx`: report, then `exit (EXIT_FAILURE)`. -/
def eerrorx {σ α : Type} (msg : String) : M σ α := fun s =>
  (Res.exit EXIT_FAILURE, { s with trace := s.trace ++ [Ev.eerror msg] })

/-- The macro `STRLIST_FOREACH` with a body that may exit. -/
def forEach {σ : Type} (body : String → M σ Unit) : List String → M σ Unit
  | [] => pure ()
  | x :: xs => M.bind (body x) (fun _ => forEach body xs)

/-- Modelled from the spec: `rc_strcatpaths (RC_SVCDIR, dir, name, NULL)` of librc,
which gives the path `<svcdir>/<dir>/<name>` of the file layout. -/
def rc_strcatpaths (svcdir dir name : String) : String :=
  svcdir ++ "/" ++ dir ++ "/" ++ name

/-- The argument `service` of a library call. -/
def svcOf {σ : Type} (s : Sup σ) : String := s.service.getD ""

def rc_service_state {σ : Type} (L : Lib σ) (svc : String) : M σ Nat := fun s =>
  (Res.ok (L.rc_service_state s.w svc), s)

def rc_service_mark {σ : Type} (L : Lib σ) (svc : String) (st : Nat) : M σ Bool := do
  emit (Ev.mark svc st)
  call (fun w => L.rc_service_mark w svc st)

def rc_plugin_run {σ : Type} (L : Lib σ) (h : Hook) (applet : String) : M σ Unit := do
  emit (Ev.hook h applet)
  call0 (fun w => L.rc_plugin_run w h applet)

def unlink {σ : Type} (L : Lib σ) (path : Option String) : M σ Bool := do
  emit (Ev.unlink path)
  call (fun w => L.unlink w path)

/-! ## get_mtime and in_control -/

/-- The function `get_mtime`: 0 for a null path or a failed (l)stat. -/
def get_mtime {σ : Type} (L : Lib σ) (w : σ) (pathname : Option String)
    (follow_link : Bool) : Int :=
  match pathname with
  | none => 0
  | some p =>
    match (if follow_link then L.stat_mtime w p else L.lstat_mtime w p) with
    | some m => m
    | none => 0

/-- The array `tests` of `in_control`. -/
def in_control_tests : List String :=
  ["starting", "started", "stopping", "inactive", "wasinactive"]

/-- The `while (tests[i])` loop of `in_control`. -/
def in_control_loop {σ : Type} (L : Lib σ) (w : σ) (applet : String) (mtime : Int) :
    List String → Bool
  | [] => true
  | t :: ts =>
    let path := rc_strcatpaths L.RC_SVCDIR t applet
    if L.fexists w path then
      let m := get_mtime L w (some path) false
      if mtime < m && m != 0 then false
      else in_control_loop L w applet mtime ts
    else in_control_loop L w applet mtime ts

/-- The function `in_control`. -/
def in_control {σ : Type} (L : Lib σ) (s : Sup σ) : Bool :=
  if s.sighup then false
  else
    match s.mtime_test with
    | none => false
    | some probe =>
      if !L.fexists s.w probe then false
      else if has (L.rc_service_state s.w s.applet) L.bits.STOPPED then false
      else
        let mtime := get_mtime L s.w (some probe) false
        if mtime == 0 then false
        else in_control_loop L s.w s.applet mtime in_control_tests

/-! ## svc_status and the `status` branch of the dispatcher -/

/-- The function `svc_status`: one line through einfo, ewarn or eerror. -/
def svc_status {σ : Type} (L : Lib σ) : M σ Nat := fun s =>
  let state := L.rc_service_state s.w (svcOf s)
  let b := L.bits
  let out : Ev :=
    if has state b.STOPPING then Ev.ewarn "status: stopping"
    else if has state b.STARTING then Ev.ewarn "status: starting"
    else if has state b.INACTIVE then Ev.ewarn "status: inactive"
    else if has state b.STARTED then
      if L.geteuid == 0 && L.rc_service_daemons_crashed s.w (svcOf s) then
        Ev.eerror "status: crashed"
      else Ev.einfo "status: started"
    else Ev.einfo "status: stopped"
  (Res.ok state, { s with trace := s.trace ++ [out] })

/-- The `status` branch of the dispatcher loop in `runscript`:
`retval = (int) r; if (retval & RC_SERVICE_STARTED) retval = 0;`.
The state is a union of the enum's masks, so the cast keeps its value. -/
def action_status {σ : Type} (L : Lib σ) : M σ Unit := do
  let r ← svc_status L
  modify (fun s => { s with retval := if has r L.bits.STARTED then 0 else (r : Int) })

/-! ## svc_wait -/

def WAIT_INTERVAL : Nat := 20000000
def WAIT_MAX : Nat := 300
def ONE_SECOND : Nat := 1000000000

/-- Modelled from the spec: `basename_c` of rc-misc, the part of a path after its
last slash (`<svcdir>/exclusive/<basename(peer)>`). -/
def basename_c (path : String) : String :=
  String.mk ((path.toList.reverse.takeWhile (fun c => c != '/')).reverse)

/-- The `while (nloops)` loop of `svc_wait`; the result is `retval` at the end of
the loop.  The first argument is the fuel of the model: with `forever` the C loop
has no bound of its own. -/
def svc_wait_loop {σ : Type} (L : Lib σ) (fifo : String) (forever : Bool) :
    Nat → Nat → M σ Bool
  | _, 0 => fun s => (Res.ok false, s)
  | 0, _ + 1 => fun s => (Res.hang, s)
  | fuel + 1, n + 1 => fun s =>
    let s1 := { s with trace := s.trace ++ [Ev.poll fifo] }
    if !L.fexists s1.w fifo then (Res.ok true, s1)
    else
      let r := L.nanosleep s1.w WAIT_INTERVAL
      let s2 := { s1 with w := r.2, trace := s1.trace ++ [Ev.sleep WAIT_INTERVAL] }
      if r.1 == SleepRes.failed then (Res.ok false, s2)
      else svc_wait_loop L fifo forever fuel (if forever then n + 1 else n) s2

/-- The start value of `nloops` in `svc_wait`. -/
def svc_wait_nloops : Nat := WAIT_MAX * (ONE_SECOND / WAIT_INTERVAL)

/-- The function `svc_wait`. -/
def svc_wait {σ : Type} (L : Lib σ) (fuel : Nat) (svc : String) : M σ Bool := fun s =>
  match s.service with
  | none => (Res.ok false, s)
  | some _ =>
    let keywords := L.rc_deptree_depend s.w svc "keywords"
    let forever := keywords.contains "notimeout"
    let fifo := rc_strcatpaths L.RC_SVCDIR "exclusive" (basename_c svc)
    match svc_wait_loop L fifo forever fuel svc_wait_nloops s with
    | (Res.ok retval, s1) => (Res.ok (if !L.fexists s1.w fifo then true else retval), s1)
    | (Res.exit c, s1) => (Res.exit c, s1)
    | (Res.hang, s1) => (Res.hang, s1)

/-! ## The exclusive marker and the ownership probe -/

/-- The function `make_exclusive`. -/
def make_exclusive {σ : Type} (L : Lib σ) : M σ Unit := do
  let s ← get
  let excl := match s.exclusive with
    | some e => e
    | none => rc_strcatpaths L.RC_SVCDIR "exclusive" s.applet
  modify (fun s => { s with exclusive := some excl })
  emit (Ev.mkfifo excl)
  let r ← call (fun w => L.mkfifo w excl)
  if r == FifoRes.failed || (r == FifoRes.eacces && L.geteuid == 0) then
    eerrorx (s.applet ++ ": unable to create fifo " ++ excl)
  else do
    let path := rc_strcatpaths L.RC_SVCDIR "exclusive" s.applet
    let probe := path ++ "." ++ toString L.getpid
    modify (fun s => { s with mtime_test := some probe })
    let s1 ← get
    let stale ← (if L.fexists s1.w probe then do
        let ok ← unlink L (some probe)
        pure (!ok)
      else pure false)
    if stale then do
      eerror (s.applet ++ ": unlink " ++ probe)
      modify (fun s => { s with mtime_test := none })
    else do
      emit (Ev.symlink (svcOf s) probe)
      let ok ← call (fun w => L.symlink w (svcOf s) probe)
      if !ok then do
        eerror (s.applet ++ ": symlink " ++ svcOf s ++ " to " ++ probe)
        modify (fun s => { s with mtime_test := none })
      else pure ()

/-- The function `unlink_mtime_test`. -/
def unlink_mtime_test {σ : Type} (L : Lib σ) : M σ Unit := do
  let s ← get
  let ok ← unlink L s.mtime_test
  (if !ok then eerror (s.applet ++ ": unlink " ++ s.mtime_test.getD "(null)") else pure ())
  modify (fun s => { s with mtime_test := none })

/-- The function `uncoldplug`. -/
def uncoldplug {σ : Type} (L : Lib σ) : M σ Unit := do
  emit (Ev.enter "uncoldplug")
  let s ← get
  let cold := rc_strcatpaths L.RC_SVCDIR "coldplugged" s.applet
  if L.fexists s.w cold then do
    let ok ← unlink L (some cold)
    if !ok then eerror (s.applet ++ ": unlink " ++ cold) else pure ()
  else pure ()

def rc_service_start {σ : Type} (L : Lib σ) (svc : String) : M σ Unit := do
  emit (Ev.start svc)
  call0 (fun w => L.rc_service_start w svc)

def rc_service_stop {σ : Type} (L : Lib σ) (svc : String) : M σ Unit := do
  emit (Ev.stop svc)
  call0 (fun w => L.rc_service_stop w svc)

def rc_waitpid {σ : Type} (L : Lib σ) : M σ Unit := do
  emit Ev.waitpid
  call0 (fun w => L.rc_waitpid w)

def rc_service_schedule_start {σ : Type} (L : Lib σ) (trigger target : String) : M σ Unit := do
  emit (Ev.schedule trigger target)
  call0 (fun w => L.rc_service_schedule_start w trigger target)

/-- The body of the loop of `start_services`; `state` was read before the loop. -/
def start_services_body {σ : Type} (L : Lib σ) (state : Nat) (svc : String) : M σ Unit := do
  let s ← get
  if has (L.rc_service_state s.w svc) L.bits.STOPPED then
    if has state L.bits.INACTIVE || has state L.bits.WASINACTIVE then do
      rc_service_schedule_start L (svcOf s) svc
      ewarn ("WARNING: " ++ svc ++ " is scheduled to started when " ++ s.applet ++ " has started")
    else rc_service_start L svc
  else pure ()

/-- The function `start_services`. -/
def start_services {σ : Type} (L : Lib σ) (list : List String) : M σ Unit := do
  let s ← get
  let state := L.rc_service_state s.w (svcOf s)
  if has state L.bits.INACTIVE || has state L.bits.WASINACTIVE ||
      has state L.bits.STARTING || has state L.bits.STARTED then
    forEach (start_services_body L state) list
  else pure ()

/-! ## restore_state and cleanup -/

/-- The two marks of a branch of `restore_state`. -/
def restore_marks {σ : Type} (L : Lib σ) (applet : String) (state : Nat)
    (other : Nat) (transition : σ → Bool) : M σ Unit := do
  let _ ← (if has state L.bits.WASINACTIVE then rc_service_mark L applet L.bits.INACTIVE
    else rc_service_mark L applet other)
  let s ← get
  if transition s.w then do
    let _ ← rc_service_mark L applet L.bits.FAILED
    pure ()
  else pure ()

/-- The function `restore_state`. -/
def restore_state {σ : Type} (L : Lib σ) : M σ Unit := do
  let s ← get
  if s.rc_in_plugin || !in_control L s then pure ()
  else do
    let state := L.rc_service_state s.w s.applet
    (if has state L.bits.STOPPING then
      restore_marks L s.applet state L.bits.STARTED L.rc_runlevel_stopping
    else if has state L.bits.STARTING then
      restore_marks L s.applet state L.bits.STOPPED L.rc_runlevel_starting
    else pure ())
    let s1 ← get
    (match s1.exclusive with
      | some e => do
        let _ ← unlink L (some e)
        pure ()
      | none => pure ())
    modify (fun s => { s with exclusive := none })

def PREFIX_LOCK {σ : Type} (L : Lib σ) : String := L.RC_SVCDIR ++ "/prefix.lock"

/-- The hooks that `cleanup` fires for the pending `hook_out`. -/
def cleanup_hooks {σ : Type} (L : Lib σ) : M σ Unit := do
  let s ← get
  match s.hook_out with
  | none => pure ()
  | some h => do
    rc_plugin_run L h s.applet
    if h = Hook.START_DONE then rc_plugin_run L Hook.START_OUT s.applet
    else if h = Hook.STOP_DONE then rc_plugin_run L Hook.STOP_OUT s.applet
    else pure ()

/-- The lines `if (prefix_locked) unlink (PREFIX_LOCK)` of `cleanup`. -/
def cleanup_lock {σ : Type} (L : Lib σ) : M σ Unit := do
  let s ← get
  if s.prefix_locked then do
    let _ ← unlink L (some (PREFIX_LOCK L))
    pure ()
  else pure ()

/-- The lines `if (restart_services) start_services (restart_services)` of `cleanup`. -/
def cleanup_restart {σ : Type} (L : Lib σ) : M σ Unit := do
  let s1 ← get
  if !s1.restart_services.isEmpty then start_services L s1.restart_services else pure ()

/-- The last lines of `cleanup`: `if (mtime_test) { if (! rc_in_plugin) unlink (mtime_test); ... }`. -/
def cleanup_probe {σ : Type} (L : Lib σ) : M σ Unit := do
  let s2 ← get
  match s2.mtime_test with
  | some p =>
    if !s2.rc_in_plugin then do
      let _ ← unlink L (some p)
      pure ()
    else pure ()
  | none => pure ()

/-- The `atexit` handler `cleanup`, without the calls of `free`. -/
def cleanup {σ : Type} (L : Lib σ) : M σ Unit := do
  restore_state L
  let s ← get
  (if !s.rc_in_plugin then do
    cleanup_lock L
    cleanup_hooks L
    cleanup_restart L
  else pure ())
  cleanup_probe L

/-! ## svc_exec -/

/-- The function `svc_exec`: the shell helper runs as a child on
`(service, arg1, arg2)`; `run_child` is the fork, the select loop and the
`rc_waitpid` of the child, and is `none` when pipe, fcntl or vfork fail. -/
def svc_exec {σ : Type} (L : Lib σ) (arg1 : String) (arg2 : Option String) : M σ Bool := do
  let s ← get
  emit (Ev.exec arg1 arg2)
  let r ← call (fun w => L.run_child w (svcOf s) arg1 arg2)
  match r with
  | some execok => pure execok
  | none => eerrorx (svcOf s ++ ": pipe, fcntl or vfork failed")

/-- The function `get_started_services`. -/
def get_started_services {σ : Type} (L : Lib σ) : M σ Unit :=
  modify (fun s => { s with
    restart_services :=
      L.rc_services_in_state s.w L.bits.STARTED ++ L.rc_services_in_state s.w L.bits.INACTIVE,
    tmplist := [] })

/-! ## svc_start -/

def types_b : List String := ["broken"]
def types_n : List String := ["ineed"]
def types_nu : List String := ["ineed", "iuse"]
def types_nua : List String := ["ineed", "iuse", "iafter"]
def types_m : List String := ["needsme"]
def types_mua : List String := ["needsme", "usesme", "beforeme"]

/-- Modelled from the spec: the runlevel names `RC_LEVEL_BOOT`, `RC_LEVEL_SHUTDOWN`,
`RC_LEVEL_REBOOT` and `RC_LEVEL_SINGLE` of rc.h (soft-level shutdown/reboot/single). -/
def RC_LEVEL_BOOT : String := "boot"
def RC_LEVEL_SHUTDOWN : String := "shutdown"
def RC_LEVEL_REBOOT : String := "reboot"
def RC_LEVEL_SINGLE : String := "single"

/-- The C operator `!` on a state: 1 for 0, else 0. -/
def lnot (state : Nat) : Nat := if state = 0 then 1 else 0

/-- The test of the entry guard of `svc_start`, as C parses it:
`! state & RC_SERVICE_INACTIVE && ! state & RC_SERVICE_STOPPED` is
`((!state) & INACTIVE) && ((!state) & STOPPED)`. -/
def svc_start_guard_test (b : StateBits) (state : Nat) : Bool :=
  has (lnot state) b.INACTIVE && has (lnot state) b.STOPPED

/-- The statement `if (! deptree && ((deptree = _rc_deptree_load (NULL)) == NULL))`. -/
def load_deptree {σ : Type} (L : Lib σ) : M σ Unit := do
  let s ← get
  if !s.deptree then
    if L.deptree_load s.w then modify (fun s => { s with deptree := true })
    else eerrorx "failed to load deptree"
  else pure ()

/-- The loop of `svc_start` that starts the stopped `iuse` services. -/
def start_use_body {σ : Type} (L : Lib σ) (svc : String) : M σ Unit := do
  let s ← get
  if has (L.rc_service_state s.w svc) L.bits.STOPPED then do
    rc_service_start L svc
    if !L.rc_conf_yesno "rc_parallel" then rc_waitpid L else pure ()
  else pure ()

/-- The inner loop over `need_services` in the wait loop of `svc_start`. -/
def start_need_body {σ : Type} (L : Lib σ) (svc : String) (svcs : Nat) (svc2 : String) :
    M σ Unit := do
  let s ← get
  if svc == svc2 then
    if has svcs L.bits.INACTIVE || has svcs L.bits.WASINACTIVE then
      modify (fun s => { s with tmplist := s.tmplist ++ [svc] })
    else eerrorx ("ERROR: cannot start " ++ s.applet ++ " as " ++ svc ++ " would not start")
  else pure ()

/-- The body of the wait loop of `svc_start`. -/
def start_wait_body {σ : Type} (L : Lib σ) (fuel : Nat) (svc : String) : M σ Unit := do
  let s ← get
  let svcs := L.rc_service_state s.w svc
  if has svcs L.bits.STARTED then pure ()
  else if has svcs L.bits.STARTING && has svcs L.bits.WASINACTIVE &&
      !s.use_services.contains svc then pure ()
  else do
    let ok ← svc_wait L fuel svc
    (if !ok then eerror (s.applet ++ ": timed out waiting for " ++ svc) else pure ())
    let s1 ← get
    let svcs1 := L.rc_service_state s1.w svc
    if has svcs1 L.bits.STARTED then pure ()
    else forEach (start_need_body L svc svcs1) s1.need_services

/-- The text that `svc_start` builds from the scheduled-by list; `i` is the
counter of `STRLIST_FOREACH`, which is 1 at the first element. -/
def sched_text (n : Nat) : Nat → List String → String
  | _, [] => ""
  | i, x :: xs =>
    (if i > 1 then (if i == n then " or " else ", ") else "") ++ x ++ sched_text n (i + 1) xs

/-- The body of the loop of `svc_start` over the scheduled-by list. -/
def start_sched_body {σ : Type} (L : Lib σ) (svc : String) : M σ Unit := do
  let s ← get
  rc_service_schedule_start L svc (svcOf s)
  let s1 ← get
  let provide := L.rc_deptree_depend s1.w "iprovide" svc
  modify (fun s => { s with providelist := provide })
  forEach (fun svc2 => rc_service_schedule_start L svc2 (svcOf s)) provide

/-- The branch `if (tmplist)` of `svc_start`. -/
def start_scheduled {σ : Type} (L : Lib σ) : M σ Unit := do
  let s ← get
  let _ ← rc_service_mark L (svcOf s) L.bits.STOPPED
  unlink_mtime_test L
  forEach (start_sched_body L) s.tmplist
  ewarnx ("WARNING: " ++ s.applet ++ " is scheduled to start when " ++
    sched_text s.tmplist.length 1 s.tmplist ++ " has started")

/-- The wait loop of `svc_start` over `services` and the branch `if (tmplist)` after
it, to `rc_strlist_free (services)`. -/
def start_deps_wait {σ : Type} (L : Lib σ) (fuel : Nat) : M σ Unit := do
  let s ← get
  forEach (start_wait_body L fuel) s.services
  let s2 ← get
  (if !s2.tmplist.isEmpty then start_scheduled L else pure ())
  modify (fun s => { s with services := [] })

/-- The branch `if (deps)` of `svc_start` up to the wait loop: the broken
dependencies, the lists `need_services` and `use_services`, the start of the stopped
`iuse` services, and the list to wait for.  The message of `eerrorn` is recorded as
an `eerror`; each `fprintf (stderr, ...)` is a `stderr` event, and the test `i > 0`
holds at every element, the counter of `STRLIST_FOREACH` being 1 at the first. -/
def start_deps_use {σ : Type} (L : Lib σ) (depoptions : Nat) : M σ Unit := do
  load_deptree L
  let s ← get
  let broken := L.rc_deptree_depends s.w types_b s.applet s.softlevel 0
  modify (fun s => { s with services := broken })
  if !broken.isEmpty then do
    eerror ("ERROR: `" ++ s.applet ++ "' needs ")
    forEach (fun svc => do
      emit (Ev.stderr ", ")
      emit (Ev.stderr svc)) broken
    exit EXIT_FAILURE
  else do
    let need := L.rc_deptree_depends s.w types_n s.applet s.softlevel depoptions
    let use := L.rc_deptree_depends s.w types_nu s.applet s.softlevel depoptions
    modify (fun s => { s with services := [], need_services := need, use_services := use })
    (if !L.rc_runlevel_starting s.w then forEach (start_use_body L) use else pure ())
    let s1 ← get
    let nua := L.rc_deptree_depends s1.w types_nua s1.applet s1.softlevel depoptions
    modify (fun s => { s with services := nua, tmplist := [] })

/-- The branch `if (deps)` of `svc_start`. -/
def svc_start_deps {σ : Type} (L : Lib σ) (fuel : Nat) (depoptions : Nat) : M σ Unit := do
  start_deps_use L depoptions
  start_deps_wait L fuel

/-- The loop of `svc_start` that starts the stopped services of a scheduled list. -/
def start_stopped_body {σ : Type} (L : Lib σ) (svc : String) : M σ Unit := do
  let s ← get
  if has (L.rc_service_state s.w svc) L.bits.STOPPED then rc_service_start L svc
  else pure ()

/-- The loop of `svc_start` over the services that the applet provides. -/
def start_provided_body {σ : Type} (L : Lib σ) (svc2 : String) : M σ Unit := do
  let s ← get
  let sched := L.rc_services_scheduled s.w svc2
  modify (fun s => { s with services := sched })
  forEach (start_stopped_body L) sched

/-- From `if (ibsave) setenv (...)` to `rc_plugin_run (RC_HOOK_SERVICE_START_NOW, applet)`. -/
def start_now {σ : Type} (L : Lib σ) : M σ Unit := do
  let s ← get
  (match s.ibsave with
    | some v => emit (Ev.setenv "IN_BACKGROUND" v)
    | none => pure ())
  modify (fun s => { s with hook_out := some Hook.START_DONE })
  rc_plugin_run L Hook.START_NOW s.applet

/-- From `started = svc_exec ("start", NULL)` to `unlink_mtime_test ()`. -/
def start_run {σ : Type} (L : Lib σ) : M σ Unit := do
  let started ← svc_exec L "start" none
  let s ← get
  (match s.ibsave with
    | some _ => emit (Ev.unsetenv "IN_BACKGROUND")
    | none => pure ())
  (if in_control L s then
    (if !started then eerrorx ("ERROR: " ++ s.applet ++ " failed to start") else pure ())
  else if has (L.rc_service_state s.w (svcOf s)) L.bits.INACTIVE then
    ewarnx ("WARNING: " ++ s.applet ++ " has started, but is inactive")
  else ewarnx ("WARNING: " ++ s.applet ++ " not under our control, aborting"))
  let _ ← rc_service_mark L (svcOf s) L.bits.STARTED
  unlink_mtime_test L

/-- The lines `hook_out = RC_HOOK_SERVICE_START_OUT; rc_plugin_run (RC_HOOK_SERVICE_START_DONE, applet)`. -/
def start_done {σ : Type} (L : Lib σ) : M σ Unit := do
  let s ← get
  modify (fun s => { s with hook_out := some Hook.START_OUT })
  rc_plugin_run L Hook.START_DONE s.applet

/-- From `if (exclusive) unlink (exclusive)` to the end of the two loops that start
the scheduled services. -/
def start_sched {σ : Type} (L : Lib σ) : M σ Unit := do
  let s2 ← get
  (match s2.exclusive with
    | some e => do
      let _ ← unlink L (some e)
      pure ()
    | none => pure ())
  let s3 ← get
  let sched := L.rc_services_scheduled s3.w (svcOf s3)
  modify (fun s => { s with services := sched })
  forEach (start_stopped_body L) sched
  let s4 ← get
  let provide := L.rc_deptree_depend s4.w "iprovide" s4.applet
  modify (fun s => { s with services := [], tmplist := provide })
  forEach (start_provided_body L) provide

/-- The lines `hook_out = 0; rc_plugin_run (RC_HOOK_SERVICE_START_OUT, applet)`. -/
def start_out {σ : Type} (L : Lib σ) : M σ Unit := do
  let s ← get
  modify (fun s => { s with hook_out := none })
  rc_plugin_run L Hook.START_OUT s.applet

/-- The lines of `svc_start` from the re-export of IN_BACKGROUND to its end. -/
def svc_start_exec {σ : Type} (L : Lib σ) : M σ Unit := do
  start_now L
  start_run L
  start_done L
  start_sched L
  start_out L

/-- The lines of `svc_start` from `rc_service_mark (service, RC_SERVICE_STARTING)` to
`make_exclusive (service)`. -/
def start_mark {σ : Type} (L : Lib σ) : M σ Unit := do
  let s ← get
  let ok ← rc_service_mark L (svcOf s) L.bits.STARTING
  if !ok then eerrorx ("ERROR: " ++ s.applet ++ " has been started by something else")
  else make_exclusive L

/-- The lines `hook_out = RC_HOOK_SERVICE_START_OUT; rc_plugin_run (RC_HOOK_SERVICE_START_IN, applet)`. -/
def start_in {σ : Type} (L : Lib σ) : M σ Unit := do
  let s ← get
  modify (fun s => { s with hook_out := some Hook.START_OUT })
  rc_plugin_run L Hook.START_IN s.applet

/-- From the computation of `depoptions` to the end of the branch `if (deps)`. -/
def start_deps {σ : Type} (L : Lib σ) (fuel : Nat) (deps : Bool) : M σ Unit := do
  let s1 ← get
  let depoptions := (L.RC_DEP_TRACE |||
    (if L.rc_conf_yesno "rc_depend_strict" then L.RC_DEP_STRICT else 0)) |||
    (if L.rc_runlevel_starting s1.w then L.RC_DEP_START else 0)
  if deps then svc_start_deps L fuel depoptions else pure ()

/-- The lines of `svc_start` from `rc_service_mark (service, RC_SERVICE_STARTING)` to
the end of the branch `if (deps)`. -/
def svc_start_pre {σ : Type} (L : Lib σ) (fuel : Nat) (deps : Bool) : M σ Unit := do
  start_mark L
  start_in L
  start_deps L fuel deps

/-- The lines of `svc_start` from `rc_service_mark (service, RC_SERVICE_STARTING)` on. -/
def svc_start_body {σ : Type} (L : Lib σ) (fuel : Nat) (deps : Bool) : M σ Unit := do
  svc_start_pre L fuel deps
  svc_start_exec L

/-- The function `svc_start`. -/
def svc_start {σ : Type} (L : Lib σ) (fuel : Nat) (deps : Bool) : M σ Unit := do
  let s ← get
  let state := L.rc_service_state s.w (svcOf s)
  let background ← (if s.in_hotplug || s.in_background then
      (if svc_start_guard_test L.bits state then exit EXIT_FAILURE else pure true)
    else pure false)
  if has state L.bits.STARTED then
    ewarn ("WARNING: " ++ s.applet ++ " has already been started")
  else if has state L.bits.STARTING then
    ewarnx ("WARNING: " ++ s.applet ++ " is already starting")
  else if has state L.bits.STOPPING then
    ewarnx ("WARNING: " ++ s.applet ++ " is stopping")
  else if has state L.bits.INACTIVE && !background then
    ewarnx ("WARNING: " ++ s.applet ++ " has already started, but is inactive")
  else svc_start_body L fuel deps

/-! ## svc_stop -/

/-- The first loop of the branch `if (deps ...)` of `svc_stop`: stop the services
that need this one. -/
def stop_needsme_body {σ : Type} (L : Lib σ) (fuel : Nat) (svc : String) : M σ Unit := do
  let s ← get
  let svcs := L.rc_service_state s.w svc
  if has svcs L.bits.STARTED || has svcs L.bits.INACTIVE then do
    let _ ← svc_wait L fuel svc
    let s1 ← get
    let svcs1 := L.rc_service_state s1.w svc
    if has svcs1 L.bits.STARTED || has svcs1 L.bits.INACTIVE then do
      rc_service_stop L svc
      (if !L.rc_conf_yesno "rc_parallel" then rc_waitpid L else pure ())
      modify (fun s => { s with tmplist := s.tmplist ++ [svc] })
    else pure ()
  else pure ()

/-- The test on `softlevel` in `svc_stop`. -/
def softlevel_is_down (softlevel : Option String) : Bool :=
  match softlevel with
  | none => false
  | some l => l == RC_LEVEL_SHUTDOWN || l == RC_LEVEL_REBOOT || l == RC_LEVEL_SINGLE

/-- The second loop: wait for the services that were told to stop. -/
def stop_check_body {σ : Type} (L : Lib σ) (fuel : Nat) (svc : String) : M σ Unit := do
  let s ← get
  if has (L.rc_service_state s.w svc) L.bits.STOPPED then pure ()
  else do
    let _ ← svc_wait L fuel svc
    let s1 ← get
    if !has (L.rc_service_state s1.w svc) L.bits.STOPPED then
      if L.rc_runlevel_stopping s1.w then
        if softlevel_is_down s1.softlevel then pure ()
        else do
          let _ ← rc_service_mark L (svcOf s1) L.bits.FAILED
          eerrorx ("ERROR:  cannot stop " ++ s1.applet ++ " as " ++ svc ++ " is still up")
      else eerrorx ("ERROR:  cannot stop " ++ s1.applet ++ " as " ++ svc ++ " is still up")
    else pure ()

/-- The third loop: wait for the services that use this one. -/
def stop_wait_body {σ : Type} (L : Lib σ) (fuel : Nat) (svc : String) : M σ Unit := do
  let s ← get
  if has (L.rc_service_state s.w svc) L.bits.STOPPED then pure ()
  else do
    let _ ← svc_wait L fuel svc
    pure ()

/-- The first part of the branch `if (deps ...)` of `svc_stop`: tell the services
that need this one to stop, and keep them in `tmplist`. -/
def stop_deps_stopall {σ : Type} (L : Lib σ) (fuel : Nat) (depoptions : Nat) : M σ Unit := do
  let s1 ← get
  let needsme := (L.rc_deptree_depends s1.w types_m s1.applet s1.softlevel depoptions).reverse
  modify (fun s => { s with tmplist := [], services := needsme })
  forEach (stop_needsme_body L fuel) needsme
  modify (fun s => { s with services := [] })

/-- The second part: the loop over `tmplist`. -/
def stop_deps_check {σ : Type} (L : Lib σ) (fuel : Nat) : M σ Unit := do
  let s2 ← get
  forEach (stop_check_body L fuel) s2.tmplist
  modify (fun s => { s with tmplist := [] })

/-- The third part: wait for the services that use this one. -/
def stop_deps_users {σ : Type} (L : Lib σ) (fuel : Nat) (depoptions : Nat) : M σ Unit := do
  let s3 ← get
  let mua := L.rc_deptree_depends s3.w types_mua s3.applet s3.softlevel depoptions
  modify (fun s => { s with services := mua })
  forEach (stop_wait_body L fuel) mua
  modify (fun s => { s with services := [] })

/-- The branch `if (deps && ! (state & RC_SERVICE_WASINACTIVE))` of `svc_stop`. -/
def svc_stop_deps {σ : Type} (L : Lib σ) (fuel : Nat) : M σ Unit := do
  let s ← get
  let depoptions := (L.RC_DEP_TRACE |||
    (if L.rc_conf_yesno "rc_depend_strict" then L.RC_DEP_STRICT else 0)) |||
    (if L.rc_runlevel_stopping s.w then L.RC_DEP_STOP else 0)
  load_deptree L
  stop_deps_stopall L fuel depoptions
  stop_deps_check L fuel
  stop_deps_users L fuel depoptions

/-- From `if (ibsave) setenv (...)` to `rc_plugin_run (RC_HOOK_SERVICE_STOP_NOW, applet)`. -/
def stop_now {σ : Type} (L : Lib σ) : M σ Unit := do
  let s ← get
  (match s.ibsave with
    | some v => emit (Ev.setenv "IN_BACKGROUND" v)
    | none => pure ())
  modify (fun s => { s with hook_out := some Hook.STOP_DONE })
  rc_plugin_run L Hook.STOP_NOW s.applet

/-- From `stopped = svc_exec ("stop", NULL)` to `unlink_mtime_test ()`. -/
def stop_run {σ : Type} (L : Lib σ) : M σ Unit := do
  let stopped ← svc_exec L "stop" none
  let s ← get
  (match s.ibsave with
    | some _ => emit (Ev.unsetenv "IN_BACKGROUND")
    | none => pure ())
  (if !in_control L s then
    ewarnx ("WARNING: " ++ s.applet ++ " not under our control, aborting")
  else pure ())
  (if !stopped then eerrorx ("ERROR: " ++ s.applet ++ " failed to stop") else pure ())
  let _ ← (if s.in_background then rc_service_mark L (svcOf s) L.bits.INACTIVE
    else rc_service_mark L (svcOf s) L.bits.STOPPED)
  unlink_mtime_test L

/-- The lines `hook_out = RC_HOOK_SERVICE_STOP_OUT; rc_plugin_run (RC_HOOK_SERVICE_STOP_DONE, applet)`. -/
def stop_done {σ : Type} (L : Lib σ) : M σ Unit := do
  let s ← get
  modify (fun s => { s with hook_out := some Hook.STOP_OUT })
  rc_plugin_run L Hook.STOP_DONE s.applet

/-- The lines `if (exclusive) unlink (exclusive)` of `svc_stop`. -/
def stop_unlink {σ : Type} (L : Lib σ) : M σ Unit := do
  let s2 ← get
  match s2.exclusive with
  | some e => do
    let _ ← unlink L (some e)
    pure ()
  | none => pure ()

/-- The lines `hook_out = 0; rc_plugin_run (RC_HOOK_SERVICE_STOP_OUT, applet)`. -/
def stop_out {σ : Type} (L : Lib σ) : M σ Unit := do
  let s ← get
  modify (fun s => { s with hook_out := none })
  rc_plugin_run L Hook.STOP_OUT s.applet

/-- The lines of `svc_stop` from the re-export of IN_BACKGROUND to its end. -/
def svc_stop_exec {σ : Type} (L : Lib σ) : M σ Unit := do
  stop_now L
  stop_run L
  stop_done L
  stop_unlink L
  stop_out L

/-- The lines of `svc_stop` from `rc_service_mark (service, RC_SERVICE_STOPPING)` to
`make_exclusive (service)`. -/
def stop_mark {σ : Type} (L : Lib σ) : M σ Unit := do
  let s ← get
  let ok ← rc_service_mark L (svcOf s) L.bits.STOPPING
  if !ok then eerrorx ("ERROR: " ++ s.applet ++ " has been stopped by something else")
  else make_exclusive L

/-- The lines `hook_out = RC_HOOK_SERVICE_STOP_OUT; rc_plugin_run (RC_HOOK_SERVICE_STOP_IN, applet)`. -/
def stop_in {σ : Type} (L : Lib σ) : M σ Unit := do
  let s ← get
  modify (fun s => { s with hook_out := some Hook.STOP_OUT })
  rc_plugin_run L Hook.STOP_IN s.applet

/-- From the boot-service warning to the end of the branch `if (deps ...)`;
`state` was read at the entry of `svc_stop`. -/
def stop_deps {σ : Type} (L : Lib σ) (fuel : Nat) (deps : Bool) (state : Nat) : M σ Unit := do
  let s1 ← get
  (if !L.rc_runlevel_stopping s1.w &&
      L.rc_service_in_runlevel s1.w (svcOf s1) RC_LEVEL_BOOT then
    ewarn "WARNING: you are stopping a boot service"
  else pure ())
  (if deps && !has state L.bits.WASINACTIVE then svc_stop_deps L fuel else pure ())

/-- The lines of `svc_stop` from `rc_service_mark (service, RC_SERVICE_STOPPING)` to
the end of the branch `if (deps ...)`. -/
def svc_stop_pre {σ : Type} (L : Lib σ) (fuel : Nat) (deps : Bool) (state : Nat) :
    M σ Unit := do
  stop_mark L
  stop_in L
  stop_deps L fuel deps state

/-- The lines of `svc_stop` from `rc_service_mark (service, RC_SERVICE_STOPPING)` on. -/
def svc_stop_body {σ : Type} (L : Lib σ) (fuel : Nat) (deps : Bool) (state : Nat) :
    M σ Unit := do
  svc_stop_pre L fuel deps state
  svc_stop_exec L

/-- The function `svc_stop`. -/
def svc_stop {σ : Type} (L : Lib σ) (fuel : Nat) (deps : Bool) : M σ Unit := do
  let s ← get
  let state := L.rc_service_state s.w (svcOf s)
  if L.rc_runlevel_stopping s.w && has state L.bits.FAILED then exit EXIT_FAILURE
  else if (s.in_hotplug || s.in_background) &&
      (!has state L.bits.STARTED && !has state L.bits.INACTIVE) then exit EXIT_FAILURE
  else if has state L.bits.STOPPED then
    ewarn ("WARNING: " ++ s.applet ++ " is already stopped")
  else if has state L.bits.STOPPING then
    ewarnx ("WARNING: " ++ s.applet ++ " is already stopping")
  else svc_stop_body L fuel deps state

/-! ## svc_restart -/

/-- The function `svc_restart`. -/
def svc_restart {σ : Type} (L : Lib σ) (fuel : Nat) (deps : Bool) : M σ Unit := do
  let s ← get
  if !deps then do
    let state := L.rc_service_state s.w (svcOf s)
    let _ ← (if has state L.bits.STARTED || has state L.bits.INACTIVE then
        svc_exec L "stop" (some "start")
      else svc_exec L "start" none)
    pure ()
  else do
    (if !has (L.rc_service_state s.w (svcOf s)) L.bits.STOPPED then do
      get_started_services L
      svc_stop L fuel deps
    else pure ())
    svc_start L fuel deps
    let s1 ← get
    start_services L s1.restart_services
    modify (fun s => { s with restart_services := [] })

/-! ## The dispatcher loop of runscript -/

/-- The introspection actions of the dispatcher. -/
def dep_actions : List String :=
  ["ineed", "iuse", "needsme", "usesme", "iafter", "ibefore", "iprovide"]

/-- The first statement of the branch `if (deps)` after `svc_stop (deps)` in the
dispatcher: the call of `uncoldplug`. -/
def stop_uncoldplug {σ : Type} (L : Lib σ) : M σ Unit := do
  let s1 ← get
  if !s1.in_background && !L.rc_runlevel_stopping s1.w &&
      has (L.rc_service_state s1.w (svcOf s1)) L.bits.STOPPED then uncoldplug L
  else pure ()

/-- The second statement of that branch: the services of the snapshot that are
STOPPED are scheduled to start with this one. -/
def stop_reschedule {σ : Type} (L : Lib σ) : M σ Unit := do
  let s2 ← get
  if s2.in_background && has (L.rc_service_state s2.w (svcOf s2)) L.bits.INACTIVE then
    forEach (fun svc => do
      let s3 ← get
      if has (L.rc_service_state s3.w svc) L.bits.STOPPED then
        rc_service_schedule_start L (svcOf s3) svc
      else pure ()) s2.restart_services
  else pure ()

/-- The `stop` branch of the dispatcher. -/
def action_stop {σ : Type} (L : Lib σ) (fuel : Nat) (deps : Bool) : M σ Unit := do
  let s ← get
  (if deps && s.in_background then get_started_services L else pure ())
  svc_stop L fuel deps
  if deps then do
    stop_uncoldplug L
    stop_reschedule L
  else pure ()

/-- The branch of the dispatcher for the actions that need root. -/
def action_root {σ : Type} (L : Lib σ) (fuel : Nat) (deps : Bool) (optarg : String) :
    M σ Unit := do
  let s ← get
  if L.geteuid != 0 then eerrorx (s.applet ++ ": root access required")
  else do
    (if optarg == "conditionalrestart" || optarg == "condrestart" then
      (if has (L.rc_service_state s.w (svcOf s)) L.bits.STARTED then svc_restart L fuel deps
        else pure ())
    else if optarg == "restart" then svc_restart L fuel deps
    else if optarg == "start" then svc_start L fuel deps
    else if optarg == "stop" then action_stop L fuel deps
    else if optarg == "zap" then do
      einfo ("Manually resetting " ++ s.applet ++ " to stopped state")
      let _ ← rc_service_mark L s.applet L.bits.STOPPED
      uncoldplug L
    else do
      let _ ← svc_exec L optarg none
      pure ())
    modify (fun s => { s with restart_services := [] })

/-- One round of the `while (optind < argc)` loop of `runscript`, for the action
`optarg`.  The pty prefix that `describe` and `help` switch off is a detail of
`svc_exec` and is not kept here. -/
def runscript_action {σ : Type} (L : Lib σ) (fuel : Nat) (deps : Bool) (optarg : String) :
    M σ Unit := do
  let s ← get
  if s.sighup then exit EXIT_FAILURE
  else do
    emit (Ev.unsetenv "RC_CMD")
    emit (Ev.setenv "RC_CMD" optarg)
    if optarg == "describe" || optarg == "help" then do
      let _ ← svc_exec L optarg none
      pure ()
    else if dep_actions.contains optarg then do
      let depoptions := L.RC_DEP_TRACE |||
        (if L.rc_conf_yesno "rc_depend_strict" then L.RC_DEP_STRICT else 0)
      load_deptree L
      let s1 ← get
      let list := L.rc_deptree_depends s1.w [optarg] s1.applet s1.softlevel depoptions
      modify (fun s => { s with services := list })
      if !list.isEmpty then emit (Ev.print (" ".intercalate list ++ "\n")) else pure ()
    else if optarg == "status" then action_status L
    else action_root L fuel deps optarg

/-! ## svc_restart in the words of the specification -/

/-- Restart with dependencies in the words of the specification: take the snapshot
list(STARTED) ∪ list(INACTIVE) before stopping; run `svc_stop (true)` if the service
is not STOPPED; run `svc_start (true)`; then start every service of the snapshot
that is now STOPPED. -/
def svc_restart_spec {σ : Type} (L : Lib σ) (fuel : Nat) : M σ Unit := do
  get_started_services L
  let s ← get
  (if !has (L.rc_service_state s.w (svcOf s)) L.bits.STOPPED then svc_stop L fuel true
    else pure ())
  svc_start L fuel true
  let s1 ← get
  forEach (start_stopped_body L) s1.restart_services
  modify (fun s => { s with restart_services := [] })

/-! ## A small concrete world

A state store, a file table and a dependency table as association lists, and the
library calls over them.  The statements below are instantiated on it. -/

structure World where
  states : List (String × Nat)
  files : List (String × Int)
  crashed : List String
  starting : Bool
  stopping : Bool
  depends : List (String × List String)
  depend : List ((String × String) × List String)
  scheduled : List (String × String)
  child : Option Bool
  child_marks : List (String × Nat)
  stubborn : List String
  start_marks : List (String × String × Nat)
  clock : Int
  vanish : List (String × Int)
deriving DecidableEq, Repr

/-- Replace the entry of a key in an association list. -/
def assocSet {β : Type} (k : String) (v : β) : List (String × β) → List (String × β)
  | [] => [(k, v)]
  | (k1, v1) :: rest => if k1 == k then (k, v) :: rest else (k1, v1) :: assocSet k v rest

def World.state (w : World) (svc : String) : Nat :=
  (w.states.lookup (basename_c svc)).getD rcBits.STOPPED

/-- A mark of a principal state replaces the state and touches the marker file;
a mark of FAILED or COLDPLUGGED adds the flag. -/
def World.mark (w : World) (svc : String) (st : Nat) : World :=
  if st == rcBits.FAILED || st == rcBits.COLDPLUGGED then
    { w with states := assocSet (basename_c svc) (w.state svc ||| st) w.states }
  else
    { w with states := assocSet (basename_c svc) st w.states }

def World.unlinkFile (w : World) (path : Option String) : Bool × World :=
  match path with
  | none => (false, w)
  | some p =>
    ((w.files.lookup p).isSome, { w with files := w.files.filter (fun f => f.1 != p) })

/-- Time passes: the clock advances and the files due by now vanish. -/
def World.tick (w : World) : World :=
  { w with
    clock := w.clock + 1,
    files := w.files.filter (fun f =>
      match w.vanish.lookup f.1 with
      | some t => decide (w.clock + 1 < t)
      | none => true) }

def demoLib : Lib World where
  bits := rcBits
  RC_SVCDIR := "/lib/rc/init.d"
  RC_DEP_TRACE := 0x01
  RC_DEP_STRICT := 0x02
  RC_DEP_START := 0x04
  RC_DEP_STOP := 0x08
  geteuid := 0
  getpid := 42
  rc_service_state := fun w svc => w.state svc
  rc_service_mark := fun w svc st => (true, w.mark svc st)
  rc_service_start := fun w svc =>
    (w.start_marks.filter (fun e => e.1 == basename_c svc)).foldl
      (fun acc e => acc.mark e.2.1 e.2.2) (w.mark svc rcBits.STARTED)
  rc_service_stop := fun w svc =>
    if w.stubborn.contains (basename_c svc) then w else w.mark svc rcBits.STOPPED
  rc_waitpid := fun w => w
  rc_service_schedule_start := fun w trigger target =>
    { w with scheduled := w.scheduled ++ [(basename_c trigger, basename_c target)] }
  rc_services_in_state := fun w st =>
    (w.states.filter (fun e => has e.2 st)).map (fun e => e.1)
  rc_services_scheduled := fun w trigger =>
    (w.scheduled.filter (fun e => e.1 == basename_c trigger)).map (fun e => e.2)
  rc_service_in_runlevel := fun _ _ _ => false
  rc_service_daemons_crashed := fun w svc => w.crashed.contains (basename_c svc)
  rc_runlevel_starting := fun w => w.starting
  rc_runlevel_stopping := fun w => w.stopping
  rc_conf_yesno := fun _ => false
  deptree_load := fun _ => true
  rc_deptree_depends := fun w types _ _ _ =>
    types.foldr (fun t acc => (w.depends.lookup t).getD [] ++ acc) []
  rc_deptree_depend := fun w a b => (w.depend.lookup (a, b)).getD []
  rc_plugin_run := fun w _ _ => w
  fexists := fun w p => (w.files.lookup p).isSome
  stat_mtime := fun w p => w.files.lookup p
  lstat_mtime := fun w p => w.files.lookup p
  unlink := fun w p => w.unlinkFile p
  mkfifo := fun w p =>
    if (w.files.lookup p).isSome then (FifoRes.eexist, w)
    else (FifoRes.created, { w with files := w.files ++ [(p, w.clock)] })
  symlink := fun w _ p =>
    if (w.files.lookup p).isSome then (false, w)
    else (true, { w with files := w.files ++ [(p, w.clock)] })
  nanosleep := fun w _ => (SleepRes.done, w.tick)
  run_child := fun w _ _ _ =>
    (w.child, w.child_marks.foldl (fun acc e => acc.mark e.1 e.2) w.tick)

/-- An empty world at time 100. -/
def world0 : World where
  states := []
  files := []
  crashed := []
  starting := false
  stopping := false
  depends := []
  depend := []
  scheduled := []
  child := some true
  child_marks := []
  stubborn := []
  start_marks := []
  clock := 100
  vanish := []

/-- The supervisor of `/etc/init.d/svc` right before its first action. -/
def sup0 (w : World) : Sup World where
  w := w
  applet := "svc"
  service := some "/etc/init.d/svc"
  exclusive := none
  mtime_test := none
  softlevel := some "default"
  sighup := false
  ibsave := none
  in_background := false
  in_hotplug := false
  hook_out := none
  rc_in_plugin := false
  prefix_locked := false
  deptree := false
  services := []
  tmplist := []
  providelist := []
  restart_services := []
  need_services := []
  use_services := []
  retval := EXIT_SUCCESS
  trace := []

/-- A started service whose daemons have crashed. -/
def wCrashed : World := { world0 with states := [("svc", rcBits.STARTED)], crashed := ["svc"] }

/-- The supervisor holds the probe `p`, which exists with mtime 0 (a link made
while the clock stood at the epoch); the service is STARTED and has no marker. -/
def supEpoch : Sup World :=
  { sup0 { world0 with states := [("svc", rcBits.STARTED)], files := [("p", 0)] } with
    mtime_test := some "p" }

/-- A hot-plug invocation (`IN_HOTPLUG=yes`) for a service that is STARTED. -/
def supHotStarted : Sup World :=
  { sup0 { world0 with states := [("svc", rcBits.STARTED)] } with in_hotplug := true }

/-- A runlevel is stopping; `app` needs `svc` and does not stop when told to. -/
def wStubborn : World :=
  { world0 with
    states := [("svc", rcBits.STARTED), ("app", rcBits.STARTED)],
    depends := [("needsme", ["app"])],
    stubborn := ["app"],
    stopping := true }

/-- The supervisor of `svc` in `wStubborn` at the loop over `tmplist`, after `app`
was told to stop, with the soft-level `level`. -/
def supStubborn (level : String) : Sup World :=
  { sup0 wStubborn with softlevel := some level, tmplist := ["app"] }

/-- The supervisor holds the probe `p` (as new as every marker) while the state of
the service is `state`; a runlevel is starting if `starting` is set. -/
def supRestore (state : Nat) (starting : Bool) : Sup World :=
  { sup0 { world0 with states := [("svc", state)], files := [("p", 100)], starting := starting }
    with mtime_test := some "p" }

/-- The supervisor after `mark (STARTING)` and `make_exclusive`, with a SIGHUP seen
since. -/
def supHup : Sup World :=
  { (make_exclusive demoLib (sup0 { world0 with states := [("svc", rcBits.STARTING)] })).2
    with sighup := true }

/-- The service `svc` is STOPPED and `b` is STARTED; the start script of `svc` stops
`b` (a service it cannot run beside). -/
def wRestart : World :=
  { world0 with
    states := [("svc", rcBits.STOPPED), ("b", rcBits.STARTED)],
    child_marks := [("b", rcBits.STOPPED)] }

/-- The peer `net` holds its exclusive marker until the clock reaches 103. -/
def wWait : World :=
  { world0 with
    files := [("/lib/rc/init.d/exclusive/net", 90)],
    vanish := [("/lib/rc/init.d/exclusive/net", 103)] }

/-! ## Notions used by the statements -/

/-- The masks of the five principal states. -/
def principals (b : StateBits) : List Nat :=
  [b.STOPPED, b.STARTING, b.STARTED, b.STOPPING, b.INACTIVE]

/-- The state includes exactly one of the five principal states. -/
def onePrincipal (b : StateBits) (state : Nat) : Prop :=
  ((principals b).filter (fun m => has state m)).length = 1

instance (b : StateBits) (state : Nat) : Decidable (onePrincipal b state) := by
  unfold onePrincipal
  infer_instance

/-- The condition of the control-epoch guard in the words of the specification:
no SIGHUP, the probe exists, the state is not STOPPED, and the probe is not
strictly older than any existing marker. -/
def in_control_spec {σ : Type} (L : Lib σ) (s : Sup σ) : Prop :=
  s.sighup = false ∧
  (∃ probe, s.mtime_test = some probe ∧ L.fexists s.w probe = true ∧
    ∀ t ∈ in_control_tests, L.fexists s.w (rc_strcatpaths L.RC_SVCDIR t s.applet) = true →
      ¬ (get_mtime L s.w (some probe) false <
          get_mtime L s.w (some (rc_strcatpaths L.RC_SVCDIR t s.applet)) false)) ∧
  has (L.rc_service_state s.w s.applet) L.bits.STOPPED = false

/-- The condition that `in_control` computes: as `in_control_spec`, and the mtime
that `get_mtime` gives for the probe is not 0, and a marker for which `get_mtime`
gives 0 is not compared. -/
def in_control_cond {σ : Type} (L : Lib σ) (s : Sup σ) : Prop :=
  s.sighup = false ∧
  (∃ probe, s.mtime_test = some probe ∧ L.fexists s.w probe = true ∧
    get_mtime L s.w (some probe) false ≠ 0 ∧
    ∀ t ∈ in_control_tests, L.fexists s.w (rc_strcatpaths L.RC_SVCDIR t s.applet) = true →
      ¬ (get_mtime L s.w (some probe) false <
          get_mtime L s.w (some (rc_strcatpaths L.RC_SVCDIR t s.applet)) false ∧
        get_mtime L s.w (some (rc_strcatpaths L.RC_SVCDIR t s.applet)) false ≠ 0)) ∧
  has (L.rc_service_state s.w s.applet) L.bits.STOPPED = false

/-- The hooks among the events, in order. -/
def hooksOf : List Ev → List Hook
  | [] => []
  | Ev.hook h _ :: es => h :: hooksOf es
  | _ :: es => hooksOf es

def Ev.isHook : Ev → Bool
  | Ev.hook _ _ => true
  | _ => false

def Ev.isExec : Ev → Bool
  | Ev.exec _ _ => true
  | _ => false

def Ev.isUnlink : Ev → Bool
  | Ev.unlink _ => true
  | _ => false

def Ev.isEnter : Ev → Bool
  | Ev.enter _ => true
  | _ => false

/-- An event that is neither a hook nor an exec nor an unlink (nor an `enter`). -/
def plain (e : Ev) : Bool := !e.isHook && !e.isExec && !e.isUnlink && !e.isEnter

/-- An event that is neither a hook nor an exec (nor an `enter`). -/
def quiet (e : Ev) : Bool := !e.isHook && !e.isExec && !e.isEnter

/-- An event that is not an exec (nor an `enter`). -/
def noExec (e : Ev) : Bool := !e.isExec && !e.isEnter

/-- An event that is not a hook (nor an `enter`). -/
def noHook (e : Ev) : Bool := !e.isHook && !e.isEnter

/-- An event that is not an unlink (nor an `enter`). -/
def noUnlink (e : Ev) : Bool := !e.isUnlink && !e.isEnter

/-- An event that is not an `enter`. -/
def noEnter (e : Ev) : Bool := !e.isEnter

/-- The state `t` comes from `s` by events that satisfy `P` and by changes of the
world and of the working lists only; with `k` the probe and the exclusive path
are kept too, with `h` the pending hook and the restart snapshot. -/
structure Keeps {σ : Type} (P : Ev → Bool) (k h : Bool) (s t : Sup σ) : Prop where
  trace : ∃ evs, t.trace = s.trace ++ evs ∧ evs.all P = true
  applet : t.applet = s.applet
  service : t.service = s.service
  rc_in_plugin : t.rc_in_plugin = s.rc_in_plugin
  restart_services : h = true → t.restart_services = s.restart_services
  in_background : t.in_background = s.in_background
  in_hotplug : t.in_hotplug = s.in_hotplug
  sighup : t.sighup = s.sighup
  softlevel : t.softlevel = s.softlevel
  ibsave : t.ibsave = s.ibsave
  prefix_locked : t.prefix_locked = s.prefix_locked
  probe : k = true → t.mtime_test = s.mtime_test ∧ t.exclusive = s.exclusive
  hook_out : h = true → t.hook_out = s.hook_out

/-- Every run of `m` relates its start to its end by `R`, however it ends. -/
structure Steps {σ α : Type} (R : Sup σ → Sup σ → Prop) (m : M σ α) : Prop where
  run : ∀ s, R s (m s).2

/-- The piece `m` always returns: it neither exits nor waits for ever. -/
structure Returns {σ α : Type} (m : M σ α) : Prop where
  run : ∀ s, ∃ a, (m s).1 = Res.ok a

/-- The piece `m` returns after firing the hook `h` as its only hook, and leaves
`ho` as the pending hook. -/
structure Fires {σ : Type} (h : Hook) (ho : Option Hook) (m : M σ Unit) : Prop where
  run : ∀ s, (m s).1 = Res.ok () ∧ hooksOf (m s).2.trace = hooksOf s.trace ++ [h] ∧
    (m s).2.hook_out = ho ∧ (m s).2.rc_in_plugin = s.rc_in_plugin

/-- The piece `m` fires no hook and keeps the pending hook, however it ends. -/
structure Calm {σ α : Type} (m : M σ α) : Prop where
  run : ∀ s, hooksOf (m s).2.trace = hooksOf s.trace ∧
    (m s).2.hook_out = s.hook_out ∧ (m s).2.rc_in_plugin = s.rc_in_plugin

/-- The hooks that `cleanup` fires for a pending `hook_out`. -/
def pending : Option Hook → List Hook
  | none => []
  | some Hook.START_DONE => [Hook.START_DONE, Hook.START_OUT]
  | some Hook.STOP_DONE => [Hook.STOP_DONE, Hook.STOP_OUT]
  | some h => [h]

/-- The hooks fired between the states `s` and `t`. -/
def fired {σ : Type} (s t : Sup σ) : List Hook :=
  (hooksOf t.trace).drop (hooksOf s.trace).length

/-- The events between the states `s` and `t`. -/
def since {σ : Type} (s t : Sup σ) : List Ev := t.trace.drop s.trace.length

/-- How a piece that is to fire the hooks `target` ends: it returns after firing
them all with no hook pending, or it stops on the way and the pending hooks
complete them. -/
def Ends {σ : Type} (target : List Hook) (s : Sup σ) (r : Res Unit × Sup σ) : Prop :=
  r.2.rc_in_plugin = s.rc_in_plugin ∧
  ((r.1 = Res.ok () ∧ hooksOf r.2.trace = hooksOf s.trace ++ target ∧ r.2.hook_out = none) ∨
   (r.1 ≠ Res.ok () ∧ hooksOf r.2.trace ++ pending r.2.hook_out = hooksOf s.trace ++ target))

/-- How the body of an action with the hooks `hin`, `target` and `hout` ends: with no
hook fired; or stopped after `hin`, with the pending hooks completing `[hin, hout]`
or `hin :: target`; or returned after `hin :: target` with no hook pending. -/
def EndsBody {σ : Type} (hin hout : Hook) (target : List Hook) (s : Sup σ)
    (r : Res Unit × Sup σ) : Prop :=
  r.2.rc_in_plugin = s.rc_in_plugin ∧
  ((r.1 ≠ Res.ok () ∧ hooksOf r.2.trace = hooksOf s.trace) ∨
   (r.1 ≠ Res.ok () ∧
     (hooksOf r.2.trace ++ pending r.2.hook_out = hooksOf s.trace ++ [hin, hout] ∨
      hooksOf r.2.trace ++ pending r.2.hook_out = hooksOf s.trace ++ hin :: target)) ∨
   (r.1 = Res.ok () ∧ hooksOf r.2.trace = hooksOf s.trace ++ hin :: target ∧
     r.2.hook_out = none))

/-- An event that is not an unlink, or is the unlink of the prefix lock. -/
def lockOnly {σ : Type} (L : Lib σ) (e : Ev) : Bool :=
  !e.isUnlink || decide (e = Ev.unlink (some (PREFIX_LOCK L)))

def anyEv (_ : Ev) : Bool := true

/-- The part of `cleanup` between `restore_state ()` and the last lines on the probe. -/
def cleanup_mid {σ : Type} (L : Lib σ) : M σ Unit := do
  let s ← get
  if !s.rc_in_plugin then do
    cleanup_lock L
    cleanup_hooks L
    cleanup_restart L
  else pure ()

/-- The world after `n` rounds of `nanosleep` in `svc_wait`. -/
def after_sleeps {σ : Type} (L : Lib σ) : Nat → σ → σ
  | 0, w => w
  | n + 1, w => after_sleeps L n (L.nanosleep w WAIT_INTERVAL).2

def Ev.isPoll : Ev → Bool
  | Ev.poll _ => true
  | _ => false

/-- The number of polls among the events. -/
def countPolls (evs : List Ev) : Nat := (evs.filter Ev.isPoll).length

/-- The path that `svc_wait` polls for the peer `svc`. -/
def wait_fifo {σ : Type} (L : Lib σ) (svc : String) : String :=
  rc_strcatpaths L.RC_SVCDIR "exclusive" (basename_c svc)

/-- The peer `net` of `wWait` with the keyword `notimeout`. -/
def wNoTimeout : World :=
  { wWait with depend := [(("net", "keywords"), ["notimeout"])] }

/-- The peer `net` has the keyword `notimeout` and holds its marker for ever. -/
def wForever : World :=
  { wNoTimeout with vanish := [] }

/-! ## write_prefix -/

/-- The four writes of the branch `if (! *prefixed)` of `write_prefix`: the hilite
colour `ec`, the static `prefix`, the normal colour `ec_normal` and the bar. -/
def prefix_block (ec pfx ec_normal : List Nat) : List Nat :=
  ec ++ pfx ++ ec_normal ++ [124]

/-- The function `write_prefix` on the bytes of `buffer` and the flag `*prefixed`:
the bytes written to stdout (every `write` writing all it is given) and the flag
on return.  The byte 27 is `'\033'` and the byte 10 is `'\n'`. -/
def write_prefix (ec pfx ec_normal : List Nat) : List Nat → Bool → List Nat × Bool
  | [], prefixed => ([], prefixed)
  | b :: rest, prefixed =>
    let p1 := if b == 27 then true else prefixed
    let out := if !p1 then prefix_block ec pfx ec_normal else []
    let p2 := if !p1 then true else p1
    let p3 := if b == 10 then false else p2
    let r := write_prefix ec pfx ec_normal rest p3
    (out ++ [b] ++ r.1, r.2)

/-- The flag is false on reaching the byte `i`: `i` is the first byte and the initial
flag is false, or the byte `i - 1` is a newline. -/
def line_start (buffer : List Nat) (init : Bool) (i : Nat) : Bool :=
  (i == 0 && !init) || (0 < i && buffer.getD (i - 1) 0 == 10)

/-- The stream of the contract: the bytes of the buffer in their order, with the
block before the byte `i` exactly when the flag is false on reaching `i` and the
byte is not 27. -/
def prefixed_stream (block buffer : List Nat) (init : Bool) : List Nat :=
  ((List.range buffer.length).map (fun i =>
    (if line_start buffer init i && buffer.getD i 0 != 27 then block else []) ++
      [buffer.getD i 0])).flatten

/-! ## handle_signal -/

/-- The signal numbers of `<signal.h>` on Linux. -/
def SIGHUP : Int := 1
def SIGINT : Int := 2
def SIGQUIT : Int := 3
def SIGTERM : Int := 15
def SIGCHLD : Int := 17
def SIGWINCH : Int := 28

/-- The statics that `handle_signal` reads, and whether its `write` to the signal
pipe fails. -/
structure SigCtx where
  service_pid : Int
  signal_pipe_w : Int
  master_tty : Int
  write_fails : Bool

/-- The value of `signame` after the fall-through cases SIGINT, SIGTERM and SIGQUIT
of `handle_signal`: the case of SIGINT is run for SIGINT, that of SIGTERM for SIGINT
and SIGTERM, that of SIGQUIT for the three; each sets the name `if (! signame[0])`. -/
def signame_of (sig : Int) : String :=
  let n0 := ""
  let n1 := if sig == SIGINT then (if n0.isEmpty then "SIGINT" else n0) else n0
  let n2 := if sig == SIGINT || sig == SIGTERM then
      (if n1.isEmpty then "SIGTERM" else n1) else n1
  if sig == SIGINT || sig == SIGTERM || sig == SIGQUIT then
    (if n2.isEmpty then "SIGQUIT" else n2) else n2

/-- The function `handle_signal`. -/
def handle_signal {σ : Type} (L : Lib σ) (c : SigCtx) (sig : Int) : M σ Unit := do
  let s ← get
  if sig == SIGHUP then modify (fun s => { s with sighup := true })
  else if sig == SIGCHLD then
    (if c.signal_pipe_w > -1 then do
      emit (Ev.sigpipe sig)
      if c.write_fails then eerror (svcOf s ++ ": send") else pure ()
    else rc_waitpid L)
  else if sig == SIGWINCH then
    (if c.master_tty >= 0 then emit Ev.winsize else pure ())
  else if sig == SIGINT || sig == SIGTERM || sig == SIGQUIT then do
    (if c.service_pid > 0 then emit (Ev.kill c.service_pid sig) else pure ())
    eerrorx (s.applet ++ ": caught " ++ signame_of sig ++ ", aborting")
  else eerror (s.applet ++ ": caught unknown signal " ++ toString sig)

/-! ## The prefix of rc_parallel -/

/-- The function `strlen`: the number of bytes of the string. -/
def strlen (s : String) : Nat := s.utf8ByteSize

/-- The loop `Get the longest service name` of `runscript`. -/
def longest_name (services : List String) : Nat :=
  services.foldl (fun l svc => if strlen svc > l then strlen svc else l) 0

/-- The value of an `int` as a `size_t` of 64 bits. -/
def to_size_t (i : Int) : Nat := (i % 2 ^ 64).toNat

/-- A write of `count` bytes at the offset `start` of a buffer. -/
structure MemWrite where
  start : Nat
  count : Nat
  byte : Option Nat
deriving DecidableEq, Repr

/-- The buffer of the prefix: its size as allocated, and the writes into it. -/
structure PrefixBuf where
  size : Nat
  writes : List MemWrite
deriving DecidableEq, Repr

/-- The lines `Make our prefix string` of `runscript`, with `services` the result of
`rc_services_in_runlevel (NULL)`: `xmalloc (sizeof (char) * l)`, the `memcpy` of the
applet, the `memset` of `l - ll` spaces and the `memset` of the NUL at `prefix + l`. -/
def prefix_writes (applet : String) (services : List String) : PrefixBuf :=
  let l := longest_name services
  let ll := strlen applet
  { size := l,
    writes := [
      { start := 0, count := ll, byte := none },
      { start := ll, count := to_size_t ((l : Int) - (ll : Int)), byte := some 32 },
      { start := l, count := 1, byte := some 0 } ] }

/-- The write stays below the size of the buffer. -/
def MemWrite.within (size : Nat) (m : MemWrite) : Bool :=
  decide (m.start + m.count ≤ size)

/-- The library of `demoLib` for a caller who is not root. -/
def userLib : Lib World := { demoLib with geteuid := 1000 }

def Ev.isMark : Ev → Bool
  | Ev.mark _ _ => true
  | _ => false

/-- The marks among the events. -/
def marksOf (evs : List Ev) : List Ev := evs.filter Ev.isMark

/-- An event that is not a mark. -/
def noMark (e : Ev) : Bool := !e.isMark

/-- A runlevel is starting; `svc` is STARTED and has its coldplugged marker. -/
def wColdStarting : World :=
  { world0 with
    states := [("svc", rcBits.STARTED)],
    files := [("/lib/rc/init.d/coldplugged/svc", 50)],
    starting := true }

/-- The edges that the loop of `svc_start` over the scheduled-by list installs for
the service `target`, and the world it leaves: for each peer of the list the edge
from the peer, then an edge from every service that `rc_deptree_depend` gives as
`iprovide` of the peer at that moment. -/
def sched_edges {σ : Type} (L : Lib σ) (target : String) : List String → σ → List Ev × σ
  | [], w => ([], w)
  | svc :: rest, w =>
    let w1 := L.rc_service_schedule_start w svc target
    let provide := L.rc_deptree_depend w1 "iprovide" svc
    let w2 := provide.foldl (fun w p => L.rc_service_schedule_start w p target) w1
    let r := sched_edges L target rest w2
    (Ev.schedule svc target :: (provide.map (fun p => Ev.schedule p target) ++ r.1), r.2)

/-- The value of `providelist` after the loop over the scheduled-by list. -/
def sched_provide {σ : Type} (L : Lib σ) (target : String) :
    List String → σ → List String → List String
  | [], _, pl => pl
  | svc :: rest, w, _ =>
    let w1 := L.rc_service_schedule_start w svc target
    let provide := L.rc_deptree_depend w1 "iprovide" svc
    let w2 := provide.foldl (fun w p => L.rc_service_schedule_start w p target) w1
    sched_provide L target rest w2 provide

/-- Every peer of the list that is in `need_services` is seen STARTED by the wait
loop of `svc_start` run from `s`: at the first test of its round, or at the test
after `svc_wait`. -/
def needed_started {σ : Type} (L : Lib σ) (fuel : Nat) : List String → Sup σ → Bool
  | [], _ => true
  | svc :: rest, s =>
    (!s.need_services.contains svc ||
      has (L.rc_service_state s.w svc) L.bits.STARTED ||
      has (L.rc_service_state (svc_wait L fuel svc s).2.w svc) L.bits.STARTED) &&
    needed_started L fuel rest (start_wait_body L fuel svc s).2

/-- An event that is neither an exec nor the hook START_NOW. -/
def noRun : Ev → Bool
  | Ev.exec _ _ => false
  | Ev.hook Hook.START_NOW _ => false
  | _ => true

/-- The lists `need_services` and `use_services` are kept, and `tmplist` is
extended. -/
structure Same {σ : Type} (s t : Sup σ) : Prop where
  need : t.need_services = s.need_services
  use : t.use_services = s.use_services
  tmp : ∃ d, t.tmplist = s.tmplist ++ d

/-- From a state with `P`, the piece `m` returns only in a state with `Q`. -/
structure Ensures {σ α : Type} (P Q : Sup σ → Prop) (m : M σ α) : Prop where
  run : ∀ s, P s → ∀ a, (m s).1 = Res.ok a → Q (m s).2

/-- Every needed service is in `use_services`. -/
def need_in_use {σ : Type} (s : Sup σ) : Prop :=
  ∀ x ∈ s.need_services, s.use_services.contains x = true

/-- The service `svc` needs `net`, which is INACTIVE and holds no marker. -/
def wNeedInactive : World :=
  { world0 with
    states := [("svc", rcBits.STOPPED), ("net", rcBits.INACTIVE)],
    depends := [("ineed", ["net"])],
    depend := [(("iprovide", "net"), ["lan"])] }

/-- Every dependent of the list passes the loop of `svc_stop` over `tmplist` run from
`s`: it is seen STOPPED at the first test of its round or at the test after
`svc_wait`, or the runlevel is stopping then with the soft-level shutdown, reboot or
single. -/
def dependents_stopped {σ : Type} (L : Lib σ) (fuel : Nat) : List String → Sup σ → Bool
  | [], _ => true
  | svc :: rest, s =>
    (has (L.rc_service_state s.w svc) L.bits.STOPPED ||
      has (L.rc_service_state (svc_wait L fuel svc s).2.w svc) L.bits.STOPPED ||
      (L.rc_runlevel_stopping (svc_wait L fuel svc s).2.w &&
        softlevel_is_down (svc_wait L fuel svc s).2.softlevel)) &&
    dependents_stopped L fuel rest (stop_check_body L fuel svc s).2

/-- The state in which `svc_stop` with dependencies reaches its loop over `tmplist`,
started from `s`: after the mark STOPPING, `make_exclusive`, the hook STOP_IN, the
warning for a boot service, the load of the deptree and the loop that tells the
dependents to stop. -/
def stop_at_check {σ : Type} (L : Lib σ) (fuel : Nat) (s : Sup σ) : Sup σ :=
  let s2 := (stop_in L (stop_mark L s).2).2
  let s3 := ((if !L.rc_runlevel_stopping s2.w &&
      L.rc_service_in_runlevel s2.w (svcOf s2) RC_LEVEL_BOOT then
    ewarn "WARNING: you are stopping a boot service"
  else (pure () : M σ Unit)) s2).2
  let d := (L.RC_DEP_TRACE |||
    (if L.rc_conf_yesno "rc_depend_strict" then L.RC_DEP_STRICT else 0)) |||
    (if L.rc_runlevel_stopping s3.w then L.RC_DEP_STOP else 0)
  (stop_deps_stopall L fuel d (load_deptree L s3).2).2

/-- The supervisor of `svc` in `wStubborn` before `svc_stop`, with the soft-level
`level`. -/
def supStubborn0 (level : String) : Sup World :=
  { sup0 wStubborn with softlevel := some level }

/-- The state in which `svc_start` with dependencies reaches its wait loop, started
from `s`: after the mark STARTING, `make_exclusive`, the hook START_IN and the lines
of the branch `if (deps)` before the loop. -/
def start_at_wait {σ : Type} (L : Lib σ) (s : Sup σ) : Sup σ :=
  let s2 := (start_in L (start_mark L s).2).2
  let d := (L.RC_DEP_TRACE |||
    (if L.rc_conf_yesno "rc_depend_strict" then L.RC_DEP_STRICT else 0)) |||
    (if L.rc_runlevel_starting s2.w then L.RC_DEP_START else 0)
  (start_deps_use L d s2).2

/-- The service `svc` needs `net`, which is STARTED. -/
def wNeedStarted : World :=
  { world0 with
    states := [("svc", rcBits.STOPPED), ("net", rcBits.STARTED)],
    depends := [("ineed", ["net"])] }

/-! ## The statements around the hooks, and the abort by a signal -/

/-- The lines of `svc_start` before `rc_plugin_run (RC_HOOK_SERVICE_START_NOW, applet)`:
`if (ibsave) setenv (...)` and `hook_out = RC_HOOK_SERVICE_START_DONE`. -/
def start_now_set {σ : Type} : M σ Unit := do
  let s ← get
  (match s.ibsave with
    | some v => emit (Ev.setenv "IN_BACKGROUND" v)
    | none => pure ())
  modify (fun s => { s with hook_out := some Hook.START_DONE })

/-- The line `rc_plugin_run (RC_HOOK_SERVICE_START_NOW, applet)`. -/
def start_now_run {σ : Type} (L : Lib σ) : M σ Unit := do
  let s ← get
  rc_plugin_run L Hook.START_NOW s.applet

/-- The line `hook_out = RC_HOOK_SERVICE_START_OUT` after `unlink_mtime_test ()`. -/
def start_done_set {σ : Type} : M σ Unit :=
  modify (fun s => { s with hook_out := some Hook.START_OUT })

/-- The line `rc_plugin_run (RC_HOOK_SERVICE_START_DONE, applet)`. -/
def start_done_run {σ : Type} (L : Lib σ) : M σ Unit := do
  let s ← get
  rc_plugin_run L Hook.START_DONE s.applet

/-- The line `hook_out = 0` of `svc_start`. -/
def start_out_set {σ : Type} : M σ Unit :=
  modify (fun s => { s with hook_out := none })

/-- The line `rc_plugin_run (RC_HOOK_SERVICE_START_OUT, applet)`. -/
def start_out_run {σ : Type} (L : Lib σ) : M σ Unit := do
  let s ← get
  rc_plugin_run L Hook.START_OUT s.applet

/-- The lines of `svc_stop` before `rc_plugin_run (RC_HOOK_SERVICE_STOP_NOW, applet)`. -/
def stop_now_set {σ : Type} : M σ Unit := do
  let s ← get
  (match s.ibsave with
    | some v => emit (Ev.setenv "IN_BACKGROUND" v)
    | none => pure ())
  modify (fun s => { s with hook_out := some Hook.STOP_DONE })

/-- The line `rc_plugin_run (RC_HOOK_SERVICE_STOP_NOW, applet)`. -/
def stop_now_run {σ : Type} (L : Lib σ) : M σ Unit := do
  let s ← get
  rc_plugin_run L Hook.STOP_NOW s.applet

/-- The line `hook_out = RC_HOOK_SERVICE_STOP_OUT` after `unlink_mtime_test ()`. -/
def stop_done_set {σ : Type} : M σ Unit :=
  modify (fun s => { s with hook_out := some Hook.STOP_OUT })

/-- The line `rc_plugin_run (RC_HOOK_SERVICE_STOP_DONE, applet)`. -/
def stop_done_run {σ : Type} (L : Lib σ) : M σ Unit := do
  let s ← get
  rc_plugin_run L Hook.STOP_DONE s.applet

/-- The line `hook_out = 0` of `svc_stop`. -/
def stop_out_set {σ : Type} : M σ Unit :=
  modify (fun s => { s with hook_out := none })

/-- The line `rc_plugin_run (RC_HOOK_SERVICE_STOP_OUT, applet)`. -/
def stop_out_run {σ : Type} (L : Lib σ) : M σ Unit := do
  let s ← get
  rc_plugin_run L Hook.STOP_OUT s.applet

/-- The body of `svc_start` up to the assignment `hook_out = RC_HOOK_SERVICE_START_DONE`,
the statement before the hook START_NOW is run. -/
def start_cut_now {σ : Type} (L : Lib σ) (fuel : Nat) (deps : Bool) : M σ Unit :=
  svc_start_pre L fuel deps >>= fun _ => start_now_set

/-- The body of `svc_start` up to the assignment `hook_out = RC_HOOK_SERVICE_START_OUT`,
the statement before the hook START_DONE is run. -/
def start_cut_done {σ : Type} (L : Lib σ) (fuel : Nat) (deps : Bool) : M σ Unit :=
  ((svc_start_pre L fuel deps >>= fun _ => start_now L) >>= fun _ => start_run L) >>=
    fun _ => start_done_set

/-- The body of `svc_start` up to the assignment `hook_out = 0`, the statement before
the hook START_OUT is run. -/
def start_cut_out {σ : Type} (L : Lib σ) (fuel : Nat) (deps : Bool) : M σ Unit :=
  ((((svc_start_pre L fuel deps >>= fun _ => start_now L) >>= fun _ => start_run L) >>=
    fun _ => start_done L) >>= fun _ => start_sched L) >>= fun _ => start_out_set

/-- The body of `svc_stop` up to the assignment `hook_out = RC_HOOK_SERVICE_STOP_DONE`. -/
def stop_cut_now {σ : Type} (L : Lib σ) (fuel : Nat) (deps : Bool) (state : Nat) : M σ Unit :=
  svc_stop_pre L fuel deps state >>= fun _ => stop_now_set

/-- The body of `svc_stop` up to the assignment `hook_out = RC_HOOK_SERVICE_STOP_OUT`. -/
def stop_cut_done {σ : Type} (L : Lib σ) (fuel : Nat) (deps : Bool) (state : Nat) :
    M σ Unit :=
  ((svc_stop_pre L fuel deps state >>= fun _ => stop_now L) >>= fun _ => stop_run L) >>=
    fun _ => stop_done_set

/-- The body of `svc_stop` up to the assignment `hook_out = 0`. -/
def stop_cut_out {σ : Type} (L : Lib σ) (fuel : Nat) (deps : Bool) (state : Nat) : M σ Unit :=
  ((((svc_stop_pre L fuel deps state >>= fun _ => stop_now L) >>= fun _ => stop_run L) >>=
    fun _ => stop_done L) >>= fun _ => stop_unlink L) >>= fun _ => stop_out_set

/-- The end of the supervisor by a signal that `handle_signal` turns into `exit`
(SIGINT, SIGTERM, SIGQUIT), arriving in the state `t`: the handler, then the
`atexit` handler `cleanup`. -/
def signal_abort {σ : Type} (L : Lib σ) (c : SigCtx) (sig : Int) (t : Sup σ) : Sup σ :=
  (cleanup L (handle_signal L c sig t).2).2

/-- The piece `P`, when it returns, has fired the hooks `X` and leaves `o` in
`hook_out`. -/
structure Reach {σ : Type} (X : List Hook) (o : Option Hook) (P : M σ Unit) : Prop where
  run : ∀ s, (P s).1 = Res.ok () →
    hooksOf (P s).2.trace = hooksOf s.trace ++ X ∧ (P s).2.hook_out = o ∧
    (P s).2.rc_in_plugin = s.rc_in_plugin

/-- The piece `S` returns, fires no hook and leaves `o` in `hook_out`. -/
structure Sets {σ : Type} (o : Option Hook) (S : M σ Unit) : Prop where
  run : ∀ s, (S s).1 = Res.ok () ∧ hooksOf (S s).2.trace = hooksOf s.trace ∧
    (S s).2.hook_out = o ∧ (S s).2.rc_in_plugin = s.rc_in_plugin

/-- The first three steps of the restart of the specification: take the snapshot
list(STARTED) ∪ list(INACTIVE); run `svc_stop (true)` if the service is not STOPPED;
run `svc_start (true)`. -/
def restart_cycle {σ : Type} (L : Lib σ) (fuel : Nat) : M σ Unit := do
  get_started_services L
  let s ← get
  (if !has (L.rc_service_state s.w (svcOf s)) L.bits.STOPPED then svc_stop L fuel true
    else pure ())
  svc_start L fuel true

/-- The last step of the restart of the specification: start every service of the
snapshot that is now STOPPED; then the snapshot is emptied. -/
def restart_start_stopped {σ : Type} (L : Lib σ) : M σ Unit := do
  let s1 ← get
  forEach (start_stopped_body L) s1.restart_services
  modify (fun s => { s with restart_services := [] })

/-- Schedule the service `svc`, if it is STOPPED, to start when this service has
started, with a warning. -/
def schedule_stopped_body {σ : Type} (L : Lib σ) (svc : String) : M σ Unit := do
  let t ← get
  if has (L.rc_service_state t.w svc) L.bits.STOPPED then do
    rc_service_schedule_start L (svcOf t) svc
    ewarn ("WARNING: " ++ svc ++ " is scheduled to started when " ++ t.applet ++
      " has started")
  else pure ()

/-- The last step when this service is INACTIVE or WASINACTIVE after the start: every
service of the snapshot that is now STOPPED is scheduled; then the snapshot is
emptied. -/
def restart_schedule_stopped {σ : Type} (L : Lib σ) : M σ Unit := do
  let s1 ← get
  forEach (schedule_stopped_body L) s1.restart_services
  modify (fun s => { s with restart_services := [] })

/-- The snapshot is emptied and nothing else is done. -/
def restart_drop {σ : Type} : M σ Unit :=
  modify (fun s => { s with restart_services := [] })

/-- The service `svc` and the service `c` are STARTED and `b` is STOPPED; the
scripts of `svc` stop `c`; `b` is scheduled to start when `svc` has started, and
the start of `b` stops `svc` (a service it cannot run beside). -/
def wConflict : World :=
  { world0 with
    states := [("svc", rcBits.STARTED), ("b", rcBits.STOPPED), ("c", rcBits.STARTED)],
    scheduled := [("svc", "b")],
    start_marks := [("b", "svc", rcBits.STOPPED)],
    child_marks := [("c", rcBits.STOPPED)] }

/-- As `wConflict`, but the start of `b` makes `svc` INACTIVE. -/
def wInactive : World :=
  { wConflict with start_marks := [("b", "svc", rcBits.INACTIVE)] }

/-- The service `svc` and the service `c` are STARTED; the scripts of `svc` stop
`c`. -/
def wCohort : World :=
  { world0 with
    states := [("svc", rcBits.STARTED), ("c", rcBits.STARTED)],
    child_marks := [("c", rcBits.STOPPED)] }

/-- The list `restart_services` is the same in both states. -/
def SameSnap {σ : Type} (s t : Sup σ) : Prop := t.restart_services = s.restart_services

/-! ## Basic facts of the sequencing -/

theorem bind_eq {σ α β : Type} (m : M σ α) (f : α → M σ β) : (m >>= f) = M.bind m f := rfl

theorem pure_eq {σ α : Type} (a : α) : (pure a : M σ α) = fun s => (Res.ok a, s) := rfl

theorem has_ne_zero {state mask : Nat} (h : has state mask = true) : state ≠ 0 := by
  intro h0
  subst h0
  simp [has] at h

/-! ## The `status` action -/

theorem status_strings :
    ("status" == "describe" || "status" == "help") = false ∧
    ¬ ("status" ∈ dep_actions) ∧ ("status" == "status") = true := by
  decide

/-- What one round of the dispatcher does for `status`. -/
theorem runscript_action_status {σ : Type} (L : Lib σ) (fuel : Nat) (deps : Bool)
    (s : Sup σ) (hs : s.sighup = false) :
    runscript_action L fuel deps "status" s =
      action_status L
        { s with trace := s.trace ++ [Ev.unsetenv "RC_CMD", Ev.setenv "RC_CMD" "status"] } := by
  obtain ⟨h1, h2, h3⟩ := status_strings
  simp [runscript_action, bind_eq, M.bind, get, hs, emit, h1, h2, h3]

theorem action_status_fst {σ : Type} (L : Lib σ) (s : Sup σ) :
    (action_status L s).1 = Res.ok () := by
  simp [action_status, bind_eq, M.bind, svc_status, modify]

theorem action_status_retval {σ : Type} (L : Lib σ) (s : Sup σ) :
    (action_status L s).2.retval =
      (if has (L.rc_service_state s.w (svcOf s)) L.bits.STARTED then 0
       else ((L.rc_service_state s.w (svcOf s) : Nat) : Int)) := by
  simp [action_status, bind_eq, M.bind, svc_status, modify]

/-- C1: after the `status` action the return value of the supervisor is 0 when the
state returned by `svc_status` includes STARTED and the state bitset (as an
integer) otherwise; so for a state with exactly one principal state the return
value is 0 if and only if the state includes STARTED. -/
theorem status_retval {σ : Type} (L : Lib σ) (fuel : Nat) (deps : Bool) (s : Sup σ)
    (hs : s.sighup = false) :
    (svc_status L s).1 = Res.ok (L.rc_service_state s.w (svcOf s)) ∧
    (runscript_action L fuel deps "status" s).1 = Res.ok () ∧
    (runscript_action L fuel deps "status" s).2.retval =
      (if has (L.rc_service_state s.w (svcOf s)) L.bits.STARTED then 0
       else ((L.rc_service_state s.w (svcOf s) : Nat) : Int)) ∧
    (onePrincipal L.bits (L.rc_service_state s.w (svcOf s)) →
      ((runscript_action L fuel deps "status" s).2.retval = 0 ↔
        has (L.rc_service_state s.w (svcOf s)) L.bits.STARTED = true)) := by
  rw [runscript_action_status L fuel deps s hs]
  refine ⟨rfl, action_status_fst L _, action_status_retval L _, ?_⟩
  intro h1
  rw [action_status_retval]
  show (if has (L.rc_service_state s.w (svcOf s)) L.bits.STARTED then (0 : Int)
       else ((L.rc_service_state s.w (svcOf s) : Nat) : Int)) = 0 ↔ _
  by_cases hst : has (L.rc_service_state s.w (svcOf s)) L.bits.STARTED = true
  · simp [hst]
  · have hne : L.rc_service_state s.w (svcOf s) ≠ 0 := by
      intro h0
      rw [h0] at h1
      simp [onePrincipal, principals, has] at h1
    simp [hst, hne]

/-- C2 (as stated, refuted): for the STARTED service of `wCrashed`, with crashed
daemons and euid 0, `status` reports "status: crashed" through eerror, but the
return value is 0 and not the state bitset 2. -/
theorem status_crashed_counterexample :
    demoLib.geteuid = 0 ∧
    demoLib.rc_service_state wCrashed "/etc/init.d/svc" = rcBits.STARTED ∧
    demoLib.rc_service_daemons_crashed wCrashed "/etc/init.d/svc" = true ∧
    (runscript_action demoLib 0 true "status" (sup0 wCrashed)).2.trace =
      [Ev.unsetenv "RC_CMD", Ev.setenv "RC_CMD" "status", Ev.eerror "status: crashed"] ∧
    (runscript_action demoLib 0 true "status" (sup0 wCrashed)).2.retval = 0 ∧
    ¬ ((runscript_action demoLib 0 true "status" (sup0 wCrashed)).2.retval =
        ((demoLib.rc_service_state wCrashed "/etc/init.d/svc" : Nat) : Int) ∧
       (runscript_action demoLib 0 true "status" (sup0 wCrashed)).2.retval ≠ 0) := by
  decide

/-- C2 (amended): for a state that includes STARTED and none of STOPPING, STARTING
and INACTIVE, with crashed daemons and euid 0, the `status` action reports
"status: crashed" through eerror, `svc_status` returns the (nonzero) state bitset,
and the return value of the supervisor is 0. -/
theorem status_crashed {σ : Type} (L : Lib σ) (fuel : Nat) (deps : Bool) (s : Sup σ)
    (hs : s.sighup = false) (heuid : L.geteuid = 0)
    (hcr : L.rc_service_daemons_crashed s.w (svcOf s) = true)
    (hst : has (L.rc_service_state s.w (svcOf s)) L.bits.STARTED = true)
    (h1 : has (L.rc_service_state s.w (svcOf s)) L.bits.STOPPING = false)
    (h2 : has (L.rc_service_state s.w (svcOf s)) L.bits.STARTING = false)
    (h3 : has (L.rc_service_state s.w (svcOf s)) L.bits.INACTIVE = false) :
    (runscript_action L fuel deps "status" s).2.trace =
      s.trace ++ [Ev.unsetenv "RC_CMD", Ev.setenv "RC_CMD" "status",
        Ev.eerror "status: crashed"] ∧
    (svc_status L s).1 = Res.ok (L.rc_service_state s.w (svcOf s)) ∧
    L.rc_service_state s.w (svcOf s) ≠ 0 ∧
    (runscript_action L fuel deps "status" s).2.retval = 0 := by
  rw [runscript_action_status L fuel deps s hs]
  refine ⟨?_, rfl, has_ne_zero hst, ?_⟩
  · simp [action_status, bind_eq, M.bind, svc_status, modify, svcOf, heuid] at *
    simp [hcr, hst, h1, h2, h3]
  · rw [action_status_retval]
    simp [svcOf] at *
    simp [hst]

theorem status_crashed_witness :
    (runscript_action demoLib 0 true "status" (sup0 wCrashed)).2.trace =
      (sup0 wCrashed).trace ++ [Ev.unsetenv "RC_CMD", Ev.setenv "RC_CMD" "status",
        Ev.eerror "status: crashed"] ∧
    (svc_status demoLib (sup0 wCrashed)).1 =
      Res.ok (demoLib.rc_service_state (sup0 wCrashed).w (svcOf (sup0 wCrashed))) ∧
    demoLib.rc_service_state (sup0 wCrashed).w (svcOf (sup0 wCrashed)) ≠ 0 ∧
    (runscript_action demoLib 0 true "status" (sup0 wCrashed)).2.retval = 0 :=
  status_crashed demoLib 0 true (sup0 wCrashed) rfl rfl (by decide) (by decide) (by decide)
    (by decide) (by decide)

/-! ## in_control -/

theorem in_control_loop_iff {σ : Type} (L : Lib σ) (w : σ) (applet : String) (mtime : Int)
    (ts : List String) :
    in_control_loop L w applet mtime ts = true ↔
      ∀ t ∈ ts, L.fexists w (rc_strcatpaths L.RC_SVCDIR t applet) = true →
        ¬ (mtime < get_mtime L w (some (rc_strcatpaths L.RC_SVCDIR t applet)) false ∧
          get_mtime L w (some (rc_strcatpaths L.RC_SVCDIR t applet)) false ≠ 0) := by
  induction ts with
  | nil => simp [in_control_loop]
  | cons t ts ih =>
    simp only [in_control_loop, List.mem_cons, forall_eq_or_imp]
    by_cases hex : L.fexists w (rc_strcatpaths L.RC_SVCDIR t applet) = true
    · by_cases hm : mtime < get_mtime L w (some (rc_strcatpaths L.RC_SVCDIR t applet)) false ∧
          get_mtime L w (some (rc_strcatpaths L.RC_SVCDIR t applet)) false ≠ 0
      · have hc : (decide (mtime <
              get_mtime L w (some (rc_strcatpaths L.RC_SVCDIR t applet)) false) &&
            get_mtime L w (some (rc_strcatpaths L.RC_SVCDIR t applet)) false != 0) = true := by
          simp [hm.1, hm.2]
        simp [hex, hc, hm]
      · have hc : (decide (mtime <
              get_mtime L w (some (rc_strcatpaths L.RC_SVCDIR t applet)) false) &&
            get_mtime L w (some (rc_strcatpaths L.RC_SVCDIR t applet)) false != 0) = false := by
          rw [Bool.eq_false_iff]
          intro h
          apply hm
          simpa using h
        simp only [hex, hc, if_true, Bool.false_eq_true, if_false, ih, true_implies]
        exact ⟨fun h => ⟨hm, h⟩, fun h => h.2⟩
    · simp only [hex, Bool.false_eq_true, if_false, ih, false_implies, true_and]

/-- C3 (as stated, refuted): in `supEpoch` no SIGHUP was seen, the probe exists, the
state is STARTED and no marker exists, so the four conditions hold; `in_control`
is false all the same, because the probe's mtime is 0. -/
theorem in_control_counterexample :
    in_control_spec demoLib supEpoch ∧ in_control demoLib supEpoch = false ∧
    ¬ (in_control demoLib supEpoch = true ↔ in_control_spec demoLib supEpoch) := by
  have hspec : in_control_spec demoLib supEpoch := by
    refine ⟨rfl, ⟨"p", rfl, by decide, ?_⟩, by decide⟩
    decide
  have hfalse : in_control demoLib supEpoch = false := by decide
  refine ⟨hspec, hfalse, ?_⟩
  intro h
  have := h.2 hspec
  rw [hfalse] at this
  exact Bool.false_ne_true this

/-- C3 (amended): `in_control` is true if and only if no SIGHUP was observed, the
probe exists, the state does not include STOPPED, the mtime that `get_mtime` reads
for the probe is not 0, and for every existing marker among starting, started,
stopping, inactive and wasinactive whose mtime reads nonzero the probe's mtime is
not strictly older than the marker's. -/
theorem in_control_iff {σ : Type} (L : Lib σ) (s : Sup σ) :
    in_control L s = true ↔ in_control_cond L s := by
  unfold in_control in_control_cond
  cases hsig : s.sighup with
  | true => simp
  | false =>
    cases hp : s.mtime_test with
    | none => simp
    | some probe =>
      by_cases hex : L.fexists s.w probe = true
      · by_cases hst : has (L.rc_service_state s.w s.applet) L.bits.STOPPED = true
        · simp [hex, hst]
        · by_cases hm : get_mtime L s.w (some probe) false = 0
          · simp [hex, hst, hm]
          · simp only [Bool.not_eq_true] at hst
            simp [hex, hst, hm, in_control_loop_iff]
      · simp [hex]

/-! ## Frames: what a piece of the supervisor leaves alone -/

theorem keeps_refl {σ : Type} {P : Ev → Bool} {k h : Bool} (s : Sup σ) : Keeps P k h s s :=
  ⟨⟨[], by simp, by simp⟩, rfl, rfl, rfl, fun _ => rfl, rfl, rfl, rfl, rfl, rfl, rfl,
    fun _ => ⟨rfl, rfl⟩, fun _ => rfl⟩

theorem keeps_trans {σ : Type} {P : Ev → Bool} {k h : Bool} {a b c : Sup σ}
    (h1 : Keeps P k h a b) (h2 : Keeps P k h b c) : Keeps P k h a c := by
  obtain ⟨e1, he1, hp1⟩ := h1.trace
  obtain ⟨e2, he2, hp2⟩ := h2.trace
  exact ⟨⟨e1 ++ e2, by rw [he2, he1, List.append_assoc], by simp [List.all_append, hp1, hp2]⟩,
    h2.applet.trans h1.applet, h2.service.trans h1.service,
    h2.rc_in_plugin.trans h1.rc_in_plugin,
    fun hh => (h2.restart_services hh).trans (h1.restart_services hh),
    h2.in_background.trans h1.in_background,
    h2.in_hotplug.trans h1.in_hotplug, h2.sighup.trans h1.sighup,
    h2.softlevel.trans h1.softlevel, h2.ibsave.trans h1.ibsave,
    h2.prefix_locked.trans h1.prefix_locked,
    fun hk => ⟨(h2.probe hk).1.trans (h1.probe hk).1, (h2.probe hk).2.trans (h1.probe hk).2⟩,
    fun hh => (h2.hook_out hh).trans (h1.hook_out hh)⟩

theorem keeps_mono {σ : Type} {P Q : Ev → Bool} {k h k1 h1 : Bool} {s t : Sup σ}
    (hPQ : ∀ e, P e = true → Q e = true) (hk : k1 = true → k = true)
    (hh : h1 = true → h = true) (hkeep : Keeps P k h s t) : Keeps Q k1 h1 s t := by
  obtain ⟨evs, he, hp⟩ := hkeep.trace
  refine ⟨⟨evs, he, ?_⟩, hkeep.applet, hkeep.service, hkeep.rc_in_plugin,
    fun x => hkeep.restart_services (hh x), hkeep.in_background, hkeep.in_hotplug, hkeep.sighup,
    hkeep.softlevel, hkeep.ibsave, hkeep.prefix_locked, fun x => hkeep.probe (hk x),
    fun x => hkeep.hook_out (hh x)⟩
  rw [List.all_eq_true] at hp ⊢
  exact fun e he => hPQ e (hp e he)

theorem steps_mono {σ α : Type} {P Q : Ev → Bool} {k h k1 h1 : Bool} {m : M σ α}
    (hPQ : ∀ e, P e = true → Q e = true) (hk : k1 = true → k = true)
    (hh : h1 = true → h = true) (hm : Steps (Keeps P k h) m) : Steps (Keeps Q k1 h1) m :=
  ⟨fun s => keeps_mono hPQ hk hh (hm.run s)⟩

theorem plain_quiet (e : Ev) (h : plain e = true) : quiet e = true := by
  cases e <;> simp_all [plain, quiet, Ev.isHook, Ev.isExec, Ev.isUnlink, Ev.isEnter]

theorem plain_noUnlink (e : Ev) (h : plain e = true) : noUnlink e = true := by
  cases e <;> simp_all [plain, noUnlink, Ev.isHook, Ev.isExec, Ev.isUnlink, Ev.isEnter]

theorem quiet_noExec (e : Ev) (h : quiet e = true) : noExec e = true := by
  cases e <;> simp_all [quiet, noExec, Ev.isHook, Ev.isExec, Ev.isEnter]

theorem quiet_noHook (e : Ev) (h : quiet e = true) : noHook e = true := by
  cases e <;> simp_all [quiet, noHook, Ev.isHook, Ev.isExec, Ev.isEnter]

theorem steps_pure {σ α : Type} {P : Ev → Bool} {k h : Bool} (a : α) :
    Steps (Keeps P k h) (pure a : M σ α) := ⟨fun s => keeps_refl s⟩

theorem steps_bind {σ α β : Type} {P : Ev → Bool} {k h : Bool} {m : M σ α} {f : α → M σ β}
    (hm : Steps (Keeps P k h) m) (hf : ∀ a, Steps (Keeps P k h) (f a)) :
    Steps (Keeps P k h) (m >>= f) := by
  constructor
  intro s
  have h1 := hm.run s
  show Keeps P k h s (M.bind m f s).2
  unfold M.bind
  split
  · next a s1 heq =>
    rw [heq] at h1
    exact keeps_trans h1 ((hf a).run s1)
  · next c s1 heq =>
    rw [heq] at h1
    exact h1
  · next s1 heq =>
    rw [heq] at h1
    exact h1

theorem steps_forEach {σ : Type} {P : Ev → Bool} {k h : Bool} {body : String → M σ Unit}
    (hb : ∀ x, Steps (Keeps P k h) (body x)) (xs : List String) :
    Steps (Keeps P k h) (forEach body xs) := by
  induction xs with
  | nil => exact steps_pure ()
  | cons x xs ih => exact steps_bind (hb x) (fun _ => ih)

theorem steps_ite {σ α : Type} {R : Sup σ → Sup σ → Prop} {c : Prop} [Decidable c]
    {a b : M σ α} (ha : Steps R a) (hb : Steps R b) : Steps R (if c then a else b) := by
  split
  · exact ha
  · exact hb

theorem steps_get {σ : Type} {P : Ev → Bool} {k h : Bool} :
    Steps (Keeps P k h) (get : M σ (Sup σ)) := ⟨fun s => keeps_refl s⟩

theorem steps_exit {σ α : Type} {P : Ev → Bool} {k h : Bool} (c : Int) :
    Steps (Keeps P k h) (exit c : M σ α) := ⟨fun s => keeps_refl s⟩

theorem steps_emit {σ : Type} {P : Ev → Bool} {k h : Bool} (e : Ev) (he : P e = true) :
    Steps (Keeps P k h) (emit e : M σ Unit) := ⟨fun s =>
  ⟨⟨[e], rfl, by simp [he]⟩, rfl, rfl, rfl, fun _ => rfl, rfl, rfl, rfl, rfl, rfl, rfl,
    fun _ => ⟨rfl, rfl⟩, fun _ => rfl⟩⟩

theorem steps_ewarnx {σ α : Type} {P : Ev → Bool} {k h : Bool} (msg : String)
    (he : P (Ev.ewarn msg) = true) : Steps (Keeps P k h) (ewarnx msg : M σ α) := ⟨fun s =>
  ⟨⟨[Ev.ewarn msg], rfl, by simp [he]⟩, rfl, rfl, rfl, fun _ => rfl, rfl, rfl, rfl, rfl, rfl, rfl,
    fun _ => ⟨rfl, rfl⟩, fun _ => rfl⟩⟩

theorem steps_eerrorx {σ α : Type} {P : Ev → Bool} {k h : Bool} (msg : String)
    (he : P (Ev.eerror msg) = true) : Steps (Keeps P k h) (eerrorx msg : M σ α) := ⟨fun s =>
  ⟨⟨[Ev.eerror msg], rfl, by simp [he]⟩, rfl, rfl, rfl, fun _ => rfl, rfl, rfl, rfl, rfl, rfl, rfl,
    fun _ => ⟨rfl, rfl⟩, fun _ => rfl⟩⟩

theorem steps_call {σ α : Type} {P : Ev → Bool} {k h : Bool} (f : σ → α × σ) :
    Steps (Keeps P k h) (call f) := ⟨fun s =>
  ⟨⟨[], by simp [call], by simp⟩, rfl, rfl, rfl, fun _ => rfl, rfl, rfl, rfl, rfl, rfl, rfl,
    fun _ => ⟨rfl, rfl⟩, fun _ => rfl⟩⟩

theorem steps_call0 {σ : Type} {P : Ev → Bool} {k h : Bool} (f : σ → σ) :
    Steps (Keeps P k h) (call0 f) := ⟨fun s =>
  ⟨⟨[], by simp [call0], by simp⟩, rfl, rfl, rfl, fun _ => rfl, rfl, rfl, rfl, rfl, rfl, rfl,
    fun _ => ⟨rfl, rfl⟩, fun _ => rfl⟩⟩

theorem steps_modify {σ : Type} {P : Ev → Bool} {k h : Bool} (f : Sup σ → Sup σ)
    (hf : ∀ s, Keeps P k h s (f s)) : Steps (Keeps P k h) (modify f) := ⟨fun s => hf s⟩

theorem steps_svc_wait_loop {σ : Type} (L : Lib σ) (fifo : String) (forever : Bool)
    (fuel n : Nat) : Steps (Keeps plain true true) (svc_wait_loop L fifo forever fuel n) := by
  induction fuel generalizing n with
  | zero =>
    cases n with
    | zero => exact ⟨fun s => keeps_refl s⟩
    | succ n => exact ⟨fun s => keeps_refl s⟩
  | succ fuel ih =>
    cases n with
    | zero => exact ⟨fun s => keeps_refl s⟩
    | succ n =>
      constructor
      intro s
      simp only [svc_wait_loop]
      have hpoll : Keeps plain true true s { s with trace := s.trace ++ [Ev.poll fifo] } :=
        (steps_emit (Ev.poll fifo) rfl).run s
      split
      · exact hpoll
      · have hsleep : Keeps plain true true s
            { s with w := (L.nanosleep s.w WAIT_INTERVAL).2,
                     trace := s.trace ++ [Ev.poll fifo] ++ [Ev.sleep WAIT_INTERVAL] } :=
          ⟨⟨[Ev.poll fifo, Ev.sleep WAIT_INTERVAL], by simp, by simp [plain, Ev.isHook,
            Ev.isExec, Ev.isUnlink, Ev.isEnter]⟩, rfl, rfl, rfl, fun _ => rfl, rfl, rfl, rfl, rfl, rfl, rfl,
            fun _ => ⟨rfl, rfl⟩, fun _ => rfl⟩
        split
        · exact hsleep
        · exact keeps_trans hsleep ((ih _).run _)

theorem steps_svc_wait {σ : Type} (L : Lib σ) (fuel : Nat) (svc : String) :
    Steps (Keeps plain true true) (svc_wait L fuel svc) := by
  constructor
  intro s
  unfold svc_wait
  split
  · exact keeps_refl s
  · have h := (steps_svc_wait_loop L
      (rc_strcatpaths L.RC_SVCDIR "exclusive" (basename_c svc))
      ((L.rc_deptree_depend s.w svc "keywords").contains "notimeout") fuel svc_wait_nloops).run s
    dsimp only
    split
    · next heq => rw [heq] at h; exact h
    · next heq => rw [heq] at h; exact h
    · next heq => rw [heq] at h; exact h

theorem steps_start_services {σ : Type} (L : Lib σ) (list : List String) :
    Steps (Keeps plain true true) (start_services L list) := by
  unfold start_services
  repeat' first
    | exact steps_get
    | exact steps_pure _
    | exact steps_call0 _
    | (apply steps_emit; rfl)
    | apply steps_forEach
    | apply steps_bind
    | apply steps_ite
    | (apply steps_modify; intro s; constructor <;> simp)
    | intro _

theorem steps_make_exclusive {σ : Type} (L : Lib σ) :
    Steps (Keeps quiet false true) (make_exclusive L) := by
  unfold make_exclusive
  repeat' first
    | exact steps_get
    | exact steps_pure _
    | exact steps_exit _
    | exact steps_call _
    | exact steps_call0 _
    | (apply steps_emit; rfl)
    | (apply steps_ewarnx; rfl)
    | (apply steps_eerrorx; rfl)
    | exact steps_mono plain_quiet (by simp) (by simp) (steps_svc_wait L _ _)
    | exact steps_mono plain_quiet (by simp) (by simp) (steps_start_services L _)
    | apply steps_forEach
    | apply steps_bind
    | apply steps_ite
    | (apply steps_modify; intro s; constructor <;> simp)
    | intro _
    | split

theorem steps_unlink_mtime_test {σ : Type} (L : Lib σ) :
    Steps (Keeps quiet false true) (unlink_mtime_test L) := by
  unfold unlink_mtime_test
  repeat' first
    | exact steps_get
    | exact steps_pure _
    | exact steps_exit _
    | exact steps_call _
    | exact steps_call0 _
    | (apply steps_emit; rfl)
    | (apply steps_ewarnx; rfl)
    | (apply steps_eerrorx; rfl)
    | exact steps_mono plain_quiet (by simp) (by simp) (steps_svc_wait L _ _)
    | exact steps_mono plain_quiet (by simp) (by simp) (steps_start_services L _)
    | apply steps_forEach
    | apply steps_bind
    | apply steps_ite
    | (apply steps_modify; intro s; constructor <;> simp)
    | intro _
    | split

theorem steps_start_mark {σ : Type} (L : Lib σ) :
    Steps (Keeps quiet false true) (start_mark L) := by
  unfold start_mark
  repeat' first
    | exact steps_get
    | exact steps_pure _
    | exact steps_exit _
    | exact steps_call _
    | exact steps_call0 _
    | (apply steps_emit; rfl)
    | (apply steps_ewarnx; rfl)
    | (apply steps_eerrorx; rfl)
    | exact steps_mono plain_quiet (by simp) (by simp) (steps_svc_wait L _ _)
    | exact steps_mono plain_quiet (by simp) (by simp) (steps_start_services L _)
    | exact steps_make_exclusive L
    | exact steps_unlink_mtime_test L
    | apply steps_forEach
    | apply steps_bind
    | apply steps_ite
    | (apply steps_modify; intro s; constructor <;> simp)
    | intro _
    | split

theorem steps_stop_mark {σ : Type} (L : Lib σ) :
    Steps (Keeps quiet false true) (stop_mark L) := by
  unfold stop_mark
  repeat' first
    | exact steps_get
    | exact steps_pure _
    | exact steps_exit _
    | exact steps_call _
    | exact steps_call0 _
    | (apply steps_emit; rfl)
    | (apply steps_ewarnx; rfl)
    | (apply steps_eerrorx; rfl)
    | exact steps_mono plain_quiet (by simp) (by simp) (steps_svc_wait L _ _)
    | exact steps_mono plain_quiet (by simp) (by simp) (steps_start_services L _)
    | exact steps_make_exclusive L
    | exact steps_unlink_mtime_test L
    | apply steps_forEach
    | apply steps_bind
    | apply steps_ite
    | (apply steps_modify; intro s; constructor <;> simp)
    | intro _
    | split

theorem steps_svc_start_deps {σ : Type} (L : Lib σ) (fuel depoptions : Nat) :
    Steps (Keeps quiet false true) (svc_start_deps L fuel depoptions) := by
  unfold svc_start_deps start_deps_use start_deps_wait
  repeat' first
    | exact steps_get
    | exact steps_pure _
    | exact steps_exit _
    | exact steps_call _
    | exact steps_call0 _
    | (apply steps_emit; rfl)
    | (apply steps_ewarnx; rfl)
    | (apply steps_eerrorx; rfl)
    | exact steps_mono plain_quiet (by simp) (by simp) (steps_svc_wait L _ _)
    | exact steps_mono plain_quiet (by simp) (by simp) (steps_start_services L _)
    | exact steps_make_exclusive L
    | exact steps_unlink_mtime_test L
    | apply steps_forEach
    | apply steps_bind
    | apply steps_ite
    | (apply steps_modify; intro s; constructor <;> simp)
    | intro _
    | split

theorem steps_start_deps {σ : Type} (L : Lib σ) (fuel : Nat) (deps : Bool) :
    Steps (Keeps quiet false true) (start_deps L fuel deps) := by
  unfold start_deps
  repeat' first
    | exact steps_get
    | exact steps_pure _
    | exact steps_exit _
    | exact steps_call _
    | exact steps_call0 _
    | (apply steps_emit; rfl)
    | (apply steps_ewarnx; rfl)
    | (apply steps_eerrorx; rfl)
    | exact steps_mono plain_quiet (by simp) (by simp) (steps_svc_wait L _ _)
    | exact steps_mono plain_quiet (by simp) (by simp) (steps_start_services L _)
    | exact steps_make_exclusive L
    | exact steps_unlink_mtime_test L
    | exact steps_svc_start_deps L _ _
    | apply steps_forEach
    | apply steps_bind
    | apply steps_ite
    | (apply steps_modify; intro s; constructor <;> simp)
    | intro _
    | split

theorem steps_svc_stop_deps {σ : Type} (L : Lib σ) (fuel : Nat) :
    Steps (Keeps plain true true) (svc_stop_deps L fuel) := by
  unfold svc_stop_deps
  repeat' first
    | exact steps_get
    | exact steps_pure _
    | exact steps_exit _
    | exact steps_call _
    | exact steps_call0 _
    | (apply steps_emit; rfl)
    | (apply steps_ewarnx; rfl)
    | (apply steps_eerrorx; rfl)
    | exact steps_mono (fun _ x => x) (by simp) (by simp) (steps_svc_wait L _ _)
    | exact steps_mono (fun _ x => x) (by simp) (by simp) (steps_start_services L _)
    | apply steps_forEach
    | apply steps_bind
    | apply steps_ite
    | (apply steps_modify; intro s; constructor <;> simp)
    | intro _
    | split

theorem steps_stop_deps {σ : Type} (L : Lib σ) (fuel : Nat) (deps : Bool) (state : Nat) :
    Steps (Keeps plain true true) (stop_deps L fuel deps state) := by
  unfold stop_deps
  repeat' first
    | exact steps_get
    | exact steps_pure _
    | exact steps_exit _
    | exact steps_call _
    | exact steps_call0 _
    | (apply steps_emit; rfl)
    | (apply steps_ewarnx; rfl)
    | (apply steps_eerrorx; rfl)
    | exact steps_mono (fun _ x => x) (by simp) (by simp) (steps_svc_wait L _ _)
    | exact steps_mono (fun _ x => x) (by simp) (by simp) (steps_start_services L _)
    | exact steps_svc_stop_deps L _
    | apply steps_forEach
    | apply steps_bind
    | apply steps_ite
    | (apply steps_modify; intro s; constructor <;> simp)
    | intro _
    | split

theorem steps_start_run {σ : Type} (L : Lib σ) :
    Steps (Keeps noHook false true) (start_run L) := by
  unfold start_run
  repeat' first
    | exact steps_get
    | exact steps_pure _
    | exact steps_exit _
    | exact steps_call _
    | exact steps_call0 _
    | (apply steps_emit; rfl)
    | (apply steps_ewarnx; rfl)
    | (apply steps_eerrorx; rfl)
    | exact steps_mono (fun e x => quiet_noHook e (plain_quiet e x)) (by simp) (by simp) (steps_svc_wait L _ _)
    | exact steps_mono (fun e x => quiet_noHook e (plain_quiet e x)) (by simp) (by simp) (steps_start_services L _)
    | exact steps_mono quiet_noHook (by simp) (by simp) (steps_unlink_mtime_test L)
    | apply steps_forEach
    | apply steps_bind
    | apply steps_ite
    | (apply steps_modify; intro s; constructor <;> simp)
    | intro _
    | split

theorem steps_stop_run {σ : Type} (L : Lib σ) :
    Steps (Keeps noHook false true) (stop_run L) := by
  unfold stop_run
  repeat' first
    | exact steps_get
    | exact steps_pure _
    | exact steps_exit _
    | exact steps_call _
    | exact steps_call0 _
    | (apply steps_emit; rfl)
    | (apply steps_ewarnx; rfl)
    | (apply steps_eerrorx; rfl)
    | exact steps_mono (fun e x => quiet_noHook e (plain_quiet e x)) (by simp) (by simp) (steps_svc_wait L _ _)
    | exact steps_mono (fun e x => quiet_noHook e (plain_quiet e x)) (by simp) (by simp) (steps_start_services L _)
    | exact steps_mono quiet_noHook (by simp) (by simp) (steps_unlink_mtime_test L)
    | apply steps_forEach
    | apply steps_bind
    | apply steps_ite
    | (apply steps_modify; intro s; constructor <;> simp)
    | intro _
    | split

theorem steps_start_sched {σ : Type} (L : Lib σ) :
    Steps (Keeps quiet true true) (start_sched L) := by
  unfold start_sched
  repeat' first
    | exact steps_get
    | exact steps_pure _
    | exact steps_exit _
    | exact steps_call _
    | exact steps_call0 _
    | (apply steps_emit; rfl)
    | (apply steps_ewarnx; rfl)
    | (apply steps_eerrorx; rfl)
    | exact steps_mono plain_quiet (by simp) (by simp) (steps_svc_wait L _ _)
    | exact steps_mono plain_quiet (by simp) (by simp) (steps_start_services L _)
    | apply steps_forEach
    | apply steps_bind
    | apply steps_ite
    | (apply steps_modify; intro s; constructor <;> simp)
    | intro _
    | split

theorem steps_stop_unlink {σ : Type} (L : Lib σ) :
    Steps (Keeps quiet true true) (stop_unlink L) := by
  unfold stop_unlink
  repeat' first
    | exact steps_get
    | exact steps_pure _
    | exact steps_exit _
    | exact steps_call _
    | exact steps_call0 _
    | (apply steps_emit; rfl)
    | (apply steps_ewarnx; rfl)
    | (apply steps_eerrorx; rfl)
    | exact steps_mono plain_quiet (by simp) (by simp) (steps_svc_wait L _ _)
    | exact steps_mono plain_quiet (by simp) (by simp) (steps_start_services L _)
    | apply steps_forEach
    | apply steps_bind
    | apply steps_ite
    | (apply steps_modify; intro s; constructor <;> simp)
    | intro _
    | split

theorem steps_restore_state {σ : Type} (L : Lib σ) :
    Steps (Keeps quiet false true) (restore_state L) := by
  unfold restore_state
  repeat' first
    | exact steps_get
    | exact steps_pure _
    | exact steps_exit _
    | exact steps_call _
    | exact steps_call0 _
    | (apply steps_emit; rfl)
    | (apply steps_ewarnx; rfl)
    | (apply steps_eerrorx; rfl)
    | exact steps_mono plain_quiet (by simp) (by simp) (steps_svc_wait L _ _)
    | exact steps_mono plain_quiet (by simp) (by simp) (steps_start_services L _)
    | apply steps_forEach
    | apply steps_bind
    | apply steps_ite
    | (apply steps_modify; intro s; constructor <;> simp)
    | intro _
    | split

theorem steps_cleanup_hooks {σ : Type} (L : Lib σ) :
    Steps (Keeps noUnlink true true) (cleanup_hooks L) := by
  unfold cleanup_hooks
  repeat' first
    | exact steps_get
    | exact steps_pure _
    | exact steps_exit _
    | exact steps_call _
    | exact steps_call0 _
    | (apply steps_emit; rfl)
    | (apply steps_ewarnx; rfl)
    | (apply steps_eerrorx; rfl)
    | exact steps_mono plain_noUnlink (by simp) (by simp) (steps_svc_wait L _ _)
    | exact steps_mono plain_noUnlink (by simp) (by simp) (steps_start_services L _)
    | apply steps_forEach
    | apply steps_bind
    | apply steps_ite
    | (apply steps_modify; intro s; constructor <;> simp)
    | intro _
    | split


theorem steps_cleanup_lock {σ : Type} (L : Lib σ) :
    Steps (Keeps quiet true true) (cleanup_lock L) := by
  unfold cleanup_lock
  repeat' first
    | exact steps_get
    | exact steps_pure _
    | exact steps_exit _
    | exact steps_call _
    | exact steps_call0 _
    | (apply steps_emit; rfl)
    | (apply steps_ewarnx; rfl)
    | (apply steps_eerrorx; rfl)
    | exact steps_mono plain_quiet (by simp) (by simp) (steps_start_services L _)
    | apply steps_forEach
    | apply steps_bind
    | apply steps_ite
    | (apply steps_modify; intro s; constructor <;> simp)
    | intro _
    | split

theorem steps_cleanup_restart {σ : Type} (L : Lib σ) :
    Steps (Keeps plain true true) (cleanup_restart L) := by
  unfold cleanup_restart
  repeat' first
    | exact steps_get
    | exact steps_pure _
    | exact steps_exit _
    | exact steps_call _
    | exact steps_call0 _
    | (apply steps_emit; rfl)
    | (apply steps_ewarnx; rfl)
    | (apply steps_eerrorx; rfl)
    | exact steps_mono (fun _ x => x) (by simp) (by simp) (steps_start_services L _)
    | apply steps_forEach
    | apply steps_bind
    | apply steps_ite
    | (apply steps_modify; intro s; constructor <;> simp)
    | intro _
    | split

theorem steps_cleanup_probe {σ : Type} (L : Lib σ) :
    Steps (Keeps quiet true true) (cleanup_probe L) := by
  unfold cleanup_probe
  repeat' first
    | exact steps_get
    | exact steps_pure _
    | exact steps_exit _
    | exact steps_call _
    | exact steps_call0 _
    | (apply steps_emit; rfl)
    | (apply steps_ewarnx; rfl)
    | (apply steps_eerrorx; rfl)
    | exact steps_mono plain_quiet (by simp) (by simp) (steps_start_services L _)
    | apply steps_forEach
    | apply steps_bind
    | apply steps_ite
    | (apply steps_modify; intro s; constructor <;> simp)
    | intro _
    | split

/-! ## Pieces that always return -/

theorem returns_pure {σ α : Type} (a : α) : Returns (pure a : M σ α) := ⟨fun _ => ⟨a, rfl⟩⟩

theorem returns_get {σ : Type} : Returns (get : M σ (Sup σ)) := ⟨fun s => ⟨s, rfl⟩⟩

theorem returns_emit {σ : Type} (e : Ev) : Returns (emit e : M σ Unit) := ⟨fun _ => ⟨(), rfl⟩⟩

theorem returns_modify {σ : Type} (f : Sup σ → Sup σ) : Returns (modify f) :=
  ⟨fun _ => ⟨(), rfl⟩⟩

theorem returns_call {σ α : Type} (f : σ → α × σ) : Returns (call f) :=
  ⟨fun s => ⟨(f s.w).1, rfl⟩⟩

theorem returns_call0 {σ : Type} (f : σ → σ) : Returns (call0 f) := ⟨fun _ => ⟨(), rfl⟩⟩

theorem returns_bind {σ α β : Type} {m : M σ α} {f : α → M σ β}
    (hm : Returns m) (hf : ∀ a, Returns (f a)) : Returns (m >>= f) := by
  constructor
  intro s
  obtain ⟨a, ha⟩ := hm.run s
  show ∃ b, (M.bind m f s).1 = Res.ok b
  unfold M.bind
  split
  · next a1 s1 heq => exact (hf a1).run s1
  · next c s1 heq => rw [heq] at ha; cases ha
  · next s1 heq => rw [heq] at ha; cases ha

theorem returns_ite {σ α : Type} {c : Prop} [Decidable c] {a b : M σ α}
    (ha : Returns a) (hb : Returns b) : Returns (if c then a else b) := by
  split
  · exact ha
  · exact hb

theorem returns_forEach {σ : Type} {body : String → M σ Unit}
    (hb : ∀ x, Returns (body x)) (xs : List String) : Returns (forEach body xs) := by
  induction xs with
  | nil => exact returns_pure ()
  | cons x xs ih => exact returns_bind (hb x) (fun _ => ih)

theorem returns_start_services {σ : Type} (L : Lib σ) (list : List String) :
    Returns (start_services L list) := by
  unfold start_services
  repeat' first
    | exact returns_get
    | exact returns_pure _
    | exact returns_call0 _
    | exact returns_emit _
    | apply returns_forEach
    | apply returns_bind
    | apply returns_ite
    | intro _

theorem returns_restore_state {σ : Type} (L : Lib σ) : Returns (restore_state L) := by
  unfold restore_state
  repeat' first
    | exact returns_get
    | exact returns_pure _
    | exact returns_call _
    | exact returns_call0 _
    | exact returns_emit _
    | exact returns_modify _
    | exact returns_start_services L _
    | apply returns_forEach
    | apply returns_bind
    | apply returns_ite
    | intro _
    | split

theorem returns_cleanup_hooks {σ : Type} (L : Lib σ) : Returns (cleanup_hooks L) := by
  unfold cleanup_hooks
  repeat' first
    | exact returns_get
    | exact returns_pure _
    | exact returns_call _
    | exact returns_call0 _
    | exact returns_emit _
    | exact returns_modify _
    | exact returns_start_services L _
    | apply returns_forEach
    | apply returns_bind
    | apply returns_ite
    | intro _
    | split

theorem returns_unlink {σ : Type} (L : Lib σ) (p : Option String) : Returns (unlink L p) := by
  unfold unlink
  repeat' first
    | exact returns_get
    | exact returns_pure _
    | exact returns_call _
    | exact returns_call0 _
    | exact returns_emit _
    | exact returns_modify _
    | exact returns_start_services L _
    | apply returns_forEach
    | apply returns_bind
    | apply returns_ite
    | intro _
    | split

theorem returns_cleanup_lock {σ : Type} (L : Lib σ) : Returns (cleanup_lock L) := by
  unfold cleanup_lock
  repeat' first
    | exact returns_get
    | exact returns_pure _
    | exact returns_call _
    | exact returns_call0 _
    | exact returns_emit _
    | exact returns_modify _
    | exact returns_start_services L _
    | exact returns_unlink L _
    | apply returns_forEach
    | apply returns_bind
    | apply returns_ite
    | intro _
    | split

theorem returns_cleanup_restart {σ : Type} (L : Lib σ) : Returns (cleanup_restart L) := by
  unfold cleanup_restart
  repeat' first
    | exact returns_get
    | exact returns_pure _
    | exact returns_call _
    | exact returns_call0 _
    | exact returns_emit _
    | exact returns_modify _
    | exact returns_start_services L _
    | exact returns_unlink L _
    | apply returns_forEach
    | apply returns_bind
    | apply returns_ite
    | intro _
    | split

theorem returns_cleanup_probe {σ : Type} (L : Lib σ) : Returns (cleanup_probe L) := by
  unfold cleanup_probe
  repeat' first
    | exact returns_get
    | exact returns_pure _
    | exact returns_call _
    | exact returns_call0 _
    | exact returns_emit _
    | exact returns_modify _
    | exact returns_start_services L _
    | exact returns_unlink L _
    | apply returns_forEach
    | apply returns_bind
    | apply returns_ite
    | intro _
    | split

theorem returns_cleanup {σ : Type} (L : Lib σ) : Returns (cleanup L) := by
  unfold cleanup
  repeat' first
    | exact returns_get
    | exact returns_pure _
    | exact returns_restore_state L
    | exact returns_cleanup_hooks L
    | exact returns_cleanup_lock L
    | exact returns_cleanup_restart L
    | exact returns_cleanup_probe L
    | apply returns_bind
    | apply returns_ite
    | intro _
    | split

/-- What `M.bind` does, by the way its first part ends. -/
theorem bind_cases {σ α β : Type} (m : M σ α) (f : α → M σ β) (s : Sup σ) :
    (∃ a, (m s).1 = Res.ok a ∧ (m >>= f) s = f a (m s).2) ∨
    ((∀ a, (m s).1 ≠ Res.ok a) ∧ ((m >>= f) s).2 = (m s).2 ∧
      (∀ b, ((m >>= f) s).1 ≠ Res.ok b) ∧
      ((m s).1 = Res.hang ↔ ((m >>= f) s).1 = Res.hang) ∧
      (∀ c, (m s).1 = Res.exit c ↔ ((m >>= f) s).1 = Res.exit c)) := by
  show _ ∨ (_ ∧ (M.bind m f s).2 = _ ∧ (∀ b, (M.bind m f s).1 ≠ _) ∧
    (_ ↔ (M.bind m f s).1 = _) ∧ (∀ c, _ ↔ (M.bind m f s).1 = _))
  rcases h : m s with ⟨r, s1⟩
  cases r with
  | ok a => exact Or.inl ⟨a, rfl, by show M.bind m f s = _; simp [M.bind, h]⟩
  | exit c => exact Or.inr (by simp [M.bind, h])
  | hang => exact Or.inr (by simp [M.bind, h])

theorem ok_bind {σ α β : Type} {m : M σ α} {f : α → M σ β} {s : Sup σ} {b : β}
    (h : ((m >>= f) s).1 = Res.ok b) :
    ∃ a, (m s).1 = Res.ok a ∧ (f a (m s).2).1 = Res.ok b ∧ (m >>= f) s = f a (m s).2 := by
  rcases bind_cases m f s with ⟨a, hok, heq⟩ | ⟨_, _, hno, _⟩
  · exact ⟨a, hok, by rw [← heq]; exact h, heq⟩
  · exact absurd h (hno b)

/-! ## Hooks -/

theorem hooksOf_append (a b : List Ev) : hooksOf (a ++ b) = hooksOf a ++ hooksOf b := by
  induction a with
  | nil => rfl
  | cons e a ih => cases e <;> simp [hooksOf, ih]

theorem hooksOf_noHook (evs : List Ev) (h : evs.all noHook = true) : hooksOf evs = [] := by
  induction evs with
  | nil => rfl
  | cons e evs ih =>
    simp only [List.all_cons, Bool.and_eq_true] at h
    cases e <;> simp_all [hooksOf, noHook, Ev.isHook, Ev.isEnter]

theorem calm_of_steps {σ α : Type} {P : Ev → Bool} {k : Bool} {m : M σ α}
    (hP : ∀ e, P e = true → noHook e = true) (hm : Steps (Keeps P k true) m) : Calm m := by
  constructor
  intro s
  have hk := keeps_mono hP (fun x => x) (fun x => x) (hm.run s)
  obtain ⟨evs, he, hp⟩ := hk.trace
  exact ⟨by rw [he, hooksOf_append, hooksOf_noHook evs hp, List.append_nil],
    hk.hook_out rfl, hk.rc_in_plugin⟩

theorem fires_start_in {σ : Type} (L : Lib σ) :
    Fires Hook.START_IN (some Hook.START_OUT) (start_in L) :=
  ⟨fun s => by simp [start_in, bind_eq, M.bind, get, modify, rc_plugin_run, emit, call0,
    hooksOf_append, hooksOf]⟩

theorem fires_start_done {σ : Type} (L : Lib σ) :
    Fires Hook.START_DONE (some Hook.START_OUT) (start_done L) :=
  ⟨fun s => by simp [start_done, bind_eq, M.bind, get, modify, rc_plugin_run, emit, call0,
    hooksOf_append, hooksOf]⟩

theorem fires_start_out {σ : Type} (L : Lib σ) :
    Fires Hook.START_OUT none (start_out L) :=
  ⟨fun s => by simp [start_out, bind_eq, M.bind, get, modify, rc_plugin_run, emit, call0,
    hooksOf_append, hooksOf]⟩

theorem fires_start_now {σ : Type} (L : Lib σ) :
    Fires Hook.START_NOW (some Hook.START_DONE) (start_now L) :=
  ⟨fun s => by
    cases h : s.ibsave <;>
    simp [start_now, bind_eq, M.bind, get, modify, rc_plugin_run, emit, call0,
      hooksOf_append, hooksOf, h, pure_eq]⟩

theorem fires_stop_in {σ : Type} (L : Lib σ) :
    Fires Hook.STOP_IN (some Hook.STOP_OUT) (stop_in L) :=
  ⟨fun s => by simp [stop_in, bind_eq, M.bind, get, modify, rc_plugin_run, emit, call0,
    hooksOf_append, hooksOf]⟩

theorem fires_stop_done {σ : Type} (L : Lib σ) :
    Fires Hook.STOP_DONE (some Hook.STOP_OUT) (stop_done L) :=
  ⟨fun s => by simp [stop_done, bind_eq, M.bind, get, modify, rc_plugin_run, emit, call0,
    hooksOf_append, hooksOf]⟩

theorem fires_stop_out {σ : Type} (L : Lib σ) :
    Fires Hook.STOP_OUT none (stop_out L) :=
  ⟨fun s => by simp [stop_out, bind_eq, M.bind, get, modify, rc_plugin_run, emit, call0,
    hooksOf_append, hooksOf]⟩

theorem fires_stop_now {σ : Type} (L : Lib σ) :
    Fires Hook.STOP_NOW (some Hook.STOP_DONE) (stop_now L) :=
  ⟨fun s => by
    cases h : s.ibsave <;>
    simp [stop_now, bind_eq, M.bind, get, modify, rc_plugin_run, emit, call0,
      hooksOf_append, hooksOf, h, pure_eq]⟩

theorem bind_calm_ret {σ α β : Type} {m : M σ α} (hc : Calm m) (hr : Returns m)
    (f : α → M σ β) (s : Sup σ) :
    ∃ a t, (m >>= f) s = f a t ∧ hooksOf t.trace = hooksOf s.trace ∧
      t.hook_out = s.hook_out ∧ t.rc_in_plugin = s.rc_in_plugin := by
  obtain ⟨a, ha⟩ := hr.run s
  rcases bind_cases m f s with ⟨a1, _, heq⟩ | ⟨hno, _⟩
  · exact ⟨a1, (m s).2, heq, hc.run s⟩
  · exact absurd ha (hno a)

theorem bind_fires {σ β : Type} {h : Hook} {ho : Option Hook} {m : M σ Unit}
    (hf : Fires h ho m) (f : Unit → M σ β) (s : Sup σ) :
    ∃ t, (m >>= f) s = f () t ∧ hooksOf t.trace = hooksOf s.trace ++ [h] ∧
      t.hook_out = ho ∧ t.rc_in_plugin = s.rc_in_plugin := by
  obtain ⟨hok, hrest⟩ := hf.run s
  rcases bind_cases m f s with ⟨a1, _, heq⟩ | ⟨hno, _⟩
  · exact ⟨(m s).2, heq, hrest⟩
  · exact absurd hok (hno ())

theorem bind_calm {σ β : Type} {m : M σ Unit} (hc : Calm m) (f : Unit → M σ β) (s : Sup σ) :
    (∃ t, (m >>= f) s = f () t ∧ hooksOf t.trace = hooksOf s.trace ∧
      t.hook_out = s.hook_out ∧ t.rc_in_plugin = s.rc_in_plugin) ∨
    ((∀ b, ((m >>= f) s).1 ≠ Res.ok b) ∧ hooksOf ((m >>= f) s).2.trace = hooksOf s.trace ∧
      ((m >>= f) s).2.hook_out = s.hook_out ∧
      ((m >>= f) s).2.rc_in_plugin = s.rc_in_plugin) := by
  rcases bind_cases m f s with ⟨a1, _, heq⟩ | ⟨_, h2, h3, _⟩
  · exact Or.inl ⟨(m s).2, heq, hc.run s⟩
  · refine Or.inr ⟨h3, ?_⟩
    rw [h2]
    exact hc.run s

/-- A piece `F1; C1; F2; C2; F3` whose `F`s fire one hook each and whose `C`s fire
none ends as `Ends` says. -/
theorem ladder {σ : Type} {h1 h2 h3 : Hook} {o1 o2 : Option Hook} {F1 C1 F2 C2 F3 : M σ Unit}
    (hF1 : Fires h1 o1 F1) (hC1 : Calm C1) (hF2 : Fires h2 o2 F2) (hC2 : Calm C2)
    (hF3 : Fires h3 none F3) (hp1 : pending o1 = [h2, h3]) (hp2 : pending o2 = [h3])
    (s : Sup σ) :
    Ends [h1, h2, h3] s ((F1 >>= fun _ => C1 >>= fun _ => F2 >>= fun _ => C2 >>= fun _ => F3) s) := by
  obtain ⟨t1, e1, a1, b1, c1⟩ := bind_fires hF1 (fun _ => C1 >>= fun _ => F2 >>= fun _ => C2 >>= fun _ => F3) s
  rw [e1]
  rcases bind_calm hC1 (fun _ => F2 >>= fun _ => C2 >>= fun _ => F3) t1 with
    ⟨t2, e2, a2, b2, c2⟩ | ⟨n2, a2, b2, c2⟩
  · rw [e2]
    obtain ⟨t3, e3, a3, b3, c3⟩ := bind_fires hF2 (fun _ => C2 >>= fun _ => F3) t2
    rw [e3]
    rcases bind_calm hC2 (fun _ => F3) t3 with ⟨t4, e4, a4, b4, c4⟩ | ⟨n4, a4, b4, c4⟩
    · rw [e4]
      obtain ⟨ok5, a5, b5, c5⟩ := hF3.run t4
      refine ⟨by rw [c5, c4, c3, c2, c1], Or.inl ⟨ok5, ?_, b5⟩⟩
      rw [a5, a4, a3, a2, a1]
      simp
    · refine ⟨by rw [c4, c3, c2, c1], Or.inr ⟨n4 (), ?_⟩⟩
      rw [a4, b4, a3, b3, a2, a1, hp2]
      simp
  · refine ⟨by rw [c2, c1], Or.inr ⟨n2 (), ?_⟩⟩
    rw [a2, b2, a1, b1, hp1]
    simp

/-- A body `(C0; F0; D0); E` whose `C0` and `D0` fire no hook, whose `F0` fires `hin` and
leaves `hout` pending, and whose `E` ends as `Ends target`, ends as `EndsBody` says. -/
theorem body_ends {σ : Type} {hin hout : Hook} {o : Option Hook} {target : List Hook}
    {C0 F0 D0 E : M σ Unit}
    (hC0 : Calm C0) (hF0 : Fires hin o F0) (hD0 : Calm D0) (hp : pending o = [hout])
    (hE : ∀ s, Ends target s (E s)) (s : Sup σ) :
    EndsBody hin hout target s (((C0 >>= fun _ => F0 >>= fun _ => D0) >>= fun _ => E) s) := by
  rcases bind_cases (C0 >>= fun _ => F0 >>= fun _ => D0) (fun _ => E) s with
    ⟨a, hok, heq⟩ | ⟨hno, hst, hnok, _⟩
  · -- the first part returned
    rw [heq]
    rcases bind_calm hC0 (fun _ => F0 >>= fun _ => D0) s with
      ⟨t1, e1, a1, b1, c1⟩ | ⟨n1, _⟩
    · obtain ⟨t2, e2, a2, b2, c2⟩ := bind_fires hF0 (fun _ => D0) t1
      have hD := hD0.run t2
      have hpre : (C0 >>= fun _ => F0 >>= fun _ => D0) s = D0 t2 := by rw [e1, e2]
      rw [hpre] at hok ⊢
      obtain ⟨hE1, hE2⟩ := hE (D0 t2).2
      refine ⟨by rw [hE1, hD.2.2, c2, c1], ?_⟩
      have hbase : hooksOf (D0 t2).2.trace = hooksOf s.trace ++ [hin] := by
        rw [hD.1, a2, a1]
      rcases hE2 with ⟨r1, r2, r3⟩ | ⟨r1, r2⟩
      · refine Or.inr (Or.inr ⟨r1, ?_, r3⟩)
        rw [r2, hbase]
        simp
      · refine Or.inr (Or.inl ⟨r1, Or.inr ?_⟩)
        rw [r2, hbase]
        simp
    · exact absurd hok (n1 a)
  · -- the first part did not return
    unfold EndsBody
    rw [hst]
    have hne : (((C0 >>= fun _ => F0 >>= fun _ => D0) >>= fun _ => E) s).1 ≠ Res.ok () :=
      hnok ()
    rcases bind_calm hC0 (fun _ => F0 >>= fun _ => D0) s with
      ⟨t1, e1, a1, b1, c1⟩ | ⟨n1, a1, b1, c1⟩
    · obtain ⟨t2, e2, a2, b2, c2⟩ := bind_fires hF0 (fun _ => D0) t1
      have hD := hD0.run t2
      have hpre : (C0 >>= fun _ => F0 >>= fun _ => D0) s = D0 t2 := by rw [e1, e2]
      rw [hpre]
      refine ⟨by rw [hD.2.2, c2, c1], Or.inr (Or.inl ⟨hne, Or.inl ?_⟩)⟩
      rw [hD.1, hD.2.1, a2, b2, a1, hp]
      simp
    · exact ⟨c1, Or.inl ⟨hne, a1⟩⟩

theorem get_bind {σ β : Type} (f : Sup σ → M σ β) (s : Sup σ) : (get >>= f) s = f s s := rfl

theorem svc_start_exec_ends {σ : Type} (L : Lib σ) (s : Sup σ) :
    Ends [Hook.START_NOW, Hook.START_DONE, Hook.START_OUT] s (svc_start_exec L s) :=
  ladder (fires_start_now L) (calm_of_steps (fun _ x => x) (steps_start_run L))
    (fires_start_done L) (calm_of_steps quiet_noHook (steps_start_sched L))
    (fires_start_out L) rfl rfl s

theorem svc_stop_exec_ends {σ : Type} (L : Lib σ) (s : Sup σ) :
    Ends [Hook.STOP_NOW, Hook.STOP_DONE, Hook.STOP_OUT] s (svc_stop_exec L s) :=
  ladder (fires_stop_now L) (calm_of_steps (fun _ x => x) (steps_stop_run L))
    (fires_stop_done L) (calm_of_steps quiet_noHook (steps_stop_unlink L))
    (fires_stop_out L) rfl rfl s

theorem svc_start_body_ends {σ : Type} (L : Lib σ) (fuel : Nat) (deps : Bool) (s : Sup σ) :
    EndsBody Hook.START_IN Hook.START_OUT [Hook.START_NOW, Hook.START_DONE, Hook.START_OUT] s
      (svc_start_body L fuel deps s) :=
  body_ends (calm_of_steps quiet_noHook (steps_start_mark L)) (fires_start_in L)
    (calm_of_steps quiet_noHook (steps_start_deps L fuel deps)) rfl (svc_start_exec_ends L) s

theorem svc_stop_body_ends {σ : Type} (L : Lib σ) (fuel : Nat) (deps : Bool) (state : Nat)
    (s : Sup σ) :
    EndsBody Hook.STOP_IN Hook.STOP_OUT [Hook.STOP_NOW, Hook.STOP_DONE, Hook.STOP_OUT] s
      (svc_stop_body L fuel deps state s) :=
  body_ends (calm_of_steps quiet_noHook (steps_stop_mark L)) (fires_stop_in L)
    (calm_of_steps (fun e x => quiet_noHook e (plain_quiet e x))
      (steps_stop_deps L fuel deps state)) rfl (svc_stop_exec_ends L) s

theorem cleanup_hooks_fired {σ : Type} (L : Lib σ) (s : Sup σ) :
    hooksOf (cleanup_hooks L s).2.trace = hooksOf s.trace ++ pending s.hook_out ∧
    (cleanup_hooks L s).2.rc_in_plugin = s.rc_in_plugin := by
  cases h : s.hook_out with
  | none => simp [cleanup_hooks, bind_eq, M.bind, get, h, pure_eq, pending]
  | some hk =>
    cases hk <;>
    simp [cleanup_hooks, bind_eq, M.bind, get, h, pure_eq, pending, rc_plugin_run, emit,
      call0, hooksOf_append, hooksOf]

/-- The hooks that `cleanup` fires are those pending in `hook_out`. -/
theorem cleanup_fired {σ : Type} (L : Lib σ) (s : Sup σ) (h : s.rc_in_plugin = false) :
    hooksOf (cleanup L s).2.trace = hooksOf s.trace ++ pending s.hook_out := by
  unfold cleanup
  obtain ⟨a, t1, e1, a1, b1, c1⟩ := bind_calm_ret
    (calm_of_steps quiet_noHook (steps_restore_state L)) (returns_restore_state L)
    (fun _ => get >>= fun s => (if !s.rc_in_plugin then do
        cleanup_lock L
        cleanup_hooks L
        cleanup_restart L
      else pure ()) >>= fun _ => cleanup_probe L) s
  rw [e1, get_bind]
  have hp : t1.rc_in_plugin = false := by rw [c1, h]
  simp only [hp, Bool.not_false, if_true]
  rcases bind_cases (cleanup_lock L >>= fun _ => cleanup_hooks L >>= fun _ => cleanup_restart L)
    (fun _ => cleanup_probe L) t1 with ⟨a2, hok, heq⟩ | ⟨hno, _⟩
  · rw [heq]
    rw [((calm_of_steps quiet_noHook (steps_cleanup_probe L)).run _).1]
    obtain ⟨_, t2, e2, a2, b2, c2⟩ := bind_calm_ret
      (calm_of_steps quiet_noHook (steps_cleanup_lock L)) (returns_cleanup_lock L)
      (fun _ => cleanup_hooks L >>= fun _ => cleanup_restart L) t1
    rw [e2]
    rcases bind_cases (cleanup_hooks L) (fun _ => cleanup_restart L) t2 with
      ⟨a3, hok3, heq3⟩ | ⟨hno3, _⟩
    · rw [heq3]
      rw [((calm_of_steps (fun e x => quiet_noHook e (plain_quiet e x))
        (steps_cleanup_restart L)).run _).1, (cleanup_hooks_fired L t2).1, a2, b2, a1, b1]
    · obtain ⟨x, hx⟩ := (returns_cleanup_hooks L).run t2
      exact absurd hx (hno3 x)
  · have hr : Returns (cleanup_lock L >>= fun _ => cleanup_hooks L >>= fun _ => cleanup_restart L) :=
      returns_bind (returns_cleanup_lock L) (fun _ =>
        returns_bind (returns_cleanup_hooks L) (fun _ => returns_cleanup_restart L))
    obtain ⟨x, hx⟩ := hr.run t1
    exact absurd hx (hno x)

theorem svc_start_cases {σ : Type} (L : Lib σ) (fuel : Nat) (deps : Bool) (s : Sup σ) :
    svc_start L fuel deps s = svc_start_body L fuel deps s ∨
    hooksOf (svc_start L fuel deps s).2.trace = hooksOf s.trace := by
  unfold svc_start
  simp only [get_bind]
  by_cases hb : (s.in_hotplug || s.in_background) = true
  · by_cases hg : svc_start_guard_test L.bits (L.rc_service_state s.w (svcOf s)) = true
    · right
      simp [hb, hg, bind_eq, M.bind, exit]
    · by_cases h1 : has (L.rc_service_state s.w (svcOf s)) L.bits.STARTED = true
      · right
        simp [hb, hg, bind_eq, M.bind, pure_eq, h1, ewarn, emit, hooksOf_append, hooksOf]
      · by_cases h2 : has (L.rc_service_state s.w (svcOf s)) L.bits.STARTING = true
        · right
          simp [hb, hg, bind_eq, M.bind, pure_eq, h1, h2, ewarnx, hooksOf_append, hooksOf]
        · by_cases h3 : has (L.rc_service_state s.w (svcOf s)) L.bits.STOPPING = true
          · right
            simp [hb, hg, bind_eq, M.bind, pure_eq, h1, h2, h3, ewarnx, hooksOf_append, hooksOf]
          · left
            simp [hb, hg, bind_eq, M.bind, pure_eq, h1, h2, h3]
  · by_cases h1 : has (L.rc_service_state s.w (svcOf s)) L.bits.STARTED = true
    · right
      simp [hb, bind_eq, M.bind, pure_eq, h1, ewarn, emit, hooksOf_append, hooksOf]
    · by_cases h2 : has (L.rc_service_state s.w (svcOf s)) L.bits.STARTING = true
      · right
        simp [hb, bind_eq, M.bind, pure_eq, h1, h2, ewarnx, hooksOf_append, hooksOf]
      · by_cases h3 : has (L.rc_service_state s.w (svcOf s)) L.bits.STOPPING = true
        · right
          simp [hb, bind_eq, M.bind, pure_eq, h1, h2, h3, ewarnx, hooksOf_append, hooksOf]
        · by_cases h4 : has (L.rc_service_state s.w (svcOf s)) L.bits.INACTIVE = true
          · right
            simp [hb, bind_eq, M.bind, pure_eq, h1, h2, h3, h4, ewarnx, hooksOf_append, hooksOf]
          · left
            simp [hb, bind_eq, M.bind, pure_eq, h1, h2, h3, h4]

theorem svc_stop_cases {σ : Type} (L : Lib σ) (fuel : Nat) (deps : Bool) (s : Sup σ) :
    svc_stop L fuel deps s =
      svc_stop_body L fuel deps (L.rc_service_state s.w (svcOf s)) s ∨
    hooksOf (svc_stop L fuel deps s).2.trace = hooksOf s.trace := by
  unfold svc_stop
  simp only [get_bind]
  split
  · right; rfl
  · split
    · right; rfl
    · split
      · right
        simp [ewarn, emit, hooksOf_append, hooksOf]
      · split
        · right
          simp [ewarnx, hooksOf_append, hooksOf]
        · left; rfl

theorem fired_of_eq {σ : Type} {s t : Sup σ} {X : List Hook}
    (h : hooksOf t.trace = hooksOf s.trace ++ X) : fired s t = X := by
  unfold fired
  rw [h, List.drop_left]

/-- The hooks of a body and of the cleanup after it. -/
theorem body_then_cleanup {σ : Type} (L : Lib σ) {hin hout : Hook} {target : List Hook}
    (s : Sup σ) (r : Res Unit × Sup σ) (hp : s.rc_in_plugin = false)
    (he : EndsBody hin hout target s r) (hfire : hin ∈ fired s r.2) :
    (fired s (cleanup L r.2).2 = [hin, hout] ∨ fired s (cleanup L r.2).2 = hin :: target) ∧
    (r.1 = Res.ok () → fired s r.2 = hin :: target ∧ r.2.hook_out = none) := by
  obtain ⟨hpl, hcase⟩ := he
  have hcl := cleanup_fired L r.2 (by rw [hpl, hp])
  rcases hcase with ⟨_, h0⟩ | ⟨hne, h1 | h1⟩ | ⟨hok, h1, h2⟩
  · have : fired s r.2 = [] := fired_of_eq (by rw [h0, List.append_nil])
    rw [this] at hfire
    cases hfire
  · refine ⟨Or.inl (fired_of_eq ?_), fun hok => absurd hok hne⟩
    rw [hcl, h1]
  · refine ⟨Or.inr (fired_of_eq ?_), fun hok => absurd hok hne⟩
    rw [hcl, h1]
  · refine ⟨Or.inr (fired_of_eq ?_), fun _ => ⟨fired_of_eq h1, h2⟩⟩
    rw [hcl, h1, h2]
    simp [pending]

/-! ## The abort by a signal -/

theorem signal_abort_fired {σ : Type} (L : Lib σ) (c : SigCtx) (sig : Int) (t : Sup σ)
    (hsig : sig = SIGINT ∨ sig = SIGTERM ∨ sig = SIGQUIT) (ht : t.rc_in_plugin = false) :
    (handle_signal L c sig t).1 = Res.exit EXIT_FAILURE ∧
    fired t (signal_abort L c sig t) = pending t.hook_out := by
  have hrun : (handle_signal L c sig t).1 = Res.exit EXIT_FAILURE ∧
      hooksOf (handle_signal L c sig t).2.trace = hooksOf t.trace ∧
      (handle_signal L c sig t).2.hook_out = t.hook_out ∧
      (handle_signal L c sig t).2.rc_in_plugin = t.rc_in_plugin := by
    rcases hsig with rfl | rfl | rfl <;>
      by_cases hp : c.service_pid > 0 <;>
      simp [handle_signal, bind_eq, M.bind, get, emit, eerrorx, pure_eq, hp,
        SIGINT, SIGTERM, SIGQUIT, SIGHUP, SIGCHLD, SIGWINCH, hooksOf_append, hooksOf]
  obtain ⟨h1, h2, h3, h4⟩ := hrun
  refine ⟨h1, fired_of_eq ?_⟩
  unfold signal_abort
  rw [cleanup_fired L _ (by rw [h4, ht]), h2, h3]

theorem reach_pre {σ : Type} {hin : Hook} {o : Option Hook} {C0 F0 D0 : M σ Unit}
    (hC0 : Calm C0) (hF0 : Fires hin o F0) (hD0 : Calm D0) :
    Reach [hin] o (C0 >>= fun _ => F0 >>= fun _ => D0) := by
  constructor
  intro s hok
  obtain ⟨_, _, h1, e1⟩ := ok_bind hok
  obtain ⟨_, _, h2, e2⟩ := ok_bind h1
  rw [e1, e2]
  obtain ⟨c1, c2, c3⟩ := hC0.run s
  obtain ⟨_, f1, f2, f3⟩ := hF0.run (C0 s).2
  obtain ⟨d1, d2, d3⟩ := hD0.run (F0 (C0 s).2).2
  exact ⟨by rw [d1, f1, c1], by rw [d2, f2], by rw [d3, f3, c3]⟩

theorem reach_fires {σ : Type} {X : List Hook} {o o2 : Option Hook} {h : Hook}
    {P F : M σ Unit} (hP : Reach X o P) (hF : Fires h o2 F) :
    Reach (X ++ [h]) o2 (P >>= fun _ => F) := by
  constructor
  intro s hok
  obtain ⟨_, p0, _, e1⟩ := ok_bind hok
  rw [e1]
  obtain ⟨p1, p2, p3⟩ := hP.run s p0
  obtain ⟨_, f1, f2, f3⟩ := hF.run (P s).2
  exact ⟨by rw [f1, p1, List.append_assoc], f2, by rw [f3, p3]⟩

theorem reach_calm {σ : Type} {X : List Hook} {o : Option Hook} {P C : M σ Unit}
    (hP : Reach X o P) (hC : Calm C) : Reach X o (P >>= fun _ => C) := by
  constructor
  intro s hok
  obtain ⟨_, p0, _, e1⟩ := ok_bind hok
  rw [e1]
  obtain ⟨p1, p2, p3⟩ := hP.run s p0
  obtain ⟨c1, c2, c3⟩ := hC.run (P s).2
  exact ⟨by rw [c1, p1], by rw [c2, p2], by rw [c3, p3]⟩

theorem reach_sets {σ : Type} {X : List Hook} {o o2 : Option Hook} {P S : M σ Unit}
    (hP : Reach X o P) (hS : Sets o2 S) : Reach X o2 (P >>= fun _ => S) := by
  constructor
  intro s hok
  obtain ⟨_, p0, _, e1⟩ := ok_bind hok
  rw [e1]
  obtain ⟨p1, p2, p3⟩ := hP.run s p0
  obtain ⟨_, c1, c2, c3⟩ := hS.run (P s).2
  exact ⟨by rw [c1, p1], c2, by rw [c3, p3]⟩

theorem sets_start_now_set {σ : Type} : Sets (some Hook.START_DONE) (start_now_set : M σ Unit) :=
  ⟨fun s => by
    cases h : s.ibsave <;>
    simp [start_now_set, bind_eq, M.bind, get, modify, emit, hooksOf_append, hooksOf, h,
      pure_eq]⟩

theorem sets_stop_now_set {σ : Type} : Sets (some Hook.STOP_DONE) (stop_now_set : M σ Unit) :=
  ⟨fun s => by
    cases h : s.ibsave <;>
    simp [stop_now_set, bind_eq, M.bind, get, modify, emit, hooksOf_append, hooksOf, h,
      pure_eq]⟩

theorem sets_modify {σ : Type} (o : Option Hook) :
    Sets o (modify (fun s : Sup σ => { s with hook_out := o })) :=
  ⟨fun s => by simp [modify]⟩

theorem reach_svc_start_pre {σ : Type} (L : Lib σ) (fuel : Nat) (deps : Bool) :
    Reach [Hook.START_IN] (some Hook.START_OUT) (svc_start_pre L fuel deps) :=
  reach_pre (calm_of_steps quiet_noHook (steps_start_mark L)) (fires_start_in L)
    (calm_of_steps quiet_noHook (steps_start_deps L fuel deps))

theorem reach_svc_stop_pre {σ : Type} (L : Lib σ) (fuel : Nat) (deps : Bool) (state : Nat) :
    Reach [Hook.STOP_IN] (some Hook.STOP_OUT) (svc_stop_pre L fuel deps state) :=
  reach_pre (calm_of_steps quiet_noHook (steps_stop_mark L)) (fires_stop_in L)
    (calm_of_steps (fun e x => quiet_noHook e (plain_quiet e x))
      (steps_stop_deps L fuel deps state))

theorem reach_start_cut_now {σ : Type} (L : Lib σ) (fuel : Nat) (deps : Bool) :
    Reach [Hook.START_IN] (some Hook.START_DONE) (start_cut_now L fuel deps) :=
  reach_sets (reach_svc_start_pre L fuel deps) sets_start_now_set

theorem reach_start_cut_done {σ : Type} (L : Lib σ) (fuel : Nat) (deps : Bool) :
    Reach [Hook.START_IN, Hook.START_NOW] (some Hook.START_OUT) (start_cut_done L fuel deps) :=
  reach_sets (reach_calm (reach_fires (reach_svc_start_pre L fuel deps) (fires_start_now L))
    (calm_of_steps (fun _ x => x) (steps_start_run L))) (sets_modify _)

theorem reach_start_cut_out {σ : Type} (L : Lib σ) (fuel : Nat) (deps : Bool) :
    Reach [Hook.START_IN, Hook.START_NOW, Hook.START_DONE] none (start_cut_out L fuel deps) :=
  reach_sets (reach_calm (reach_fires (reach_calm (reach_fires
    (reach_svc_start_pre L fuel deps) (fires_start_now L))
    (calm_of_steps (fun _ x => x) (steps_start_run L))) (fires_start_done L))
    (calm_of_steps quiet_noHook (steps_start_sched L))) (sets_modify _)

theorem reach_stop_cut_now {σ : Type} (L : Lib σ) (fuel : Nat) (deps : Bool) (state : Nat) :
    Reach [Hook.STOP_IN] (some Hook.STOP_DONE) (stop_cut_now L fuel deps state) :=
  reach_sets (reach_svc_stop_pre L fuel deps state) sets_stop_now_set

theorem reach_stop_cut_done {σ : Type} (L : Lib σ) (fuel : Nat) (deps : Bool) (state : Nat) :
    Reach [Hook.STOP_IN, Hook.STOP_NOW] (some Hook.STOP_OUT)
      (stop_cut_done L fuel deps state) :=
  reach_sets (reach_calm (reach_fires (reach_svc_stop_pre L fuel deps state) (fires_stop_now L))
    (calm_of_steps (fun _ x => x) (steps_stop_run L))) (sets_modify _)

theorem reach_stop_cut_out {σ : Type} (L : Lib σ) (fuel : Nat) (deps : Bool) (state : Nat) :
    Reach [Hook.STOP_IN, Hook.STOP_NOW, Hook.STOP_DONE] none
      (stop_cut_out L fuel deps state) :=
  reach_sets (reach_calm (reach_fires (reach_calm (reach_fires
    (reach_svc_stop_pre L fuel deps state) (fires_stop_now L))
    (calm_of_steps (fun _ x => x) (steps_stop_run L))) (fires_stop_done L))
    (calm_of_steps quiet_noHook (steps_stop_unlink L))) (sets_modify _)

/-- The hooks of a cut of the action and of the abort by a signal after it. -/
theorem cut_fired {σ : Type} (L : Lib σ) (c : SigCtx) (sig : Int)
    (hsig : sig = SIGINT ∨ sig = SIGTERM ∨ sig = SIGQUIT)
    {X : List Hook} {o : Option Hook} {P : M σ Unit} (hP : Reach X o P) (s : Sup σ)
    (hp : s.rc_in_plugin = false) (hok : (P s).1 = Res.ok ()) :
    fired s (signal_abort L c sig (P s).2) = X ++ pending o := by
  obtain ⟨p1, p2, p3⟩ := hP.run s hok
  obtain ⟨_, hf⟩ := signal_abort_fired L c sig (P s).2 hsig (by rw [p3, hp])
  unfold fired at hf ⊢
  have hext : ∃ Y, hooksOf (signal_abort L c sig (P s).2).trace = hooksOf (P s).2.trace ++ Y := by
    unfold signal_abort
    have h1 : hooksOf (handle_signal L c sig (P s).2).2.trace = hooksOf (P s).2.trace := by
      rcases hsig with rfl | rfl | rfl <;>
        by_cases hq : c.service_pid > 0 <;>
        simp [handle_signal, bind_eq, M.bind, get, emit, eerrorx, pure_eq, hq,
          SIGINT, SIGTERM, SIGQUIT, SIGHUP, SIGCHLD, SIGWINCH, hooksOf_append, hooksOf]
    have h4 : (handle_signal L c sig (P s).2).2.rc_in_plugin = false := by
      rw [← hp, ← p3]
      rcases hsig with rfl | rfl | rfl <;>
        by_cases hq : c.service_pid > 0 <;>
        simp [handle_signal, bind_eq, M.bind, get, emit, eerrorx, pure_eq, hq,
          SIGINT, SIGTERM, SIGQUIT, SIGHUP, SIGCHLD, SIGWINCH]
    exact ⟨_, by rw [cleanup_fired L _ h4, h1]⟩
  obtain ⟨Y, hY⟩ := hext
  rw [hY, List.drop_left] at hf
  rw [hY, p1, List.append_assoc, List.drop_left, hf, p2]

theorem start_now_eq {σ : Type} (L : Lib σ) (s : Sup σ) :
    start_now L s = (start_now_set >>= fun _ => start_now_run L) s := by
  cases h : s.ibsave <;>
    simp [start_now, start_now_set, start_now_run, bind_eq, M.bind, get, modify, emit, h,
      pure_eq, rc_plugin_run, call0]

theorem start_done_eq {σ : Type} (L : Lib σ) (s : Sup σ) :
    start_done L s = (start_done_set >>= fun _ => start_done_run L) s := by
  simp [start_done, start_done_set, start_done_run, bind_eq, M.bind, get, modify, emit,
    rc_plugin_run, call0]

theorem start_out_eq {σ : Type} (L : Lib σ) (s : Sup σ) :
    start_out L s = (start_out_set >>= fun _ => start_out_run L) s := by
  simp [start_out, start_out_set, start_out_run, bind_eq, M.bind, get, modify, emit,
    rc_plugin_run, call0]


theorem bind_assoc_fn {σ α β γ : Type} (m : M σ α) (f : α → M σ β) (g : β → M σ γ) :
    ((m >>= f) >>= g) = (m >>= fun a => f a >>= g) := by
  funext s
  show M.bind (M.bind m f) g s = M.bind m (fun a => M.bind (f a) g) s
  unfold M.bind
  rcases m s with ⟨r, s1⟩
  cases r <;> rfl

theorem start_body_cut_now {σ : Type} (L : Lib σ) (fuel : Nat) (deps : Bool) (s : Sup σ) :
    svc_start_body L fuel deps s =
      (start_cut_now L fuel deps >>= fun _ => start_now_run L >>= fun _ => start_run L >>=
        fun _ => start_done L >>= fun _ => start_sched L >>= fun _ => start_out L) s := by
  have h : start_now L = (start_now_set >>= fun _ => start_now_run L) :=
    funext (start_now_eq L)
  show (svc_start_pre L fuel deps >>= fun _ => (start_now L >>= fun _ => start_run L >>=
    fun _ => start_done L >>= fun _ => start_sched L >>= fun _ => start_out L)) s = _
  unfold start_cut_now
  rw [h]
  simp only [bind_assoc_fn]

theorem start_body_cut_done {σ : Type} (L : Lib σ) (fuel : Nat) (deps : Bool) (s : Sup σ) :
    svc_start_body L fuel deps s =
      (start_cut_done L fuel deps >>= fun _ => start_done_run L >>= fun _ =>
        start_sched L >>= fun _ => start_out L) s := by
  have h : start_done L = (start_done_set >>= fun _ => start_done_run L) :=
    funext (start_done_eq L)
  show (svc_start_pre L fuel deps >>= fun _ => (start_now L >>= fun _ => start_run L >>=
    fun _ => start_done L >>= fun _ => start_sched L >>= fun _ => start_out L)) s = _
  unfold start_cut_done
  rw [h]
  simp only [bind_assoc_fn]

theorem start_body_cut_out {σ : Type} (L : Lib σ) (fuel : Nat) (deps : Bool) (s : Sup σ) :
    svc_start_body L fuel deps s =
      (start_cut_out L fuel deps >>= fun _ => start_out_run L) s := by
  have h : start_out L = (start_out_set >>= fun _ => start_out_run L) :=
    funext (start_out_eq L)
  show (svc_start_pre L fuel deps >>= fun _ => (start_now L >>= fun _ => start_run L >>=
    fun _ => start_done L >>= fun _ => start_sched L >>= fun _ => start_out L)) s = _
  unfold start_cut_out
  rw [h]
  simp only [bind_assoc_fn]

theorem stop_now_eq {σ : Type} (L : Lib σ) (s : Sup σ) :
    stop_now L s = (stop_now_set >>= fun _ => stop_now_run L) s := by
  cases h : s.ibsave <;>
    simp [stop_now, stop_now_set, stop_now_run, bind_eq, M.bind, get, modify, emit, h,
      pure_eq, rc_plugin_run, call0]

theorem stop_done_eq {σ : Type} (L : Lib σ) (s : Sup σ) :
    stop_done L s = (stop_done_set >>= fun _ => stop_done_run L) s := by
  simp [stop_done, stop_done_set, stop_done_run, bind_eq, M.bind, get, modify, emit,
    rc_plugin_run, call0]

theorem stop_out_eq {σ : Type} (L : Lib σ) (s : Sup σ) :
    stop_out L s = (stop_out_set >>= fun _ => stop_out_run L) s := by
  simp [stop_out, stop_out_set, stop_out_run, bind_eq, M.bind, get, modify, emit,
    rc_plugin_run, call0]

theorem stop_body_cut_now {σ : Type} (L : Lib σ) (fuel : Nat) (deps : Bool) (state : Nat)
    (s : Sup σ) :
    svc_stop_body L fuel deps state s =
      (stop_cut_now L fuel deps state >>= fun _ => stop_now_run L >>= fun _ => stop_run L >>=
        fun _ => stop_done L >>= fun _ => stop_unlink L >>= fun _ => stop_out L) s := by
  have h : stop_now L = (stop_now_set >>= fun _ => stop_now_run L) :=
    funext (stop_now_eq L)
  show (svc_stop_pre L fuel deps state >>= fun _ => (stop_now L >>= fun _ => stop_run L >>=
    fun _ => stop_done L >>= fun _ => stop_unlink L >>= fun _ => stop_out L)) s = _
  unfold stop_cut_now
  rw [h]
  simp only [bind_assoc_fn]

theorem stop_body_cut_done {σ : Type} (L : Lib σ) (fuel : Nat) (deps : Bool) (state : Nat)
    (s : Sup σ) :
    svc_stop_body L fuel deps state s =
      (stop_cut_done L fuel deps state >>= fun _ => stop_done_run L >>= fun _ =>
        stop_unlink L >>= fun _ => stop_out L) s := by
  have h : stop_done L = (stop_done_set >>= fun _ => stop_done_run L) :=
    funext (stop_done_eq L)
  show (svc_stop_pre L fuel deps state >>= fun _ => (stop_now L >>= fun _ => stop_run L >>=
    fun _ => stop_done L >>= fun _ => stop_unlink L >>= fun _ => stop_out L)) s = _
  unfold stop_cut_done
  rw [h]
  simp only [bind_assoc_fn]

theorem stop_body_cut_out {σ : Type} (L : Lib σ) (fuel : Nat) (deps : Bool) (state : Nat)
    (s : Sup σ) :
    svc_stop_body L fuel deps state s =
      (stop_cut_out L fuel deps state >>= fun _ => stop_out_run L) s := by
  have h : stop_out L = (stop_out_set >>= fun _ => stop_out_run L) :=
    funext (stop_out_eq L)
  show (svc_stop_pre L fuel deps state >>= fun _ => (stop_now L >>= fun _ => stop_run L >>=
    fun _ => stop_done L >>= fun _ => stop_unlink L >>= fun _ => stop_out L)) s = _
  unfold stop_cut_out
  rw [h]
  simp only [bind_assoc_fn]

/-- C8 (amended): when `svc_start` (resp. `svc_stop`) fires its SERVICE_START_IN
(resp. SERVICE_STOP_IN) hook and ends by its own code, a return or an exit of the
action, the hooks fired by the action and by the `cleanup` that follows it are
`[IN, OUT]` or `[IN, NOW, DONE, OUT]`; and when it returns normally it has fired
`[IN, NOW, DONE, OUT]` itself and leaves no hook pending, so that `cleanup` adds
none.  An abort by SIGINT, SIGTERM or SIGQUIT adds to the hooks already fired those
pending in `hook_out`; as `hook_out` is assigned in the statement before each
`rc_plugin_run`, a signal that arrives between the two statements gives
`[IN, DONE, OUT]`, `[IN, NOW, OUT]` or `[IN, NOW, DONE]`. -/
theorem hook_order {σ : Type} (L : Lib σ) (fuel : Nat) (deps : Bool) (s : Sup σ)
    (hp : s.rc_in_plugin = false) :
    (Hook.START_IN ∈ fired s (svc_start L fuel deps s).2 →
      (fired s (cleanup L (svc_start L fuel deps s).2).2 = [Hook.START_IN, Hook.START_OUT] ∨
       fired s (cleanup L (svc_start L fuel deps s).2).2 =
         [Hook.START_IN, Hook.START_NOW, Hook.START_DONE, Hook.START_OUT]) ∧
      ((svc_start L fuel deps s).1 = Res.ok () →
        fired s (svc_start L fuel deps s).2 =
          [Hook.START_IN, Hook.START_NOW, Hook.START_DONE, Hook.START_OUT] ∧
        (svc_start L fuel deps s).2.hook_out = none)) ∧
    (Hook.STOP_IN ∈ fired s (svc_stop L fuel deps s).2 →
      (fired s (cleanup L (svc_stop L fuel deps s).2).2 = [Hook.STOP_IN, Hook.STOP_OUT] ∨
       fired s (cleanup L (svc_stop L fuel deps s).2).2 =
         [Hook.STOP_IN, Hook.STOP_NOW, Hook.STOP_DONE, Hook.STOP_OUT]) ∧
      ((svc_stop L fuel deps s).1 = Res.ok () →
        fired s (svc_stop L fuel deps s).2 =
          [Hook.STOP_IN, Hook.STOP_NOW, Hook.STOP_DONE, Hook.STOP_OUT] ∧
        (svc_stop L fuel deps s).2.hook_out = none)) ∧
    (∀ (c : SigCtx) (sig : Int) (t : Sup σ), sig = SIGINT ∨ sig = SIGTERM ∨ sig = SIGQUIT →
      t.rc_in_plugin = false →
      (handle_signal L c sig t).1 = Res.exit EXIT_FAILURE ∧
      fired t (signal_abort L c sig t) = pending t.hook_out) ∧
    (∀ (c : SigCtx) (sig : Int), sig = SIGINT ∨ sig = SIGTERM ∨ sig = SIGQUIT →
      ((start_cut_now L fuel deps s).1 = Res.ok () →
        fired s (signal_abort L c sig (start_cut_now L fuel deps s).2) =
          [Hook.START_IN, Hook.START_DONE, Hook.START_OUT]) ∧
      ((start_cut_done L fuel deps s).1 = Res.ok () →
        fired s (signal_abort L c sig (start_cut_done L fuel deps s).2) =
          [Hook.START_IN, Hook.START_NOW, Hook.START_OUT]) ∧
      ((start_cut_out L fuel deps s).1 = Res.ok () →
        fired s (signal_abort L c sig (start_cut_out L fuel deps s).2) =
          [Hook.START_IN, Hook.START_NOW, Hook.START_DONE]) ∧
      (∀ state, (stop_cut_now L fuel deps state s).1 = Res.ok () →
        fired s (signal_abort L c sig (stop_cut_now L fuel deps state s).2) =
          [Hook.STOP_IN, Hook.STOP_DONE, Hook.STOP_OUT]) ∧
      (∀ state, (stop_cut_done L fuel deps state s).1 = Res.ok () →
        fired s (signal_abort L c sig (stop_cut_done L fuel deps state s).2) =
          [Hook.STOP_IN, Hook.STOP_NOW, Hook.STOP_OUT]) ∧
      (∀ state, (stop_cut_out L fuel deps state s).1 = Res.ok () →
        fired s (signal_abort L c sig (stop_cut_out L fuel deps state s).2) =
          [Hook.STOP_IN, Hook.STOP_NOW, Hook.STOP_DONE])) ∧
    (svc_start_body L fuel deps s =
        (start_cut_now L fuel deps >>= fun _ => start_now_run L >>= fun _ => start_run L >>=
          fun _ => start_done L >>= fun _ => start_sched L >>= fun _ => start_out L) s ∧
      svc_start_body L fuel deps s =
        (start_cut_done L fuel deps >>= fun _ => start_done_run L >>= fun _ =>
          start_sched L >>= fun _ => start_out L) s ∧
      svc_start_body L fuel deps s =
        (start_cut_out L fuel deps >>= fun _ => start_out_run L) s) ∧
    (∀ state,
      svc_stop_body L fuel deps state s =
        (stop_cut_now L fuel deps state >>= fun _ => stop_now_run L >>= fun _ => stop_run L >>=
          fun _ => stop_done L >>= fun _ => stop_unlink L >>= fun _ => stop_out L) s ∧
      svc_stop_body L fuel deps state s =
        (stop_cut_done L fuel deps state >>= fun _ => stop_done_run L >>= fun _ =>
          stop_unlink L >>= fun _ => stop_out L) s ∧
      svc_stop_body L fuel deps state s =
        (stop_cut_out L fuel deps state >>= fun _ => stop_out_run L) s) := by
  refine ⟨?_, ?_, fun c sig t hsig ht => signal_abort_fired L c sig t hsig ht, ?_, ?_, ?_⟩
  · intro hfire
    rcases svc_start_cases L fuel deps s with heq | h0
    · rw [heq] at hfire ⊢
      exact body_then_cleanup L s _ hp (svc_start_body_ends L fuel deps s) hfire
    · have : fired s (svc_start L fuel deps s).2 = [] :=
        fired_of_eq (by rw [h0, List.append_nil])
      rw [this] at hfire
      cases hfire
  · intro hfire
    rcases svc_stop_cases L fuel deps s with heq | h0
    · rw [heq] at hfire ⊢
      exact body_then_cleanup L s _ hp (svc_stop_body_ends L fuel deps _ s) hfire
    · have : fired s (svc_stop L fuel deps s).2 = [] :=
        fired_of_eq (by rw [h0, List.append_nil])
      rw [this] at hfire
      cases hfire
  · intro c sig hsig
    refine ⟨fun h => ?_, fun h => ?_, fun h => ?_, fun state h => ?_, fun state h => ?_,
      fun state h => ?_⟩
    · exact cut_fired L c sig hsig (reach_start_cut_now L fuel deps) s hp h
    · exact cut_fired L c sig hsig (reach_start_cut_done L fuel deps) s hp h
    · exact cut_fired L c sig hsig (reach_start_cut_out L fuel deps) s hp h
    · exact cut_fired L c sig hsig (reach_stop_cut_now L fuel deps state) s hp h
    · exact cut_fired L c sig hsig (reach_stop_cut_done L fuel deps state) s hp h
    · exact cut_fired L c sig hsig (reach_stop_cut_out L fuel deps state) s hp h
  · exact ⟨start_body_cut_now L fuel deps s, start_body_cut_done L fuel deps s,
      start_body_cut_out L fuel deps s⟩
  · exact fun state => ⟨stop_body_cut_now L fuel deps state s,
      stop_body_cut_done L fuel deps state s, stop_body_cut_out L fuel deps state s⟩


/-- C8, counterexample: SIGTERM arriving in `svc_start` between the assignment of
`hook_out` and the `rc_plugin_run` next to it; the handler exits, `cleanup` fires the
hooks pending in `hook_out`, and the sequences are `[IN, DONE, OUT]`, `[IN, NOW, OUT]`
and `[IN, NOW, DONE]`. -/
theorem hook_order_counterexample :
    (sup0 world0).rc_in_plugin = false ∧
    (start_cut_now demoLib 0 true (sup0 world0)).1 = Res.ok () ∧
    (handle_signal demoLib ⟨0, -1, -1, false⟩ SIGTERM
      (start_cut_now demoLib 0 true (sup0 world0)).2).1 = Res.exit EXIT_FAILURE ∧
    fired (sup0 world0) (signal_abort demoLib ⟨0, -1, -1, false⟩ SIGTERM
      (start_cut_now demoLib 0 true (sup0 world0)).2) =
        [Hook.START_IN, Hook.START_DONE, Hook.START_OUT] ∧
    (start_cut_done demoLib 0 true (sup0 world0)).1 = Res.ok () ∧
    fired (sup0 world0) (signal_abort demoLib ⟨0, -1, -1, false⟩ SIGTERM
      (start_cut_done demoLib 0 true (sup0 world0)).2) =
        [Hook.START_IN, Hook.START_NOW, Hook.START_OUT] ∧
    (start_cut_out demoLib 0 true (sup0 world0)).1 = Res.ok () ∧
    fired (sup0 world0) (signal_abort demoLib ⟨0, -1, -1, false⟩ SIGTERM
      (start_cut_out demoLib 0 true (sup0 world0)).2) =
        [Hook.START_IN, Hook.START_NOW, Hook.START_DONE] := by
  refine ⟨rfl, ?_, ?_, ?_, ?_, ?_, ?_, ?_⟩ <;> decide!

theorem hook_order_witness :
    (sup0 world0).rc_in_plugin = false ∧
    Hook.START_IN ∈ fired (sup0 world0) (svc_start demoLib 0 true (sup0 world0)).2 ∧
    (fired (sup0 world0) (cleanup demoLib (svc_start demoLib 0 true (sup0 world0)).2).2 =
        [Hook.START_IN, Hook.START_OUT] ∨
     fired (sup0 world0) (cleanup demoLib (svc_start demoLib 0 true (sup0 world0)).2).2 =
        [Hook.START_IN, Hook.START_NOW, Hook.START_DONE, Hook.START_OUT]) ∧
    (svc_start demoLib 0 true (sup0 world0)).1 = Res.ok () ∧
    fired (sup0 world0) (svc_start demoLib 0 true (sup0 world0)).2 =
      [Hook.START_IN, Hook.START_NOW, Hook.START_DONE, Hook.START_OUT] ∧
    fired (sup0 world0) (signal_abort demoLib ⟨0, -1, -1, false⟩ SIGINT (sup0 world0)) =
      pending (sup0 world0).hook_out ∧
    (start_cut_now demoLib 0 true (sup0 world0)).1 = Res.ok () ∧
    fired (sup0 world0) (signal_abort demoLib ⟨0, -1, -1, false⟩ SIGQUIT
      (start_cut_now demoLib 0 true (sup0 world0)).2) =
        [Hook.START_IN, Hook.START_DONE, Hook.START_OUT] ∧
    (stop_cut_done demoLib 0 true rcBits.STARTED (sup0 wCrashed)).1 = Res.ok () ∧
    fired (sup0 wCrashed) (signal_abort demoLib ⟨0, -1, -1, false⟩ SIGTERM
      (stop_cut_done demoLib 0 true rcBits.STARTED (sup0 wCrashed)).2) =
        [Hook.STOP_IN, Hook.STOP_NOW, Hook.STOP_OUT] :=
  ⟨rfl, by decide!, ((hook_order demoLib 0 true (sup0 world0) rfl).1 (by decide!)).1,
    by decide!,
    (((hook_order demoLib 0 true (sup0 world0) rfl).1 (by decide!)).2 (by decide!)).1,
    ((hook_order demoLib 0 true (sup0 world0) rfl).2.2.1 ⟨0, -1, -1, false⟩ SIGINT
      (sup0 world0) (Or.inl rfl) rfl).2,
    by decide!,
    ((hook_order demoLib 0 true (sup0 world0) rfl).2.2.2.1 ⟨0, -1, -1, false⟩ SIGQUIT
      (Or.inr (Or.inr rfl))).1 (by decide!),
    by decide!,
    ((hook_order demoLib 0 true (sup0 wCrashed) rfl).2.2.2.1 ⟨0, -1, -1, false⟩ SIGTERM
      (Or.inr (Or.inl rfl))).2.2.2.2.1 rcBits.STARTED (by decide!)⟩

/-! ## The entry guard of svc_start -/

theorem svc_start_guard_test_rcBits (state : Nat) :
    svc_start_guard_test rcBits state = false := by
  unfold svc_start_guard_test lnot
  by_cases h : state = 0
  · subst h
    decide
  · simp only [h, if_false]
    decide

/-- C4 (the code at the failing input): with the masks of rc.h the test of the entry
guard of `svc_start` is false for every state, and for the hot-plug invocation
`supHotStarted`, whose state STARTED includes neither INACTIVE nor STOPPED,
`svc_start` does not exit: it warns and returns normally. -/
theorem svc_start_hotplug_guard_dead :
    (∀ state, svc_start_guard_test rcBits state = false) ∧
    supHotStarted.in_hotplug = true ∧
    has (demoLib.rc_service_state supHotStarted.w (svcOf supHotStarted)) rcBits.INACTIVE = false ∧
    has (demoLib.rc_service_state supHotStarted.w (svcOf supHotStarted)) rcBits.STOPPED = false ∧
    (svc_start demoLib 0 true supHotStarted).1 = Res.ok () ∧
    (svc_start demoLib 0 true supHotStarted).2.trace =
      [Ev.ewarn "WARNING: svc has already been started"] :=
  ⟨svc_start_guard_test_rcBits, by decide, by decide, by decide, by decide, by decide⟩

/-! ## svc_stop: a dependent that does not stop -/

theorem softlevel_is_down_iff (sl : Option String) :
    softlevel_is_down sl = true ↔
      sl = some "shutdown" ∨ sl = some "reboot" ∨ sl = some "single" := by
  cases sl with
  | none => simp [softlevel_is_down]
  | some l =>
    simp [softlevel_is_down, RC_LEVEL_SHUTDOWN, RC_LEVEL_REBOOT, RC_LEVEL_SINGLE, or_assoc]

theorem since_of_keeps {σ : Type} {P : Ev → Bool} {k h : Bool} {s t : Sup σ}
    (hk : Keeps P k h s t) : (since s t).all P = true := by
  obtain ⟨evs, he, hp⟩ := hk.trace
  unfold since
  rw [he, List.drop_left]
  exact hp

theorem steps_svc_stop_pre {σ : Type} (L : Lib σ) (fuel : Nat) (deps : Bool) (state : Nat) :
    Steps (Keeps noExec false false) (svc_stop_pre L fuel deps state) := by
  unfold svc_stop_pre stop_in rc_plugin_run
  repeat' first
    | exact steps_get
    | exact steps_pure _
    | exact steps_call0 _
    | (apply steps_emit; rfl)
    | exact steps_mono quiet_noExec (by simp) (by simp) (steps_stop_mark L)
    | exact steps_mono (fun e x => quiet_noExec e (plain_quiet e x)) (by simp) (by simp)
        (steps_stop_deps L _ _ _)
    | apply steps_bind
    | (apply steps_modify; intro s; constructor <;> simp)
    | intro _

/-- The body of the loop over `tmplist`, once the dependent was waited for. -/
theorem stop_check_body_eq {σ : Type} (L : Lib σ) (fuel : Nat) (s : Sup σ) (svc : String)
    (r : Bool) (h0 : has (L.rc_service_state s.w svc) L.bits.STOPPED = false)
    (hw : (svc_wait L fuel svc s).1 = Res.ok r) :
    stop_check_body L fuel svc s =
      (if !has (L.rc_service_state (svc_wait L fuel svc s).2.w svc) L.bits.STOPPED then
        if L.rc_runlevel_stopping (svc_wait L fuel svc s).2.w then
          if softlevel_is_down (svc_wait L fuel svc s).2.softlevel then pure ()
          else do
            let _ ← rc_service_mark L (svcOf (svc_wait L fuel svc s).2) L.bits.FAILED
            eerrorx ("ERROR:  cannot stop " ++ (svc_wait L fuel svc s).2.applet ++ " as " ++
              svc ++ " is still up")
        else eerrorx ("ERROR:  cannot stop " ++ (svc_wait L fuel svc s).2.applet ++ " as " ++
          svc ++ " is still up")
      else pure ()) (svc_wait L fuel svc s).2 := by
  rcases hsw : svc_wait L fuel svc s with ⟨r1, s1⟩
  rw [hsw] at hw
  simp only at hw
  subst hw
  simp [stop_check_body, bind_eq, M.bind, get, h0, hsw]

/-! ## The dependents of svc_stop -/

theorem exec_not_mem {evs : List Ev} (h : evs.all noExec = true) (a : String)
    (b : Option String) : Ev.exec a b ∉ evs := by
  intro hm
  have := List.all_eq_true.1 h _ hm
  simp [noExec, Ev.isExec] at this

theorem svc_stop_split {σ : Type} (L : Lib σ) (fuel : Nat) (deps : Bool) (s : Sup σ) :
    svc_stop L fuel deps s =
      svc_stop_body L fuel deps (L.rc_service_state s.w (svcOf s)) s ∨
    (since s (svc_stop L fuel deps s).2).all noExec = true := by
  unfold svc_stop
  simp only [get_bind]
  split
  · right; simp [since, exit]
  · split
    · right; simp [since, exit]
    · split
      · right
        simp [ewarn, emit, since, noExec, Ev.isExec, Ev.isEnter]
      · split
        · right
          simp [ewarnx, since, noExec, Ev.isExec, Ev.isEnter]
        · left; rfl

/-- A round of the loop over `tmplist` that returns saw the dependent STOPPED, or
the runlevel stopping with the soft-level down. -/
theorem check_round {σ : Type} (L : Lib σ) (fuel : Nat) (svc : String) (s : Sup σ)
    (hok : (stop_check_body L fuel svc s).1 = Res.ok ()) :
    (has (L.rc_service_state s.w svc) L.bits.STOPPED ||
      has (L.rc_service_state (svc_wait L fuel svc s).2.w svc) L.bits.STOPPED ||
      (L.rc_runlevel_stopping (svc_wait L fuel svc s).2.w &&
        softlevel_is_down (svc_wait L fuel svc s).2.softlevel)) = true := by
  by_cases h0 : has (L.rc_service_state s.w svc) L.bits.STOPPED = true
  · simp [h0]
  have h0f : has (L.rc_service_state s.w svc) L.bits.STOPPED = false := by simpa using h0
  rcases hr : svc_wait L fuel svc s with ⟨r, t⟩
  cases r with
  | exit c =>
    simp [stop_check_body, bind_eq, M.bind, get, h0f, hr] at hok
  | hang =>
    simp [stop_check_body, bind_eq, M.bind, get, h0f, hr] at hok
  | ok b =>
    have hw : (svc_wait L fuel svc s).1 = Res.ok b := by rw [hr]
    rw [stop_check_body_eq L fuel s svc b h0f hw, hr] at hok
    simp only [h0f, Bool.false_or]
    by_cases h1 : has (L.rc_service_state t.w svc) L.bits.STOPPED = true
    · simp [h1]
    have h1f : has (L.rc_service_state t.w svc) L.bits.STOPPED = false := by simpa using h1
    by_cases h2 : L.rc_runlevel_stopping t.w = true
    · by_cases h3 : softlevel_is_down t.softlevel = true
      · simp [h2, h3]
      · simp [h1f, h2, h3, bind_eq, M.bind, rc_service_mark, emit, call, eerrorx] at hok
    · simp [h1f, h2, eerrorx] at hok

/-- The loop of `svc_stop` over `tmplist`: if it returns, every dependent passed. -/
theorem check_loop {σ : Type} (L : Lib σ) (fuel : Nat) :
    ∀ (xs : List String) (s : Sup σ),
      (forEach (stop_check_body L fuel) xs s).1 = Res.ok () →
      dependents_stopped L fuel xs s = true := by
  intro xs
  induction xs with
  | nil => intro s _; rfl
  | cons x xs ih =>
    intro s hok
    have hrun : forEach (stop_check_body L fuel) (x :: xs) s =
        (stop_check_body L fuel x >>= fun _ => forEach (stop_check_body L fuel) xs) s := rfl
    rw [hrun] at hok
    obtain ⟨_, h1, h2, _⟩ := ok_bind hok
    simp only [dependents_stopped, Bool.and_eq_true]
    exact ⟨check_round L fuel x s h1, ih _ h2⟩

/-- If `svc_stop` with dependencies makes its exec, its loop over `tmplist` was run
from the state `stop_at_check` and returned. -/
theorem stop_exec_checked {σ : Type} (L : Lib σ) (fuel : Nat) (s : Sup σ)
    (hexec : Ev.exec "stop" none ∈ since s (svc_stop L fuel true s).2)
    (hwas : has (L.rc_service_state s.w (svcOf s)) L.bits.WASINACTIVE = false) :
    (forEach (stop_check_body L fuel) (stop_at_check L fuel s).tmplist
      (stop_at_check L fuel s)).1 = Res.ok () := by
  rcases svc_stop_split L fuel true s with heq | hplain
  swap
  · exact absurd hexec (exec_not_mem hplain _ _)
  rw [heq] at hexec
  by_cases hpre : (svc_stop_pre L fuel true (L.rc_service_state s.w (svcOf s)) s).1 = Res.ok ()
  swap
  · rcases bind_cases (svc_stop_pre L fuel true (L.rc_service_state s.w (svcOf s)))
      (fun _ => svc_stop_exec L) s with ⟨a, hok, _⟩ | ⟨_, hst, _, _⟩
    · exact absurd hok hpre
    · have hrun : svc_stop_body L fuel true (L.rc_service_state s.w (svcOf s)) s =
          (svc_stop_pre L fuel true (L.rc_service_state s.w (svcOf s)) >>= fun _ =>
            svc_stop_exec L) s := rfl
      rw [hrun, hst] at hexec
      exact absurd hexec (exec_not_mem (since_of_keeps ((steps_svc_stop_pre L fuel true _).run s)) _ _)
  have hpre1 : ((stop_mark L >>= fun _ => stop_in L >>= fun _ =>
      stop_deps L fuel true (L.rc_service_state s.w (svcOf s))) s).1 = Res.ok () := hpre
  obtain ⟨_, _, h1, _⟩ := ok_bind hpre1
  obtain ⟨_, _, h2, _⟩ := ok_bind h1
  have h2a : (((if !L.rc_runlevel_stopping (stop_in L (stop_mark L s).2).2.w &&
        L.rc_service_in_runlevel (stop_in L (stop_mark L s).2).2.w
          (svcOf (stop_in L (stop_mark L s).2).2) RC_LEVEL_BOOT then
      ewarn "WARNING: you are stopping a boot service"
    else (pure () : M σ Unit)) >>= fun _ =>
      (if true && !has (L.rc_service_state s.w (svcOf s)) L.bits.WASINACTIVE then
        svc_stop_deps L fuel else pure ())) (stop_in L (stop_mark L s).2).2).1 = Res.ok () := h2
  obtain ⟨_, _, h3, _⟩ := ok_bind h2a
  simp only [hwas, Bool.not_false, Bool.and_self, if_true] at h3
  generalize hs3 : ((if !L.rc_runlevel_stopping (stop_in L (stop_mark L s).2).2.w &&
        L.rc_service_in_runlevel (stop_in L (stop_mark L s).2).2.w
          (svcOf (stop_in L (stop_mark L s).2).2) RC_LEVEL_BOOT then
      ewarn "WARNING: you are stopping a boot service"
    else (pure () : M σ Unit)) (stop_in L (stop_mark L s).2).2).2 = s3 at h3
  have h3a : ((load_deptree L >>= fun _ => stop_deps_stopall L fuel
      ((L.RC_DEP_TRACE ||| (if L.rc_conf_yesno "rc_depend_strict" then L.RC_DEP_STRICT else 0)) |||
        (if L.rc_runlevel_stopping s3.w then L.RC_DEP_STOP else 0)) >>= fun _ =>
      stop_deps_check L fuel >>= fun _ => stop_deps_users L fuel
        ((L.RC_DEP_TRACE ||| (if L.rc_conf_yesno "rc_depend_strict" then L.RC_DEP_STRICT else 0)) |||
          (if L.rc_runlevel_stopping s3.w then L.RC_DEP_STOP else 0))) s3).1 = Res.ok () := h3
  obtain ⟨_, _, h4, _⟩ := ok_bind h3a
  obtain ⟨_, _, h5, _⟩ := ok_bind h4
  obtain ⟨_, h6, _, _⟩ := ok_bind h5
  have h6a : ((forEach (stop_check_body L fuel)
      (stop_deps_stopall L fuel
        ((L.RC_DEP_TRACE ||| (if L.rc_conf_yesno "rc_depend_strict" then L.RC_DEP_STRICT else 0)) |||
          (if L.rc_runlevel_stopping s3.w then L.RC_DEP_STOP else 0))
        (load_deptree L s3).2).2.tmplist >>= fun _ =>
      modify (fun s => { s with tmplist := [] }))
      (stop_deps_stopall L fuel
        ((L.RC_DEP_TRACE ||| (if L.rc_conf_yesno "rc_depend_strict" then L.RC_DEP_STRICT else 0)) |||
          (if L.rc_runlevel_stopping s3.w then L.RC_DEP_STOP else 0))
        (load_deptree L s3).2).2).1 = Res.ok () := h6
  obtain ⟨_, h9, _, _⟩ := ok_bind h6a
  subst hs3
  exact h9

/-- C5: in the loop of `svc_stop` over the dependents that were told to stop, for a
dependent `svc` that is not STOPPED before and after `svc_wait` while the runlevel
is stopping: if the soft-level is shutdown, reboot or single the loop goes on with
the next dependent from the state the wait left (no mark, no message); otherwise
the service is marked FAILED and the loop exits with EXIT_FAILURE after the error
"cannot stop ... as ... is still up".  Whenever the part of `svc_stop` that
contains this loop does not return, `svc_stop` ends there without an exec.  The
loop is the one of `stop_deps_check`, which ends as the loop does when the loop
does not return; a loop that returns let every dependent pass; and if `svc_stop`
with dependencies (for a state without WASINACTIVE) makes its exec("stop"), then
every dependent of `tmplist` passed the loop run from the state `stop_at_check`: it
was seen STOPPED, or the runlevel was stopping with the soft-level shutdown, reboot
or single. -/
theorem stop_dependent_still_up {σ : Type} (L : Lib σ) (fuel : Nat) (s : Sup σ)
    (svc : String) (rest : List String) (r : Bool)
    (h0 : has (L.rc_service_state s.w svc) L.bits.STOPPED = false)
    (hw : (svc_wait L fuel svc s).1 = Res.ok r)
    (h1 : has (L.rc_service_state (svc_wait L fuel svc s).2.w svc) L.bits.STOPPED = false)
    (hrl : L.rc_runlevel_stopping (svc_wait L fuel svc s).2.w = true) :
    (((svc_wait L fuel svc s).2.softlevel = some "shutdown" ∨
        (svc_wait L fuel svc s).2.softlevel = some "reboot" ∨
        (svc_wait L fuel svc s).2.softlevel = some "single") →
      forEach (stop_check_body L fuel) (svc :: rest) s =
        forEach (stop_check_body L fuel) rest (svc_wait L fuel svc s).2) ∧
    (¬ ((svc_wait L fuel svc s).2.softlevel = some "shutdown" ∨
        (svc_wait L fuel svc s).2.softlevel = some "reboot" ∨
        (svc_wait L fuel svc s).2.softlevel = some "single") →
      forEach (stop_check_body L fuel) (svc :: rest) s =
        (Res.exit EXIT_FAILURE,
          { (svc_wait L fuel svc s).2 with
            w := (L.rc_service_mark (svc_wait L fuel svc s).2.w
              (svcOf (svc_wait L fuel svc s).2) L.bits.FAILED).2,
            trace := (svc_wait L fuel svc s).2.trace ++
              [Ev.mark (svcOf (svc_wait L fuel svc s).2) L.bits.FAILED,
               Ev.eerror ("ERROR:  cannot stop " ++ (svc_wait L fuel svc s).2.applet ++
                 " as " ++ svc ++ " is still up")] })) ∧
    (∀ (deps : Bool) (state : Nat) (s0 : Sup σ),
      (svc_stop_pre L fuel deps state s0).1 ≠ Res.ok () →
        (svc_stop_body L fuel deps state s0).1 ≠ Res.ok () ∧
        (svc_stop_body L fuel deps state s0).2 = (svc_stop_pre L fuel deps state s0).2 ∧
        (since s0 (svc_stop_body L fuel deps state s0).2).all noExec = true) ∧
    (∀ t : Sup σ, (forEach (stop_check_body L fuel) t.tmplist t).1 ≠ Res.ok () →
      stop_deps_check L fuel t = forEach (stop_check_body L fuel) t.tmplist t) ∧
    (∀ (xs : List String) (t : Sup σ), (forEach (stop_check_body L fuel) xs t).1 = Res.ok () →
      dependents_stopped L fuel xs t = true) ∧
    (∀ s0 : Sup σ, Ev.exec "stop" none ∈ since s0 (svc_stop L fuel true s0).2 →
      has (L.rc_service_state s0.w (svcOf s0)) L.bits.WASINACTIVE = false →
      dependents_stopped L fuel (stop_at_check L fuel s0).tmplist (stop_at_check L fuel s0) =
        true) := by
  have hbody := stop_check_body_eq L fuel s svc r h0 hw
  refine ⟨?_, ?_, ?_, ?_, check_loop L fuel, ?_⟩
  · intro hdown
    have hd := (softlevel_is_down_iff _).2 hdown
    show M.bind (stop_check_body L fuel svc) (fun _ => forEach (stop_check_body L fuel) rest) s = _
    unfold M.bind
    rw [hbody]
    simp [h1, hrl, hd, pure_eq]
  · intro hdown
    have hd : softlevel_is_down (svc_wait L fuel svc s).2.softlevel = false := by
      rw [Bool.eq_false_iff]
      exact fun h => hdown ((softlevel_is_down_iff _).1 h)
    show M.bind (stop_check_body L fuel svc) (fun _ => forEach (stop_check_body L fuel) rest) s = _
    unfold M.bind
    rw [hbody]
    simp [h1, hrl, hd, bind_eq, M.bind, rc_service_mark, emit, call, eerrorx]
  · intro deps state s0 hne
    rcases bind_cases (svc_stop_pre L fuel deps state) (fun _ => svc_stop_exec L) s0 with
      ⟨a, hok, _⟩ | ⟨_, hst, hnok, _⟩
    · exact absurd hok hne
    · refine ⟨hnok (), hst, ?_⟩
      show (since s0 ((svc_stop_pre L fuel deps state >>= fun _ => svc_stop_exec L) s0).2).all
        noExec = true
      rw [hst]
      exact since_of_keeps ((steps_svc_stop_pre L fuel deps state).run s0)
  · intro t hne
    have hrun : stop_deps_check L fuel t =
        (forEach (stop_check_body L fuel) t.tmplist >>= fun _ =>
          modify (fun s => { s with tmplist := [] })) t := rfl
    rcases bind_cases (forEach (stop_check_body L fuel) t.tmplist)
      (fun _ => modify (fun s => { s with tmplist := [] })) t with
      ⟨a, hok, _⟩ | ⟨_, hst, _, hh, hex⟩
    · exact absurd hok hne
    · rw [hrun]
      refine Prod.ext ?_ hst
      rcases hr : (forEach (stop_check_body L fuel) t.tmplist t).1 with a | c | _
      · exact absurd hr hne
      · exact (hex c).1 hr
      · exact hh.1 hr
  · intro s0 hexec hwas
    exact check_loop L fuel _ _ (stop_exec_checked L fuel s0 hexec hwas)

theorem stop_dependent_still_up_witness :
    forEach (stop_check_body demoLib 1) ["app"] (supStubborn "reboot") =
      forEach (stop_check_body demoLib 1) [] (svc_wait demoLib 1 "app" (supStubborn "reboot")).2 ∧
    (forEach (stop_check_body demoLib 1) ["app"] (supStubborn "reboot")).1 = Res.ok () ∧
    (forEach (stop_check_body demoLib 1) ["app"] (supStubborn "default")).1 =
      Res.exit EXIT_FAILURE ∧
    (forEach (stop_check_body demoLib 1) ["app"] (supStubborn "default")).2.trace =
      [Ev.poll "/lib/rc/init.d/exclusive/app", Ev.mark "/etc/init.d/svc" rcBits.FAILED,
        Ev.eerror "ERROR:  cannot stop svc as app is still up"] ∧
    Ev.exec "stop" none ∈
      since (supStubborn0 "reboot") (svc_stop demoLib 5 true (supStubborn0 "reboot")).2 ∧
    (stop_at_check demoLib 5 (supStubborn0 "reboot")).tmplist = ["app"] ∧
    dependents_stopped demoLib 5 (stop_at_check demoLib 5 (supStubborn0 "reboot")).tmplist
      (stop_at_check demoLib 5 (supStubborn0 "reboot")) = true ∧
    (svc_stop demoLib 5 true (supStubborn0 "default")).1 = Res.exit EXIT_FAILURE ∧
    Ev.mark "/etc/init.d/svc" rcBits.FAILED ∈
      (svc_stop demoLib 5 true (supStubborn0 "default")).2.trace ∧
    Ev.exec "stop" none ∉ (svc_stop demoLib 5 true (supStubborn0 "default")).2.trace :=
  ⟨(stop_dependent_still_up demoLib 1 (supStubborn "reboot") "app" [] true (by decide)
      (by decide) (by decide) (by decide)).1 (by decide),
    by decide,
    by
      rw [((stop_dependent_still_up demoLib 1 (supStubborn "default") "app" [] true (by decide)
        (by decide) (by decide) (by decide)).2.1 (by decide))],
    by
      rw [((stop_dependent_still_up demoLib 1 (supStubborn "default") "app" [] true (by decide)
        (by decide) (by decide) (by decide)).2.1 (by decide))]
      decide,
    by decide!,
    by decide!,
    (stop_dependent_still_up demoLib 5 (supStubborn "reboot") "app" [] true (by decide)
      (by decide) (by decide) (by decide)).2.2.2.2.2 (supStubborn0 "reboot") (by decide!)
      (by decide),
    by decide!, by decide!, by decide!⟩

/-! ## restore_state -/

/-- C6 (as stated, refuted): with the supervisor in control, (1) a service that is
STARTING with WASINACTIVE set is marked INACTIVE by `restore_state`, not STOPPED;
(2) a STOPPING service is not marked FAILED while a runlevel is starting. -/
theorem restore_state_counterexample :
    in_control demoLib (supRestore (rcBits.STARTING ||| rcBits.WASINACTIVE) false) = true ∧
    (restore_state demoLib (supRestore (rcBits.STARTING ||| rcBits.WASINACTIVE) false)).2.trace =
      [Ev.mark "svc" rcBits.INACTIVE] ∧
    has (demoLib.rc_service_state
      (restore_state demoLib (supRestore (rcBits.STARTING ||| rcBits.WASINACTIVE) false)).2.w
      "svc") rcBits.STOPPED = false ∧
    in_control demoLib (supRestore rcBits.STOPPING true) = true ∧
    demoLib.rc_runlevel_starting (supRestore rcBits.STOPPING true).w = true ∧
    (restore_state demoLib (supRestore rcBits.STOPPING true)).2.trace =
      [Ev.mark "svc" rcBits.STARTED] := by
  decide

theorem restore_marks_run {σ : Type} (L : Lib σ) (applet : String) (state other : Nat)
    (tr : σ → Bool) (s : Sup σ) :
    restore_marks L applet state other tr s =
      (Res.ok (),
        if tr (L.rc_service_mark s.w applet
            (if has state L.bits.WASINACTIVE then L.bits.INACTIVE else other)).2 then
          { s with
            w := (L.rc_service_mark (L.rc_service_mark s.w applet
              (if has state L.bits.WASINACTIVE then L.bits.INACTIVE else other)).2
              applet L.bits.FAILED).2,
            trace := s.trace ++ [Ev.mark applet
              (if has state L.bits.WASINACTIVE then L.bits.INACTIVE else other),
              Ev.mark applet L.bits.FAILED] }
        else
          { s with
            w := (L.rc_service_mark s.w applet
              (if has state L.bits.WASINACTIVE then L.bits.INACTIVE else other)).2,
            trace := s.trace ++ [Ev.mark applet
              (if has state L.bits.WASINACTIVE then L.bits.INACTIVE else other)] }) := by
  by_cases h3 : has state L.bits.WASINACTIVE = true
  · by_cases ht : tr (L.rc_service_mark s.w applet L.bits.INACTIVE).2 = true
    · simp [restore_marks, bind_eq, M.bind, get, pure_eq, h3, ht, rc_service_mark, emit, call]
    · simp [restore_marks, bind_eq, M.bind, get, pure_eq, h3, ht, rc_service_mark, emit, call]
  · by_cases ht : tr (L.rc_service_mark s.w applet other).2 = true
    · simp [restore_marks, bind_eq, M.bind, get, pure_eq, h3, ht, rc_service_mark, emit, call]
    · simp [restore_marks, bind_eq, M.bind, get, pure_eq, h3, ht, rc_service_mark, emit, call]

/-- What `restore_state` does when it runs in control and outside a plugin. -/
theorem restore_state_run {σ : Type} (L : Lib σ) (s : Sup σ)
    (hp : s.rc_in_plugin = false) (hc : in_control L s = true) :
    (restore_state L s).1 = Res.ok () ∧
    (restore_state L s).2.trace = s.trace ++
      (if has (L.rc_service_state s.w s.applet) L.bits.STOPPING then
        Ev.mark s.applet (if has (L.rc_service_state s.w s.applet) L.bits.WASINACTIVE
            then L.bits.INACTIVE else L.bits.STARTED) ::
          (if L.rc_runlevel_stopping (L.rc_service_mark s.w s.applet
              (if has (L.rc_service_state s.w s.applet) L.bits.WASINACTIVE
                then L.bits.INACTIVE else L.bits.STARTED)).2
            then [Ev.mark s.applet L.bits.FAILED] else [])
      else if has (L.rc_service_state s.w s.applet) L.bits.STARTING then
        Ev.mark s.applet (if has (L.rc_service_state s.w s.applet) L.bits.WASINACTIVE
            then L.bits.INACTIVE else L.bits.STOPPED) ::
          (if L.rc_runlevel_starting (L.rc_service_mark s.w s.applet
              (if has (L.rc_service_state s.w s.applet) L.bits.WASINACTIVE
                then L.bits.INACTIVE else L.bits.STOPPED)).2
            then [Ev.mark s.applet L.bits.FAILED] else [])
      else []) ++
      (match s.exclusive with
        | some e => [Ev.unlink (some e)]
        | none => []) := by
  refine ⟨?_, ?_⟩
  · by_cases h1 : has (L.rc_service_state s.w s.applet) L.bits.STOPPING = true <;>
    by_cases h2 : has (L.rc_service_state s.w s.applet) L.bits.STARTING = true <;>
    cases he : s.exclusive <;>
    simp [restore_state, restore_marks_run, bind_eq, M.bind, get, modify, pure_eq, hp, hc,
      h1, h2, he, unlink, emit, call] <;>
    split_ifs <;> simp [he, M.bind, emit, call]
  · by_cases h1 : has (L.rc_service_state s.w s.applet) L.bits.STOPPING = true <;>
    by_cases h2 : has (L.rc_service_state s.w s.applet) L.bits.STARTING = true <;>
    cases he : s.exclusive <;>
    simp [restore_state, restore_marks_run, bind_eq, M.bind, get, modify, pure_eq, hp, hc,
      h1, h2, he, unlink, emit, call] <;>
    split_ifs <;> simp [he, M.bind, emit, call]

theorem lookup_assocSet {β : Type} (k : String) (v : β) (l : List (String × β)) :
    (assocSet k v l).lookup k = some v := by
  induction l with
  | nil => simp [assocSet, List.lookup]
  | cons x l ih =>
    obtain ⟨k1, v1⟩ := x
    by_cases h : (k1 == k) = true
    · simp [assocSet, h, List.lookup]
    · have h2 : (k == k1) = false := by
        simp only [Bool.not_eq_true, beq_eq_false_iff_ne, ne_eq] at h ⊢
        exact fun x => h x.symm
      simp [assocSet, h, List.lookup, h2, ih]

/-- In `demoLib` a mark of INACTIVE, STARTED or STOPPED leaves the service in that
state alone. -/
theorem demo_mark_principal (w : World) (svc : String) (p : Nat)
    (hp : p = rcBits.INACTIVE ∨ p = rcBits.STARTED ∨ p = rcBits.STOPPED) :
    demoLib.rc_service_state (demoLib.rc_service_mark w svc p).2 svc = p := by
  have h1 : (p == rcBits.FAILED || p == rcBits.COLDPLUGGED) = false := by
    rcases hp with rfl | rfl | rfl <;> decide
  show ((World.mark w svc p).states.lookup (basename_c svc)).getD rcBits.STOPPED = p
  simp [World.mark, h1, lookup_assocSet]

/-- In `demoLib` a mark of FAILED adds the flag to the state. -/
theorem demo_mark_failed (w : World) (svc : String) :
    demoLib.rc_service_state (demoLib.rc_service_mark w svc rcBits.FAILED).2 svc =
      demoLib.rc_service_state w svc ||| rcBits.FAILED := by
  show ((World.mark w svc rcBits.FAILED).states.lookup (basename_c svc)).getD rcBits.STOPPED = _
  have h1 : (rcBits.FAILED == rcBits.FAILED || rcBits.FAILED == rcBits.COLDPLUGGED) = true := by
    decide
  simp only [World.mark, h1, if_true, lookup_assocSet, Option.getD_some]
  rfl

theorem has_or_failed (x m : Nat) (hm : rcBits.FAILED &&& m = 0) :
    has (x ||| rcBits.FAILED) m = has x m := by
  unfold has
  rw [Nat.and_distrib_right, hm, Nat.or_zero]

/-- C6 (amended): when `restore_state` runs in control and outside a plugin, it
returns after these marks of the applet: for a state that includes STOPPING,
INACTIVE if WASINACTIVE is set and STARTED otherwise, then FAILED if a runlevel is
stopping; for a state that includes STARTING and not STOPPING, INACTIVE if
WASINACTIVE is set and STOPPED otherwise, then FAILED if a runlevel is starting;
for any other state, none.  After them it unlinks the exclusive marker if the path
is set.  If a mark of INACTIVE, STARTED or STOPPED leaves the service in neither
STARTING nor STOPPING, and the mark of FAILED and the unlink do not change whether
the state includes STARTING or STOPPING, the service is left in neither STARTING
nor STOPPING. -/
theorem restore_state_marks {σ : Type} (L : Lib σ) (s : Sup σ)
    (hp : s.rc_in_plugin = false) (hc : in_control L s = true) :
    (restore_state L s).1 = Res.ok () ∧
    (restore_state L s).2.trace = s.trace ++
      (if has (L.rc_service_state s.w s.applet) L.bits.STOPPING then
        Ev.mark s.applet (if has (L.rc_service_state s.w s.applet) L.bits.WASINACTIVE
            then L.bits.INACTIVE else L.bits.STARTED) ::
          (if L.rc_runlevel_stopping (L.rc_service_mark s.w s.applet
              (if has (L.rc_service_state s.w s.applet) L.bits.WASINACTIVE
                then L.bits.INACTIVE else L.bits.STARTED)).2
            then [Ev.mark s.applet L.bits.FAILED] else [])
      else if has (L.rc_service_state s.w s.applet) L.bits.STARTING then
        Ev.mark s.applet (if has (L.rc_service_state s.w s.applet) L.bits.WASINACTIVE
            then L.bits.INACTIVE else L.bits.STOPPED) ::
          (if L.rc_runlevel_starting (L.rc_service_mark s.w s.applet
              (if has (L.rc_service_state s.w s.applet) L.bits.WASINACTIVE
                then L.bits.INACTIVE else L.bits.STOPPED)).2
            then [Ev.mark s.applet L.bits.FAILED] else [])
      else []) ++
      (match s.exclusive with
        | some e => [Ev.unlink (some e)]
        | none => []) ∧
    ((∀ w p, (p = L.bits.INACTIVE ∨ p = L.bits.STARTED ∨ p = L.bits.STOPPED) →
        has (L.rc_service_state (L.rc_service_mark w s.applet p).2 s.applet)
          L.bits.STARTING = false ∧
        has (L.rc_service_state (L.rc_service_mark w s.applet p).2 s.applet)
          L.bits.STOPPING = false) →
      (∀ w,
        has (L.rc_service_state (L.rc_service_mark w s.applet L.bits.FAILED).2 s.applet)
          L.bits.STARTING = has (L.rc_service_state w s.applet) L.bits.STARTING ∧
        has (L.rc_service_state (L.rc_service_mark w s.applet L.bits.FAILED).2 s.applet)
          L.bits.STOPPING = has (L.rc_service_state w s.applet) L.bits.STOPPING) →
      (∀ w p,
        has (L.rc_service_state (L.unlink w p).2 s.applet) L.bits.STARTING =
          has (L.rc_service_state w s.applet) L.bits.STARTING ∧
        has (L.rc_service_state (L.unlink w p).2 s.applet) L.bits.STOPPING =
          has (L.rc_service_state w s.applet) L.bits.STOPPING) →
      has (L.rc_service_state (restore_state L s).2.w s.applet) L.bits.STARTING = false ∧
      has (L.rc_service_state (restore_state L s).2.w s.applet) L.bits.STOPPING = false) := by
  refine ⟨(restore_state_run L s hp hc).1, (restore_state_run L s hp hc).2, ?_⟩
  · intro hm hf hu
    have hf1 := fun w => (hf w).1
    have hf2 := fun w => (hf w).2
    have hu1 := fun w p => (hu w p).1
    have hu2 := fun w p => (hu w p).2
    by_cases h1 : has (L.rc_service_state s.w s.applet) L.bits.STOPPING = true <;>
    by_cases h2 : has (L.rc_service_state s.w s.applet) L.bits.STARTING = true <;>
    cases he : s.exclusive <;>
    simp [restore_state, restore_marks_run, bind_eq, M.bind, get, modify, pure_eq, hp, hc,
      h1, h2, he, unlink, emit, call] <;>
    (try split_ifs) <;> simp [he, M.bind, emit, call, hu1, hu2, hf1, hf2, hm, h1, h2]

theorem restore_state_marks_witness :
    (supRestore rcBits.STARTING true).rc_in_plugin = false ∧
    in_control demoLib (supRestore rcBits.STARTING true) = true ∧
    (restore_state demoLib (supRestore rcBits.STARTING true)).2.trace =
      [Ev.mark "svc" rcBits.STOPPED, Ev.mark "svc" rcBits.FAILED] ∧
    demoLib.rc_service_state (restore_state demoLib (supRestore rcBits.STARTING true)).2.w "svc" =
      rcBits.STOPPED ||| rcBits.FAILED ∧
    has (demoLib.rc_service_state
      (restore_state demoLib (supRestore rcBits.STARTING true)).2.w "svc") rcBits.STARTING = false ∧
    has (demoLib.rc_service_state
      (restore_state demoLib (supRestore rcBits.STARTING true)).2.w "svc") rcBits.STOPPING = false :=
  ⟨rfl, by decide, by decide, by decide,
    (restore_state_marks demoLib (supRestore rcBits.STARTING true) rfl (by decide)).2.2
      (fun w p hp => by
        rw [demo_mark_principal w _ p hp]
        rcases hp with rfl | rfl | rfl <;> decide)
      (fun w => by
        have h := demo_mark_failed w "svc"
        show has (demoLib.rc_service_state (demoLib.rc_service_mark w "svc" rcBits.FAILED).2
            "svc") rcBits.STARTING = has (demoLib.rc_service_state w "svc") rcBits.STARTING ∧
          has (demoLib.rc_service_state (demoLib.rc_service_mark w "svc" rcBits.FAILED).2
            "svc") rcBits.STOPPING = has (demoLib.rc_service_state w "svc") rcBits.STOPPING
        rw [h]
        exact ⟨has_or_failed _ _ (by decide), has_or_failed _ _ (by decide)⟩)
      (fun w p => by
        cases p <;> exact ⟨rfl, rfl⟩)⟩

/-! ## cleanup and the exclusive marker -/

theorem restore_state_skip {σ : Type} (L : Lib σ) (s : Sup σ)
    (h : s.rc_in_plugin = true ∨ in_control L s = false) :
    restore_state L s = (Res.ok (), s) := by
  rcases h with h | h <;> simp [restore_state, bind_eq, M.bind, get, pure_eq, h]

theorem cleanup_eq {σ : Type} (L : Lib σ) :
    cleanup L = (restore_state L >>= fun _ => cleanup_mid L >>= fun _ => cleanup_probe L) := by
  funext s
  simp only [cleanup, cleanup_mid, bind_eq, M.bind, get]

theorem steps_cleanup_mid {σ : Type} (L : Lib σ) :
    Steps (Keeps (lockOnly L) true true) (cleanup_mid L) := by
  have hq : ∀ e, noUnlink e = true → lockOnly L e = true := by
    intro e he
    simp only [noUnlink, Bool.and_eq_true, Bool.not_eq_true'] at he
    simp [lockOnly, he.1]
  unfold cleanup_mid cleanup_lock unlink
  repeat' first
    | exact steps_get
    | exact steps_pure _
    | exact steps_call _
    | (apply steps_emit; simp [lockOnly])
    | exact steps_mono hq (by simp) (by simp) (steps_cleanup_hooks L)
    | exact steps_mono (fun e x => hq e (plain_noUnlink e x)) (by simp) (by simp)
        (steps_cleanup_restart L)
    | apply steps_bind
    | apply steps_ite
    | intro _

theorem returns_cleanup_mid {σ : Type} (L : Lib σ) : Returns (cleanup_mid L) := by
  unfold cleanup_mid
  repeat' first
    | exact returns_get
    | exact returns_pure _
    | exact returns_cleanup_hooks L
    | exact returns_cleanup_lock L
    | exact returns_cleanup_restart L
    | apply returns_bind
    | apply returns_ite
    | intro _

theorem cleanup_probe_trace {σ : Type} (L : Lib σ) (t : Sup σ) :
    (cleanup_probe L t).2.trace = t.trace ∨
    (cleanup_probe L t).2.trace = t.trace ++ [Ev.unlink t.mtime_test] := by
  cases hm : t.mtime_test with
  | none => left; simp [cleanup_probe, bind_eq, M.bind, get, hm, pure_eq]
  | some p =>
    by_cases hp : t.rc_in_plugin = true
    · left; simp [cleanup_probe, bind_eq, M.bind, get, hm, pure_eq, hp]
    · right
      simp [cleanup_probe, bind_eq, M.bind, get, hm, pure_eq, hp, unlink, emit, call]

theorem mem_since_of_mem {σ : Type} {s t : Sup σ} {e : Ev} (evs : List Ev)
    (ht : t.trace = s.trace ++ evs) (he : e ∈ evs) : e ∈ since s t := by
  unfold since
  rw [ht, List.drop_left]
  exact he

/-- C7 (as stated, refuted): in `supHup` the exclusive marker was made by
`make_exclusive` and a SIGHUP was seen, so `in_control` is false; `cleanup` then
unlinks the probe only, and the marker is still there afterwards. -/
theorem cleanup_exclusive_counterexample :
    supHup.exclusive = some "/lib/rc/init.d/exclusive/svc" ∧
    demoLib.fexists supHup.w "/lib/rc/init.d/exclusive/svc" = true ∧
    in_control demoLib supHup = false ∧
    (cleanup demoLib supHup).1 = Res.ok () ∧
    since supHup (cleanup demoLib supHup).2 =
      [Ev.unlink (some "/lib/rc/init.d/exclusive/svc.42")] ∧
    demoLib.fexists (cleanup demoLib supHup).2.w "/lib/rc/init.d/exclusive/svc" = true := by
  decide

/-- C7 (amended): with the exclusive marker path `e` set, `cleanup` unlinks the
marker when it runs outside a plugin with `in_control ()` true; when it runs
inside a plugin or `in_control ()` is false (after a SIGHUP, or with the probe
removed), `restore_state` does nothing and the only unlinks of `cleanup` are those
of the prefix lock and of the probe `mtime_test`. -/
theorem cleanup_exclusive {σ : Type} (L : Lib σ) (s : Sup σ) (e : String)
    (he : s.exclusive = some e) :
    (s.rc_in_plugin = false → in_control L s = true →
      Ev.unlink (some e) ∈ since s (cleanup L s).2) ∧
    ((s.rc_in_plugin = true ∨ in_control L s = false) →
      restore_state L s = (Res.ok (), s) ∧
      ∀ ev ∈ since s (cleanup L s).2, ev.isUnlink = true →
        ev = Ev.unlink (some (PREFIX_LOCK L)) ∨ ev = Ev.unlink s.mtime_test) := by
  constructor
  · intro hp hc
    obtain ⟨hok, htr⟩ := restore_state_run L s hp hc
    rw [he] at htr
    obtain ⟨mk, hmk⟩ : ∃ mk, (restore_state L s).2.trace = s.trace ++ mk ++
        [Ev.unlink (some e)] := ⟨_, htr⟩
    rw [cleanup_eq]
    rcases bind_cases (restore_state L) (fun _ => cleanup_mid L >>= fun _ => cleanup_probe L) s
      with ⟨a, _, heq⟩ | ⟨hno, _⟩
    · rw [heq]
      have hmid : Steps (Keeps anyEv true true) (cleanup_mid L >>= fun _ => cleanup_probe L) :=
        steps_bind (steps_mono (fun _ _ => rfl) (fun x => x) (fun x => x) (steps_cleanup_mid L))
          (fun _ => steps_mono (fun _ _ => rfl) (fun x => x) (fun x => x)
            (steps_cleanup_probe L))
      obtain ⟨evs, hevs, _⟩ := (hmid.run (restore_state L s).2).trace
      refine mem_since_of_mem (mk ++ [Ev.unlink (some e)] ++ evs) ?_ ?_
      · rw [hevs, hmk]
        simp
      · simp
    · exact absurd hok (hno ())
  · intro hskip
    have hrs := restore_state_skip L s hskip
    refine ⟨hrs, ?_⟩
    have hcl : cleanup L s = (cleanup_mid L >>= fun _ => cleanup_probe L) s := by
      rw [cleanup_eq]
      show M.bind (restore_state L) _ s = _
      unfold M.bind
      rw [hrs]
    rw [hcl]
    have hk := (steps_cleanup_mid L).run s
    obtain ⟨evs, hevs, hall⟩ := hk.trace
    have hmt := (hk.probe rfl).1
    obtain ⟨x, hx⟩ := (returns_cleanup_mid L).run s
    rcases bind_cases (cleanup_mid L) (fun _ => cleanup_probe L) s with
      ⟨a, _, heq⟩ | ⟨hno, _⟩
    · rw [heq]
      intro ev hev hun
      have hmem : ev ∈ evs ∨ ev = Ev.unlink s.mtime_test := by
        rcases cleanup_probe_trace L (cleanup_mid L s).2 with h | h
        · unfold since at hev
          rw [h, hevs, List.drop_left] at hev
          exact Or.inl hev
        · unfold since at hev
          rw [h, hevs, List.append_assoc, List.drop_left, hmt] at hev
          rcases List.mem_append.1 hev with h1 | h1
          · exact Or.inl h1
          · exact Or.inr (by simpa using h1)
      rcases hmem with h1 | h1
      · have := (List.all_eq_true.1 hall) ev h1
        simp only [lockOnly, hun, Bool.not_true, Bool.false_or, decide_eq_true_eq] at this
        exact Or.inl this
      · exact Or.inr h1
    · exact absurd hx (hno x)

theorem cleanup_exclusive_witness :
    supHup.exclusive = some "/lib/rc/init.d/exclusive/svc" ∧
    (supHup.rc_in_plugin = true ∨ in_control demoLib supHup = false) ∧
    restore_state demoLib supHup = (Res.ok (), supHup) :=
  ⟨by decide, Or.inr (by decide),
    ((cleanup_exclusive demoLib supHup "/lib/rc/init.d/exclusive/svc" (by decide)).2
      (Or.inr (by decide))).1⟩

/-! ## Witnesses for the status action and for the hook order -/

theorem status_retval_witness :
    (sup0 { world0 with states := [("svc", rcBits.STOPPED ||| rcBits.COLDPLUGGED)] }).sighup = false ∧
    (runscript_action demoLib 0 true "status"
      (sup0 { world0 with states := [("svc", rcBits.STOPPED ||| rcBits.COLDPLUGGED)] })).2.retval =
      (if has (demoLib.rc_service_state
            (sup0 { world0 with states := [("svc", rcBits.STOPPED ||| rcBits.COLDPLUGGED)] }).w
            (svcOf (sup0 { world0 with states := [("svc", rcBits.STOPPED ||| rcBits.COLDPLUGGED)] })))
          demoLib.bits.STARTED then 0
       else ((demoLib.rc_service_state
            (sup0 { world0 with states := [("svc", rcBits.STOPPED ||| rcBits.COLDPLUGGED)] }).w
            (svcOf (sup0 { world0 with states := [("svc", rcBits.STOPPED ||| rcBits.COLDPLUGGED)] })) :
              Nat) : Int)) :=
  ⟨rfl, (status_retval demoLib 0 true
    (sup0 { world0 with states := [("svc", rcBits.STOPPED ||| rcBits.COLDPLUGGED)] }) rfl).2.2.1⟩

/-! ## svc_restart against the restart of the specification -/

theorem bind_congr_at {σ α β : Type} (m : M σ α) (f g : α → M σ β) (s : Sup σ)
    (h : ∀ a, (m s).1 = Res.ok a → f a (m s).2 = g a (m s).2) :
    (m >>= f) s = (m >>= g) s := by
  show M.bind m f s = M.bind m g s
  unfold M.bind
  rcases hm : m s with ⟨r, s1⟩
  rw [hm] at h
  cases r with
  | ok a => exact h a rfl
  | exit c => rfl
  | hang => rfl

theorem bind_congr_left {σ α β : Type} {m m1 : M σ α} (f : α → M σ β) (s : Sup σ)
    (h : m s = m1 s) : (m >>= f) s = (m1 >>= f) s := by
  show M.bind m f s = M.bind m1 f s
  unfold M.bind
  rw [h]

/-- The restart of the specification is its first three steps, then its last. -/
theorem svc_restart_spec_split {σ : Type} (L : Lib σ) (fuel : Nat) :
    svc_restart_spec L fuel = (restart_cycle L fuel >>= fun _ => restart_start_stopped L) := by
  unfold svc_restart_spec restart_cycle restart_start_stopped
  simp only [bind_assoc_fn]

/-- For a service that is not STOPPED, `svc_restart (true)` is the first three steps
of the restart of the specification, then `start_services` and the release of the
snapshot. -/
theorem svc_restart_split {σ : Type} (L : Lib σ) (fuel : Nat) (s : Sup σ)
    (hst : has (L.rc_service_state s.w (svcOf s)) L.bits.STOPPED = false) :
    svc_restart L fuel true s =
      (restart_cycle L fuel >>= fun _ => get >>= fun s1 =>
        start_services L s1.restart_services >>= fun _ =>
          modify (fun s => { s with restart_services := [] })) s := by
  unfold restart_cycle
  simp only [bind_assoc_fn]
  simp only [svc_restart, get_bind, hst, get_started_services, Bool.not_true, Bool.not_false,
    Bool.false_eq_true, if_false, if_true]
  show _ = M.bind (modify _) _ s
  simp only [M.bind, modify, get_bind, svcOf, hst]
  simp only [svcOf] at hst
  simp only [hst, Bool.not_false, if_true]
  rfl

theorem start_services_start {σ : Type} (L : Lib σ) (list : List String) (t : Sup σ)
    (h1 : (has (L.rc_service_state t.w (svcOf t)) L.bits.STARTING ||
      has (L.rc_service_state t.w (svcOf t)) L.bits.STARTED) = true)
    (h2 : has (L.rc_service_state t.w (svcOf t)) L.bits.INACTIVE = false)
    (h3 : has (L.rc_service_state t.w (svcOf t)) L.bits.WASINACTIVE = false) :
    start_services L list t = forEach (start_stopped_body L) list t := by
  have hbody : start_services_body L (L.rc_service_state t.w (svcOf t)) =
      start_stopped_body L := by
    funext svc u
    simp only [start_services_body, start_stopped_body, get_bind, h2, h3, Bool.or_self,
      Bool.false_eq_true, if_false]
  simp only [start_services, get_bind, h2, h3, Bool.false_or, h1, if_true]
  rw [hbody]

theorem start_services_schedule {σ : Type} (L : Lib σ) (list : List String) (t : Sup σ)
    (h1 : (has (L.rc_service_state t.w (svcOf t)) L.bits.INACTIVE ||
      has (L.rc_service_state t.w (svcOf t)) L.bits.WASINACTIVE) = true) :
    start_services L list t = forEach (schedule_stopped_body L) list t := by
  have hbody : start_services_body L (L.rc_service_state t.w (svcOf t)) =
      schedule_stopped_body L := by
    funext svc u
    simp only [start_services_body, schedule_stopped_body, get_bind, h1, if_true]
  simp only [start_services, get_bind, h1, Bool.true_or, if_true]
  rw [hbody]

theorem start_services_none {σ : Type} (L : Lib σ) (list : List String) (t : Sup σ)
    (h1 : has (L.rc_service_state t.w (svcOf t)) L.bits.INACTIVE = false)
    (h2 : has (L.rc_service_state t.w (svcOf t)) L.bits.WASINACTIVE = false)
    (h3 : has (L.rc_service_state t.w (svcOf t)) L.bits.STARTING = false)
    (h4 : has (L.rc_service_state t.w (svcOf t)) L.bits.STARTED = false) :
    start_services L list t = (Res.ok (), t) := by
  simp only [start_services, get_bind, h1, h2, h3, h4, Bool.or_self, Bool.false_eq_true,
    if_false]
  rfl

/-! ### The snapshot is not touched by svc_start -/

theorem snap_bind {σ α β : Type} {m : M σ α} {f : α → M σ β}
    (hm : Steps SameSnap m) (hf : ∀ a, Steps SameSnap (f a)) : Steps SameSnap (m >>= f) := by
  constructor
  intro s
  have h1 := hm.run s
  show SameSnap s (M.bind m f s).2
  unfold M.bind
  split
  · next a s1 heq =>
    rw [heq] at h1
    exact ((hf a).run s1).trans h1
  · next c s1 heq =>
    rw [heq] at h1
    exact h1
  · next s1 heq =>
    rw [heq] at h1
    exact h1

theorem snap_of_keeps {σ α : Type} {P : Ev → Bool} {k : Bool} {m : M σ α}
    (hm : Steps (Keeps P k true) m) : Steps SameSnap m :=
  ⟨fun s => (hm.run s).restart_services rfl⟩

theorem snap_fire {σ : Type} (L : Lib σ) (h : Hook) (o : Option Hook) :
    Steps SameSnap (do
      let s ← get
      modify (fun s => { s with hook_out := o })
      rc_plugin_run L h s.applet : M σ Unit) :=
  ⟨fun s => by simp [SameSnap, bind_eq, M.bind, get, modify, rc_plugin_run, emit, call0]⟩

theorem snap_start_now {σ : Type} (L : Lib σ) : Steps SameSnap (start_now L) :=
  ⟨fun s => by
    cases h : s.ibsave <;>
      simp [SameSnap, start_now, bind_eq, M.bind, get, modify, rc_plugin_run, emit, call0, h,
        pure_eq]⟩

theorem snap_svc_start {σ : Type} (L : Lib σ) (fuel : Nat) (deps : Bool) :
    Steps SameSnap (svc_start L fuel deps) := by
  have hbody : Steps SameSnap (svc_start_body L fuel deps) := by
    unfold svc_start_body svc_start_pre svc_start_exec
    refine snap_bind (snap_bind (snap_of_keeps (steps_start_mark L)) (fun _ =>
      snap_bind (snap_fire L _ _) (fun _ => snap_of_keeps (steps_start_deps L fuel deps))))
      (fun _ => snap_bind (snap_start_now L) (fun _ =>
        snap_bind (snap_of_keeps (steps_start_run L)) (fun _ =>
          snap_bind (snap_fire L _ _) (fun _ =>
            snap_bind (snap_of_keeps (steps_start_sched L)) (fun _ => snap_fire L _ _)))))
  unfold svc_start
  repeat' first
    | exact hbody
    | exact snap_of_keeps (steps_get (P := fun _ => true) (k := true))
    | exact snap_of_keeps (steps_pure (P := fun _ => true) (k := true) _)
    | exact snap_of_keeps (steps_exit (P := fun _ => true) (k := true) _)
    | exact snap_of_keeps (steps_emit (P := fun _ => true) (k := true) _ rfl)
    | exact snap_of_keeps (steps_ewarnx (P := fun _ => true) (k := true) _ rfl)
    | apply snap_bind
    | apply steps_ite
    | intro _
    | split

/-- C9 (as stated, refuted).  In `wRestart` the service is STOPPED and `b` is
STARTED, and the start script stops `b`: the restart of the specification takes the
snapshot `["b"]` and starts `b` again at the end, `svc_restart (true)` takes no
snapshot and leaves `b` STOPPED.  In `wConflict` the service is STARTED, so the
snapshot is taken, but the service is STOPPED again when `svc_start` returns: the
specification starts `c`, `svc_restart (true)` starts nothing.  In `wInactive` the
service is INACTIVE when `svc_start` returns: the specification starts `c`,
`svc_restart (true)` schedules it. -/
theorem svc_restart_counterexample :
    ((svc_restart_spec demoLib 0 (sup0 wRestart)).2.w.states =
        [("svc", rcBits.STARTED), ("b", rcBits.STARTED)] ∧
      (svc_restart demoLib 0 true (sup0 wRestart)).2.w.states =
        [("svc", rcBits.STARTED), ("b", rcBits.STOPPED)] ∧
      Ev.start "b" ∈ (svc_restart_spec demoLib 0 (sup0 wRestart)).2.trace ∧
      ¬ (Ev.start "b" ∈ (svc_restart demoLib 0 true (sup0 wRestart)).2.trace) ∧
      svc_restart demoLib 0 true (sup0 wRestart) ≠
        svc_restart_spec demoLib 0 (sup0 wRestart)) ∧
    (has (demoLib.rc_service_state (sup0 wConflict).w (svcOf (sup0 wConflict)))
        rcBits.STOPPED = false ∧
      (svc_restart demoLib 0 true (sup0 wConflict)).1 = Res.ok () ∧
      (svc_restart_spec demoLib 0 (sup0 wConflict)).1 = Res.ok () ∧
      (svc_restart_spec demoLib 0 (sup0 wConflict)).2.w.states =
        [("svc", rcBits.STARTED), ("b", rcBits.STARTED), ("c", rcBits.STARTED)] ∧
      (svc_restart demoLib 0 true (sup0 wConflict)).2.w.states =
        [("svc", rcBits.STOPPED), ("b", rcBits.STARTED), ("c", rcBits.STOPPED)] ∧
      Ev.start "c" ∈ (svc_restart_spec demoLib 0 (sup0 wConflict)).2.trace ∧
      ¬ (Ev.start "c" ∈ (svc_restart demoLib 0 true (sup0 wConflict)).2.trace)) ∧
    (has (demoLib.rc_service_state (sup0 wInactive).w (svcOf (sup0 wInactive)))
        rcBits.STOPPED = false ∧
      (svc_restart demoLib 0 true (sup0 wInactive)).1 = Res.ok () ∧
      (svc_restart_spec demoLib 0 (sup0 wInactive)).2.w.states =
        [("svc", rcBits.INACTIVE), ("b", rcBits.STARTED), ("c", rcBits.STARTED)] ∧
      (svc_restart demoLib 0 true (sup0 wInactive)).2.w.states =
        [("svc", rcBits.INACTIVE), ("b", rcBits.STARTED), ("c", rcBits.STOPPED)] ∧
      Ev.start "c" ∈ (svc_restart_spec demoLib 0 (sup0 wInactive)).2.trace ∧
      ¬ (Ev.start "c" ∈ (svc_restart demoLib 0 true (sup0 wInactive)).2.trace) ∧
      Ev.schedule "/etc/init.d/svc" "c" ∈
        (svc_restart demoLib 0 true (sup0 wInactive)).2.trace) := by
  have h1 : (svc_restart_spec demoLib 0 (sup0 wRestart)).2.w.states =
      [("svc", rcBits.STARTED), ("b", rcBits.STARTED)] := by decide!
  have h2 : (svc_restart demoLib 0 true (sup0 wRestart)).2.w.states =
      [("svc", rcBits.STARTED), ("b", rcBits.STOPPED)] := by decide!
  refine ⟨⟨h1, h2, by decide!, by decide!, ?_⟩,
    ⟨by decide!, by decide!, by decide!, by decide!, by decide!, by decide!, by decide!⟩,
    ⟨by decide!, by decide!, by decide!, by decide!, by decide!, by decide!, by decide!⟩⟩
  intro h
  rw [h, h1] at h2
  exact absurd h2 (by decide)

/-- C9 (amended).  Let `t` be the state after the first three steps of the restart
of the specification (snapshot, `svc_stop (true)` if the service is not STOPPED,
`svc_start (true)`).  For a service that is not STOPPED at the start:
`svc_restart (true)` is the restart of the specification if the state of the
service in `t` includes STARTING or STARTED and neither INACTIVE nor WASINACTIVE;
if it includes INACTIVE or WASINACTIVE, the services of the snapshot that are
STOPPED are scheduled to start after this service, each with a warning, in place
of being started; if it includes none of the four, the snapshot is dropped and
nothing of it is started.  For a service that is STOPPED at the start no snapshot
is taken: with an empty `restart_services`, `svc_restart (true)` is
`svc_start (true)` alone. -/
theorem svc_restart_refines {σ : Type} (L : Lib σ) (fuel : Nat) (s : Sup σ) :
    (has (L.rc_service_state s.w (svcOf s)) L.bits.STOPPED = false →
      ((has (L.rc_service_state (restart_cycle L fuel s).2.w
            (svcOf (restart_cycle L fuel s).2)) L.bits.STARTING ||
          has (L.rc_service_state (restart_cycle L fuel s).2.w
            (svcOf (restart_cycle L fuel s).2)) L.bits.STARTED) = true →
        has (L.rc_service_state (restart_cycle L fuel s).2.w
            (svcOf (restart_cycle L fuel s).2)) L.bits.INACTIVE = false →
        has (L.rc_service_state (restart_cycle L fuel s).2.w
            (svcOf (restart_cycle L fuel s).2)) L.bits.WASINACTIVE = false →
        svc_restart L fuel true s = svc_restart_spec L fuel s) ∧
      ((has (L.rc_service_state (restart_cycle L fuel s).2.w
            (svcOf (restart_cycle L fuel s).2)) L.bits.INACTIVE ||
          has (L.rc_service_state (restart_cycle L fuel s).2.w
            (svcOf (restart_cycle L fuel s).2)) L.bits.WASINACTIVE) = true →
        svc_restart L fuel true s =
          (restart_cycle L fuel >>= fun _ => restart_schedule_stopped L) s) ∧
      (has (L.rc_service_state (restart_cycle L fuel s).2.w
            (svcOf (restart_cycle L fuel s).2)) L.bits.INACTIVE = false →
        has (L.rc_service_state (restart_cycle L fuel s).2.w
            (svcOf (restart_cycle L fuel s).2)) L.bits.WASINACTIVE = false →
        has (L.rc_service_state (restart_cycle L fuel s).2.w
            (svcOf (restart_cycle L fuel s).2)) L.bits.STARTING = false →
        has (L.rc_service_state (restart_cycle L fuel s).2.w
            (svcOf (restart_cycle L fuel s).2)) L.bits.STARTED = false →
        svc_restart L fuel true s = (restart_cycle L fuel >>= fun _ => restart_drop) s)) ∧
    (has (L.rc_service_state s.w (svcOf s)) L.bits.STOPPED = true →
      s.restart_services = [] →
      svc_restart L fuel true s = svc_start L fuel true s) := by
  refine ⟨fun hst => ⟨fun h1 h2 h3 => ?_, fun h1 => ?_, fun h1 h2 h3 h4 => ?_⟩,
    fun hst hnil => ?_⟩
  · rw [svc_restart_split L fuel s hst, svc_restart_spec_split]
    refine bind_congr_at _ _ _ s (fun a _ => ?_)
    generalize (restart_cycle L fuel s).2 = t at h1 h2 h3
    unfold restart_start_stopped
    rw [get_bind, get_bind]
    exact bind_congr_left _ t (start_services_start L _ t h1 h2 h3)
  · rw [svc_restart_split L fuel s hst]
    refine bind_congr_at _ _ _ s (fun a _ => ?_)
    generalize (restart_cycle L fuel s).2 = t at h1
    unfold restart_schedule_stopped
    rw [get_bind, get_bind]
    exact bind_congr_left _ t (start_services_schedule L _ t h1)
  · rw [svc_restart_split L fuel s hst]
    refine bind_congr_at _ _ _ s (fun a _ => ?_)
    generalize (restart_cycle L fuel s).2 = t at h1 h2 h3 h4
    unfold restart_drop
    rw [get_bind]
    show M.bind (start_services L t.restart_services) _ t = _
    unfold M.bind
    rw [start_services_none L _ t h1 h2 h3 h4]
  · have hsnap : (svc_start L fuel true s).2.restart_services = [] := by
      rw [← hnil]
      exact (snap_svc_start L fuel true).run s
    simp only [svc_restart, get_bind, hst, Bool.not_true, Bool.false_eq_true, if_false]
    show M.bind (pure ()) (fun _ => M.bind (svc_start L fuel true) _) s = _
    show M.bind (svc_start L fuel true) _ s = _
    unfold M.bind
    rcases hm : svc_start L fuel true s with ⟨r, t⟩
    rw [hm] at hsnap
    simp only at hsnap
    cases r with
    | exit c => rfl
    | hang => rfl
    | ok a =>
      simp only [get_bind]
      have hnone : start_services L t.restart_services t = (Res.ok (), t) := by
        rw [hsnap]
        simp only [start_services, get_bind]
        split <;> rfl
      show M.bind (start_services L t.restart_services) _ t = _
      unfold M.bind
      rw [hnone]
      simp only [modify]
      cases t
      simp only at hsnap
      subst hsnap
      rfl

theorem svc_restart_refines_witness :
    has (demoLib.rc_service_state (sup0 wCohort).w (svcOf (sup0 wCohort))) rcBits.STOPPED
      = false ∧
    svc_restart demoLib 0 true (sup0 wCohort) = svc_restart_spec demoLib 0 (sup0 wCohort) ∧
    (svc_restart demoLib 0 true (sup0 wCohort)).1 = Res.ok () ∧
    Ev.start "c" ∈ (svc_restart demoLib 0 true (sup0 wCohort)).2.trace ∧
    svc_restart demoLib 0 true (sup0 wInactive) =
      (restart_cycle demoLib 0 >>= fun _ => restart_schedule_stopped demoLib)
        (sup0 wInactive) ∧
    svc_restart demoLib 0 true (sup0 wConflict) =
      (restart_cycle demoLib 0 >>= fun _ => restart_drop) (sup0 wConflict) ∧
    has (demoLib.rc_service_state (sup0 wRestart).w (svcOf (sup0 wRestart))) rcBits.STOPPED
      = true ∧
    svc_restart demoLib 0 true (sup0 wRestart) = svc_start demoLib 0 true (sup0 wRestart) :=
  ⟨by decide!,
    ((svc_restart_refines demoLib 0 (sup0 wCohort)).1 (by decide!)).1
      (by decide!) (by decide!) (by decide!),
    by decide!, by decide!,
    ((svc_restart_refines demoLib 0 (sup0 wInactive)).1 (by decide!)).2.1 (by decide!),
    ((svc_restart_refines demoLib 0 (sup0 wConflict)).1 (by decide!)).2.2
      (by decide!) (by decide!) (by decide!) (by decide!),
    by decide!,
    (svc_restart_refines demoLib 0 (sup0 wRestart)).2 (by decide!) rfl⟩

/-! ## svc_wait -/

theorem after_sleeps_succ {σ : Type} (L : Lib σ) (n : Nat) (w : σ) :
    after_sleeps L (n + 1) w = after_sleeps L n (L.nanosleep w WAIT_INTERVAL).2 := rfl

/-- The wait loop without `notimeout`: it returns within `n` rounds. -/
theorem svc_wait_loop_bounded {σ : Type} (L : Lib σ) (fifo : String) (n : Nat) :
    ∀ (fuel : Nat) (s : Sup σ), n ≤ fuel →
      (∀ i, i < n → (L.nanosleep (after_sleeps L i s.w) WAIT_INTERVAL).1 ≠ SleepRes.failed) →
      ∃ r k evs, k ≤ n ∧
        svc_wait_loop L fifo false fuel n s =
          (Res.ok r, { s with w := after_sleeps L k s.w, trace := s.trace ++ evs }) ∧
        countPolls evs ≤ n ∧
        (∀ e ∈ evs, e = Ev.poll fifo ∨ e = Ev.sleep WAIT_INTERVAL) ∧
        (r = true → L.fexists (after_sleeps L k s.w) fifo = false) ∧
        (r = false → k = n) ∧
        (∀ i, i < k → L.fexists (after_sleeps L i s.w) fifo = true) := by
  induction n with
  | zero =>
    intro fuel s _ _
    refine ⟨false, 0, [], le_refl _, ?_, by simp [countPolls], by simp, by simp, by simp, by simp⟩
    cases fuel <;> simp [svc_wait_loop, after_sleeps]
  | succ n ih =>
    intro fuel s hfuel hsleep
    cases fuel with
    | zero => omega
    | succ fuel =>
      by_cases hex : L.fexists s.w fifo = true
      · have h0 := hsleep 0 (by omega)
        simp only [after_sleeps] at h0
        obtain ⟨r, k, evs, hk, heq, hcnt, hevs, hr1, hr2, hpre⟩ :=
          ih fuel { s with w := (L.nanosleep s.w WAIT_INTERVAL).2,
                           trace := s.trace ++ [Ev.poll fifo] ++ [Ev.sleep WAIT_INTERVAL] }
            (by omega) (fun i hi => hsleep (i + 1) (by omega))
        refine ⟨r, k + 1, [Ev.poll fifo, Ev.sleep WAIT_INTERVAL] ++ evs, by omega, ?_, ?_, ?_,
          ?_, ?_, ?_⟩
        · have hne : ((L.nanosleep s.w WAIT_INTERVAL).1 == SleepRes.failed) = false := by
            simpa using h0
          simp only [svc_wait_loop, hex, Bool.not_true, Bool.false_eq_true, if_false, hne]
          rw [heq]
          simp [after_sleeps]
        · simp only [countPolls] at hcnt ⊢
          simp only [List.filter_append, List.length_append]
          simp [Ev.isPoll, List.filter]
          omega
        · intro e he
          rcases List.mem_append.1 he with h | h
          · simp at h
            rcases h with h | h
            · exact Or.inl h
            · exact Or.inr h
          · exact hevs e h
        · exact hr1
        · intro hf
          rw [hr2 hf]
        · intro i hi
          cases i with
          | zero => exact hex
          | succ i => exact hpre i (by omega)
      · refine ⟨true, 0, [Ev.poll fifo], by omega, ?_, ?_, ?_, ?_, ?_, ?_⟩
        · simp [svc_wait_loop, hex, after_sleeps]
        · simp [countPolls, Ev.isPoll, List.filter]
        · simp
        · intro _
          simpa [after_sleeps] using hex
        · intro h
          cases h
        · intro i hi
          omega

theorem svc_wait_nloops_eq : svc_wait_nloops = 15000 := by decide

theorem since_append {σ : Type} (s : Sup σ) (w : σ) (evs : List Ev) :
    since s { s with w := w, trace := s.trace ++ evs } = evs := by
  simp [since]

/-- C10: for a peer without the `notimeout` keyword, with `nanosleep` never failing
other than by EINTR and with fuel for 15000 rounds, `svc_wait` returns; it polls
the marker at most WAIT_MAX * (ONE_SECOND / WAIT_INTERVAL) = 15000 times, with a
sleep of WAIT_INTERVAL = 20 ms after each poll that saw the marker (300 s in all);
and it returns true if and only if the marker is absent after some number i ≤ 15000
of sleeps (at one of the polls, or at the check after the loop for i = 15000): if
the marker is there all the time it returns false. -/
theorem svc_wait_bounded {σ : Type} (L : Lib σ) (fuel : Nat) (svc : String) (s : Sup σ)
    (hsvc : s.service.isSome = true)
    (hkw : (L.rc_deptree_depend s.w svc "keywords").contains "notimeout" = false)
    (hsleep : ∀ i, i < 15000 →
      (L.nanosleep (after_sleeps L i s.w) WAIT_INTERVAL).1 ≠ SleepRes.failed)
    (hfuel : 15000 ≤ fuel) :
    svc_wait_nloops = 15000 ∧ WAIT_INTERVAL = 20 * 1000000 ∧
    svc_wait_nloops * WAIT_INTERVAL = 300 * ONE_SECOND ∧
    ∃ r, (svc_wait L fuel svc s).1 = Res.ok r ∧
      countPolls (since s (svc_wait L fuel svc s).2) ≤ 15000 ∧
      (∀ e ∈ since s (svc_wait L fuel svc s).2,
        e = Ev.poll (wait_fifo L svc) ∨ e = Ev.sleep WAIT_INTERVAL) ∧
      (r = true ↔
        ∃ i, i ≤ 15000 ∧ L.fexists (after_sleeps L i s.w) (wait_fifo L svc) = false) ∧
      ((∀ i, i ≤ 15000 → L.fexists (after_sleeps L i s.w) (wait_fifo L svc) = true) →
        r = false) := by
  refine ⟨svc_wait_nloops_eq, by decide, by decide, ?_⟩
  obtain ⟨r, k, evs, hk, heq, hcnt, hevs, hr1, hr2, hpre⟩ :=
    svc_wait_loop_bounded L (wait_fifo L svc) 15000 fuel s hfuel hsleep
  obtain ⟨sv, hsv⟩ := Option.isSome_iff_exists.1 hsvc
  have hrun : svc_wait L fuel svc s =
      (Res.ok (if !L.fexists (after_sleeps L k s.w) (wait_fifo L svc) then true else r),
        { s with w := after_sleeps L k s.w, trace := s.trace ++ evs }) := by
    unfold svc_wait
    simp only [hsv, hkw, svc_wait_nloops_eq]
    unfold wait_fifo at heq
    rw [heq]
    simp [wait_fifo, hsv]
  have hiff : (if !L.fexists (after_sleeps L k s.w) (wait_fifo L svc) then true else r) = true ↔
      ∃ i, i ≤ 15000 ∧ L.fexists (after_sleeps L i s.w) (wait_fifo L svc) = false := by
    constructor
    · intro h
      by_cases hex : L.fexists (after_sleeps L k s.w) (wait_fifo L svc) = true
      · simp only [hex, Bool.not_true, Bool.false_eq_true, if_false] at h
        have := hr1 h
        rw [hex] at this
        cases this
      · exact ⟨k, hk, by simpa using hex⟩
    · rintro ⟨i, hi, habs⟩
      by_cases hex : L.fexists (after_sleeps L k s.w) (wait_fifo L svc) = true
      · simp only [hex, Bool.not_true, Bool.false_eq_true, if_false]
        cases hr : r with
        | true => rfl
        | false =>
          have hkn := hr2 hr
          subst hkn
          rcases Nat.lt_or_ge i 15000 with hlt | hge
          · have := hpre i hlt
            rw [habs] at this
            cases this
          · have : i = 15000 := by omega
            subst this
            rw [habs] at hex
            cases hex
      · simp [hex]
  refine ⟨_, by rw [hrun], ?_, ?_, hiff, ?_⟩
  · rw [hrun, since_append]
    exact hcnt
  · rw [hrun, since_append]
    exact hevs
  · intro hall
    rw [Bool.eq_false_iff]
    intro h
    obtain ⟨i, hi, habs⟩ := hiff.1 h
    rw [hall i hi] at habs
    cases habs

theorem svc_wait_bounded_witness :
    (sup0 wWait).service.isSome = true ∧
    ∃ r, (svc_wait demoLib 15000 "net" (sup0 wWait)).1 = Res.ok r ∧
      countPolls (since (sup0 wWait) (svc_wait demoLib 15000 "net" (sup0 wWait)).2) ≤ 15000 :=
  ⟨rfl,
    let ⟨r, h1, h2, _⟩ := (svc_wait_bounded demoLib 15000 "net" (sup0 wWait) rfl (by decide)
      (fun _ _ h => SleepRes.noConfusion h) (le_refl _)).2.2.2
    ⟨r, h1, h2⟩⟩

/-- The wait loop with `notimeout`: with every sleep succeeding, a run of `fuel`
rounds either saw the marker at each of its `fuel` polls and is still in the loop,
or it returned true at the first poll that did not see the marker. -/
theorem svc_wait_loop_forever {σ : Type} (L : Lib σ) (fifo : String) (m : Nat) :
    ∀ (fuel : Nat) (s : Sup σ),
      (∀ i, i < fuel → (L.nanosleep (after_sleeps L i s.w) WAIT_INTERVAL).1 ≠ SleepRes.failed) →
      ((∀ i, i < fuel → L.fexists (after_sleeps L i s.w) fifo = true) ∧
        ∃ evs, svc_wait_loop L fifo true fuel (m + 1) s =
            (Res.hang, { s with w := after_sleeps L fuel s.w, trace := s.trace ++ evs }) ∧
          countPolls evs = fuel) ∨
      (∃ k, k < fuel ∧ (∀ i, i < k → L.fexists (after_sleeps L i s.w) fifo = true) ∧
        L.fexists (after_sleeps L k s.w) fifo = false ∧
        ∃ evs, svc_wait_loop L fifo true fuel (m + 1) s =
            (Res.ok true, { s with w := after_sleeps L k s.w, trace := s.trace ++ evs }) ∧
          countPolls evs = k + 1) := by
  intro fuel
  induction fuel with
  | zero =>
    intro s _
    exact Or.inl ⟨by intro i hi; omega, [], by simp [svc_wait_loop, after_sleeps], rfl⟩
  | succ fuel ih =>
    intro s hsleep
    by_cases hex : L.fexists s.w fifo = true
    · have h0 := hsleep 0 (by omega)
      simp only [after_sleeps] at h0
      have hne : ((L.nanosleep s.w WAIT_INTERVAL).1 == SleepRes.failed) = false := by
        simpa using h0
      have hstep : svc_wait_loop L fifo true (fuel + 1) (m + 1) s =
          svc_wait_loop L fifo true fuel (m + 1)
            { s with w := (L.nanosleep s.w WAIT_INTERVAL).2,
                     trace := s.trace ++ [Ev.poll fifo] ++ [Ev.sleep WAIT_INTERVAL] } := by
        simp [svc_wait_loop, hex, hne]
      rcases ih { s with w := (L.nanosleep s.w WAIT_INTERVAL).2,
                         trace := s.trace ++ [Ev.poll fifo] ++ [Ev.sleep WAIT_INTERVAL] }
          (fun i hi => hsleep (i + 1) (by omega)) with
        ⟨hall, evs, heq, hcnt⟩ | ⟨k, hk, hpre, habs, evs, heq, hcnt⟩
      · refine Or.inl ⟨?_, [Ev.poll fifo, Ev.sleep WAIT_INTERVAL] ++ evs, ?_, ?_⟩
        · intro i hi
          cases i with
          | zero => exact hex
          | succ i => exact hall i (by omega)
        · rw [hstep, heq]
          simp [after_sleeps]
        · simp only [countPolls] at hcnt ⊢
          simp only [List.filter_append, List.length_append]
          simp [Ev.isPoll, List.filter]
          omega
      · refine Or.inr ⟨k + 1, by omega, ?_, habs, [Ev.poll fifo, Ev.sleep WAIT_INTERVAL] ++ evs,
          ?_, ?_⟩
        · intro i hi
          cases i with
          | zero => exact hex
          | succ i => exact hpre i (by omega)
        · rw [hstep, heq]
          simp [after_sleeps]
        · simp only [countPolls] at hcnt ⊢
          simp only [List.filter_append, List.length_append]
          simp [Ev.isPoll, List.filter]
          omega
    · refine Or.inr ⟨0, by omega, by intro i hi; omega, by simpa [after_sleeps] using hex,
        [Ev.poll fifo], ?_, ?_⟩
      · simp [svc_wait_loop, hex, after_sleeps]
      · simp [countPolls, Ev.isPoll, List.filter]

theorem svc_wait_forever_eq {σ : Type} (L : Lib σ) (fuel : Nat) (svc : String) (s : Sup σ)
    (hsvc : s.service.isSome = true)
    (hkw : (L.rc_deptree_depend s.w svc "keywords").contains "notimeout" = true) :
    svc_wait L fuel svc s =
      match svc_wait_loop L (wait_fifo L svc) true fuel (14999 + 1) s with
      | (Res.ok retval, s1) =>
        (Res.ok (if !L.fexists s1.w (wait_fifo L svc) then true else retval), s1)
      | (Res.exit c, s1) => (Res.exit c, s1)
      | (Res.hang, s1) => (Res.hang, s1) := by
  obtain ⟨sv, hsv⟩ := Option.isSome_iff_exists.1 hsvc
  unfold svc_wait
  simp only [hsv, hkw, svc_wait_nloops_eq, wait_fifo] <;> rfl

/-- C11: for a peer whose keywords contain `notimeout`, and with every `nanosleep`
succeeding or interrupted: (1) for every number n, if the marker of the peer is
there at each of the first n polls, `svc_wait` has made n polls after n rounds and
has not returned (n is not bounded by the 15000 of the counter, which is never
decremented); (2) whenever `svc_wait` returns, it returns true, and it does so at
the first poll that does not see the marker; (3) and it does return at that poll. -/
theorem svc_wait_notimeout {σ : Type} (L : Lib σ) (svc : String) (s : Sup σ)
    (hsvc : s.service.isSome = true)
    (hkw : (L.rc_deptree_depend s.w svc "keywords").contains "notimeout" = true)
    (hsleep : ∀ i, (L.nanosleep (after_sleeps L i s.w) WAIT_INTERVAL).1 ≠ SleepRes.failed) :
    (∀ n, (∀ i, i < n → L.fexists (after_sleeps L i s.w) (wait_fifo L svc) = true) →
      (svc_wait L n svc s).1 = Res.hang ∧
      countPolls (since s (svc_wait L n svc s).2) = n ∧
      (svc_wait L n svc s).2.w = after_sleeps L n s.w) ∧
    (∀ fuel r, (svc_wait L fuel svc s).1 = Res.ok r →
      r = true ∧ ∃ k, k < fuel ∧
        (∀ i, i < k → L.fexists (after_sleeps L i s.w) (wait_fifo L svc) = true) ∧
        L.fexists (after_sleeps L k s.w) (wait_fifo L svc) = false ∧
        (svc_wait L fuel svc s).2.w = after_sleeps L k s.w ∧
        countPolls (since s (svc_wait L fuel svc s).2) = k + 1) ∧
    (∀ k fuel, k < fuel →
      (∀ i, i < k → L.fexists (after_sleeps L i s.w) (wait_fifo L svc) = true) →
      L.fexists (after_sleeps L k s.w) (wait_fifo L svc) = false →
      (svc_wait L fuel svc s).1 = Res.ok true) := by
  refine ⟨?_, ?_, ?_⟩
  · intro n hall
    rw [svc_wait_forever_eq L n svc s hsvc hkw]
    rcases svc_wait_loop_forever L (wait_fifo L svc) 14999 n s (fun i _ => hsleep i) with
      ⟨_, evs, heq, hcnt⟩ | ⟨k, hk, _, habs, _⟩
    · rw [heq]
      simp only [since_append]
      exact ⟨trivial, hcnt, trivial⟩
    · rw [hall k hk] at habs
      cases habs
  · intro fuel r hr
    rw [svc_wait_forever_eq L fuel svc s hsvc hkw] at hr ⊢
    rcases svc_wait_loop_forever L (wait_fifo L svc) 14999 fuel s (fun i _ => hsleep i) with
      ⟨_, evs, heq, hcnt⟩ | ⟨k, hk, hpre, habs, evs, heq, hcnt⟩
    · rw [heq] at hr
      cases hr
    · rw [heq] at hr ⊢
      simp only [habs, Bool.not_false, if_true, Res.ok.injEq] at hr
      simp only [since_append]
      exact ⟨hr.symm, k, hk, hpre, habs, rfl, hcnt⟩
  · intro k fuel hk hpre habs
    rw [svc_wait_forever_eq L fuel svc s hsvc hkw]
    rcases svc_wait_loop_forever L (wait_fifo L svc) 14999 fuel s (fun i _ => hsleep i) with
      ⟨hall, _⟩ | ⟨k2, hk2, hpre2, habs2, evs, heq, hcnt⟩
    · rw [hall k hk] at habs
      cases habs
    · rw [heq]
      simp [habs2]

theorem after_sleeps_files (i : Nat) :
    ∀ w : World, w.vanish = [] → (after_sleeps demoLib i w).files = w.files := by
  induction i with
  | zero => intro w _; rfl
  | succ i ih =>
    intro w hw
    have h1 : (demoLib.nanosleep w WAIT_INTERVAL).2 = w.tick := rfl
    rw [after_sleeps_succ, h1, ih w.tick (by simp [World.tick, hw])]
    simp [World.tick, hw]

theorem svc_wait_notimeout_witness :
    (sup0 wForever).service.isSome = true ∧
    (demoLib.rc_deptree_depend (sup0 wForever).w "net" "keywords").contains "notimeout" = true ∧
    (svc_wait demoLib 20000 "net" (sup0 wForever)).1 = Res.hang ∧
    countPolls (since (sup0 wForever) (svc_wait demoLib 20000 "net" (sup0 wForever)).2) = 20000 :=
  ⟨rfl, by decide,
    ((svc_wait_notimeout demoLib "net" (sup0 wForever) rfl (by decide)
      (fun _ h => SleepRes.noConfusion h)).1 20000
      (fun i _ => by
        show ((after_sleeps demoLib i wForever).files.lookup _).isSome = true
        rw [after_sleeps_files i wForever rfl]
        decide)).1,
    ((svc_wait_notimeout demoLib "net" (sup0 wForever) rfl (by decide)
      (fun _ h => SleepRes.noConfusion h)).1 20000
      (fun i _ => by
        show ((after_sleeps demoLib i wForever).files.lookup _).isSome = true
        rw [after_sleeps_files i wForever rfl]
        decide)).2.1⟩

/-! ## write_prefix -/

theorem prefixed_stream_cons (block : List Nat) (b : Nat) (rest : List Nat) (init : Bool) :
    prefixed_stream block (b :: rest) init =
      (if !init && b != 27 then block else []) ++ [b] ++
        prefixed_stream block rest (b != 10) := by
  unfold prefixed_stream
  rw [List.length_cons, List.range_succ_eq_map, List.map_cons, List.flatten_cons, List.map_map]
  congr 1
  · simp [line_start]
  · congr 1
    apply List.map_congr_left
    intro i hi
    cases i with
    | zero => simp [line_start]
    | succ i => simp [line_start]

/-- C12: for every buffer and every initial flag, `write_prefix` writes the bytes
of the buffer in their order, with one prefix block right before the byte `i`
exactly when the flag is false on reaching `i` (`i` is the first byte and the
initial flag is false, or the byte before is a newline) and the byte `i` is not
0x1B; and for a non-empty buffer the flag on return is false if and only if the
last byte is a newline. -/
theorem write_prefix_stream (ec pfx ec_normal : List Nat) (buffer : List Nat) (init : Bool) :
    ( write_prefix ec pfx ec_normal buffer init).1 =
      prefixed_stream (prefix_block ec pfx ec_normal) buffer init ∧
    (buffer ≠ [] →
      (( write_prefix ec pfx ec_normal buffer init).2 = false ↔ buffer.getLast? = some 10)) ∧
    (buffer = [] → ( write_prefix ec pfx ec_normal buffer init).2 = init) := by
  induction buffer generalizing init with
  | nil => simp [ write_prefix, prefixed_stream]
  | cons b rest ih =>
    obtain ⟨h1, h2, h3⟩ := ih (b != 10)
    refine ⟨?_, ?_, by simp⟩
    · rw [prefixed_stream_cons, ← h1]
      cases hb : (b == 27) <;> cases hn : (b == 10) <;> cases init <;>
        simp [ write_prefix, hb, hn, bne]
    · intro _
      have hflag : ( write_prefix ec pfx ec_normal (b :: rest) init).2 =
          ( write_prefix ec pfx ec_normal rest (b != 10)).2 := by
        cases hb : (b == 27) <;> cases hn : (b == 10) <;> cases init <;>
          simp [ write_prefix, hb, hn, bne]
      rw [hflag]
      cases rest with
      | nil =>
        rw [h3 rfl]
        simp
      | cons c rest =>
        rw [h2 (by simp)]
        simp [List.getLast?_cons_cons]

theorem write_prefix_stream_witness :
    ( write_prefix [1] [112] [2] [97, 10, 27, 98, 10, 99] false).1 =
      prefixed_stream (prefix_block [1] [112] [2]) [97, 10, 27, 98, 10, 99] false ∧
    prefixed_stream (prefix_block [1] [112] [2]) [97, 10, 27, 98, 10, 99] false =
      [1, 112, 2, 124, 97, 10, 27, 98, 10, 1, 112, 2, 124, 99] ∧
    ( write_prefix [1] [112] [2] [97, 10, 27, 98, 10, 99] false).2 = true :=
  ⟨( write_prefix_stream [1] [112] [2] [97, 10, 27, 98, 10, 99] false).1, by decide, by decide⟩

/-! ## handle_signal -/

/-- C17 fails on the code: for SIGINT the message names SIGINT, not SIGQUIT. -/
theorem handle_signal_counterexample :
    (handle_signal demoLib ⟨0, -1, -1, false⟩ SIGINT (sup0 world0)).1 = Res.exit EXIT_FAILURE ∧
    (handle_signal demoLib ⟨0, -1, -1, false⟩ SIGINT (sup0 world0)).2.trace =
      [Ev.eerror "svc: caught SIGINT, aborting"] ∧
    signame_of SIGINT ≠ "SIGQUIT" ∧ signame_of SIGTERM ≠ "SIGQUIT" := by
  decide

/-- C17, amended: for each of SIGINT, SIGTERM and SIGQUIT the name in the message
of `handle_signal` is the name of the signal that arrived (the tests
`if (! signame[0])` keep the first name that the fall-through sets); the child, if
there is one, gets the signal first, and the supervisor exits with failure. -/
theorem handle_signal_names {σ : Type} (L : Lib σ) (c : SigCtx) (s : Sup σ) :
    signame_of SIGINT = "SIGINT" ∧ signame_of SIGTERM = "SIGTERM" ∧
    signame_of SIGQUIT = "SIGQUIT" ∧
    ∀ sig name, (sig, name) ∈ [(SIGINT, "SIGINT"), (SIGTERM, "SIGTERM"), (SIGQUIT, "SIGQUIT")] →
      handle_signal L c sig s =
        (Res.exit EXIT_FAILURE,
          { s with trace := s.trace ++
              (if c.service_pid > 0 then [Ev.kill c.service_pid sig] else []) ++
              [Ev.eerror (s.applet ++ ": caught " ++ name ++ ", aborting")] }) := by
  refine ⟨by decide, by decide, by decide, ?_⟩
  intro sig name h
  have h1 : signame_of 2 = "SIGINT" := by decide
  have h2 : signame_of 15 = "SIGTERM" := by decide
  have h3 : signame_of 3 = "SIGQUIT" := by decide
  simp only [List.mem_cons, Prod.mk.injEq, List.mem_singleton, List.not_mem_nil, or_false] at h
  rcases h with ⟨rfl, rfl⟩ | ⟨rfl, rfl⟩ | ⟨rfl, rfl⟩ <;>
    by_cases hp : c.service_pid > 0 <;>
    simp [handle_signal, bind_eq, M.bind, get, emit, eerrorx, eerror, exit, pure_eq, hp,
      SIGINT, SIGTERM, SIGQUIT, SIGHUP, SIGCHLD, SIGWINCH, h1, h2, h3]

/-! ## The prefix of rc_parallel -/

/-- C18 fails on the code: whatever the applet and the names of the runlevel, the
buffer has the size `l` of the longest name and the NUL is written at the offset
`l`, one byte past its end; and for an applet longer than every name the copy
writes more than `l` bytes. -/
theorem prefix_writes_past_end (applet : String) (services : List String) :
    (prefix_writes applet services).size = longest_name services ∧
    { start := longest_name services, count := 1, byte := some 0 } ∈
      (prefix_writes applet services).writes ∧
    (prefix_writes applet services).writes.all
      (MemWrite.within (prefix_writes applet services).size) = false ∧
    (prefix_writes "svc" ["svc"]).size = 3 ∧
    (prefix_writes "svc" ["svc"]).writes =
      [⟨0, 3, none⟩, ⟨3, 0, some 32⟩, ⟨3, 1, some 0⟩] ∧
    (prefix_writes "longer" ["svc"]).writes =
      [⟨0, 6, none⟩, ⟨6, 2 ^ 64 - 3, some 32⟩, ⟨3, 1, some 0⟩] := by
  refine ⟨rfl, by simp [prefix_writes], ?_, by decide, by decide, by decide⟩
  simp [prefix_writes, MemWrite.within]

/-! ## The check of the effective user -/

/-- C16 fails on the code: `start` by a caller who is not root is rejected with
"root access required" like `stop` and `zap`; no mark and no exec is made. -/
theorem root_gate_counterexample :
    userLib.geteuid ≠ 0 ∧
    (runscript_action userLib 10 true "start" (sup0 world0)).1 = Res.exit EXIT_FAILURE ∧
    (runscript_action userLib 10 true "start" (sup0 world0)).2.trace =
      [Ev.unsetenv "RC_CMD", Ev.setenv "RC_CMD" "start",
        Ev.eerror "svc: root access required"] := by
  decide

/-- C16, amended: for a caller whose euid is not 0, the dispatcher rejects with
"root access required", before any mark and any exec, every action other than
`describe`, `help`, the seven dependency queries and `status` (so `start`,
`restart`, `condrestart`, `stop`, `zap` and every unknown action alike); `describe`
and `help` are not gated and reach the shell helper, `status` is not gated and
returns normally. -/
theorem root_gate {σ : Type} (L : Lib σ) (fuel : Nat) (deps : Bool) (optarg : String)
    (s : Sup σ) (heuid : L.geteuid ≠ 0) (hhup : s.sighup = false) :
    (optarg ≠ "describe" → optarg ≠ "help" → optarg ∉ dep_actions → optarg ≠ "status" →
      runscript_action L fuel deps optarg s =
        (Res.exit EXIT_FAILURE,
          { s with trace := s.trace ++ [Ev.unsetenv "RC_CMD", Ev.setenv "RC_CMD" optarg,
            Ev.eerror (s.applet ++ ": root access required")] })) ∧
    (optarg = "describe" ∨ optarg = "help" →
      runscript_action L fuel deps optarg s =
        (svc_exec L optarg none >>= fun _ => pure ())
          { s with trace := s.trace ++ [Ev.unsetenv "RC_CMD", Ev.setenv "RC_CMD" optarg] } ∧
      Ev.exec optarg none ∈ since s (runscript_action L fuel deps optarg s).2) ∧
    (optarg = "status" → (runscript_action L fuel deps optarg s).1 = Res.ok ()) := by
  refine ⟨?_, ?_, ?_⟩
  · intro h1 h2 h3 h4
    have h5 : (L.geteuid != 0) = true := by simpa using heuid
    simp [runscript_action, action_root, bind_eq, M.bind, get, hhup, emit, h1, h2, h3, h4, h5,
      eerrorx, eerror, exit]
  · intro h
    have hrun : runscript_action L fuel deps optarg s =
        (svc_exec L optarg none >>= fun _ => pure ())
          { s with trace := s.trace ++ [Ev.unsetenv "RC_CMD", Ev.setenv "RC_CMD" optarg] } := by
      rcases h with rfl | rfl <;>
        simp [runscript_action, bind_eq, M.bind, get, hhup, emit]
    refine ⟨hrun, ?_⟩
    rw [hrun]
    simp only [svc_exec, bind_eq, M.bind, get, emit, call, since]
    generalize L.run_child _ _ _ _ = rc
    obtain ⟨r, w⟩ := rc
    cases r <;> simp [eerrorx, eerror, exit, bind_eq, M.bind, emit, pure_eq]
  · rintro rfl
    rw [runscript_action_status L fuel deps s hhup]
    exact action_status_fst L _

theorem root_gate_witness :
    userLib.geteuid ≠ 0 ∧ (sup0 world0).sighup = false ∧
    runscript_action userLib 10 true "zap" (sup0 world0) =
      (Res.exit EXIT_FAILURE,
        { sup0 world0 with trace := (sup0 world0).trace ++
          [Ev.unsetenv "RC_CMD", Ev.setenv "RC_CMD" "zap",
            Ev.eerror ((sup0 world0).applet ++ ": root access required")] }) :=
  ⟨by decide, rfl,
    (root_gate userLib 10 true "zap" (sup0 world0) (by decide) rfl).1
      (by decide) (by decide) (by decide) (by decide)⟩

/-! ## The final mark -/

theorem returns_of_fires {σ : Type} {h : Hook} {ho : Option Hook} {m : M σ Unit}
    (hf : Fires h ho m) : Returns m :=
  ⟨fun s => ⟨(), (hf.run s).1⟩⟩

theorem returns_start_sched {σ : Type} (L : Lib σ) : Returns (start_sched L) := by
  unfold start_sched start_provided_body start_stopped_body rc_service_start
  repeat' first
    | exact returns_get
    | exact returns_pure _
    | exact returns_call _
    | exact returns_call0 _
    | exact returns_emit _
    | exact returns_modify _
    | exact returns_unlink L _
    | apply returns_forEach
    | apply returns_bind
    | apply returns_ite
    | intro _
    | split

theorem returns_stop_unlink {σ : Type} (L : Lib σ) : Returns (stop_unlink L) := by
  unfold stop_unlink
  repeat' first
    | exact returns_get
    | exact returns_pure _
    | exact returns_unlink L _
    | apply returns_bind
    | intro _
    | split

/-- A piece `F; m; R` with `F` and `R` returning returns exactly when `m` does,
run from the state that `F` leaves. -/
theorem bind_returns_iff {σ : Type} {F m R : M σ Unit} (hF : Returns F) (hR : Returns R)
    (s : Sup σ) :
    ((F >>= fun _ => m >>= fun _ => R) s).1 = Res.ok () ↔ (m (F s).2).1 = Res.ok () := by
  obtain ⟨a, ha⟩ := hF.run s
  rcases bind_cases F (fun _ => m >>= fun _ => R) s with ⟨a1, _, heq⟩ | ⟨hno, _⟩
  · rw [heq]
    rcases bind_cases m (fun _ => R) (F s).2 with ⟨a2, hok, heq2⟩ | ⟨hno2, _, hnok, _⟩
    · rw [heq2]
      obtain ⟨b, hb⟩ := hR.run (m (F s).2).2
      constructor
      · intro _
        exact hok
      · intro _
        exact hb
    · constructor
      · intro h
        exact absurd h (hnok ())
      · intro h
        exact absurd h (hno2 ())
  · exact absurd ha (hno a)

theorem start_run_ok {σ : Type} (L : Lib σ) (s : Sup σ) :
    ((start_run L s).1 = Res.ok () ↔
      ((svc_exec L "start" none s).1 = Res.ok true ∧
        in_control L (svc_exec L "start" none s).2 = true)) ∧
    ((start_run L s).1 = Res.ok () →
      marksOf (since s (start_run L s).2) = [Ev.mark (svcOf s) L.bits.STARTED]) ∧
    ((start_run L s).1 ≠ Res.ok () → marksOf (since s (start_run L s).2) = []) := by
  simp only [start_run, svc_exec, bind_eq, M.bind, get, emit, call, since, marksOf,
    rc_service_mark, unlink_mtime_test, unlink]
  generalize L.run_child _ _ _ _ = rc
  obtain ⟨r, w⟩ := rc
  cases r with
  | none => simp [eerrorx, eerror, exit, bind_eq, M.bind, emit, Ev.isMark]
  | some b =>
    cases hib : s.ibsave <;> cases b <;>
      simp only [pure_eq, hib, bind_eq, M.bind, emit, Bool.not_true, Bool.not_false,
        Bool.false_eq_true, if_true, if_false] <;>
      split_ifs <;>
      simp only [eerrorx, ewarnx, eerror, ewarn, exit, bind_eq, M.bind, emit, modify, pure_eq] <;>
      (try split_ifs) <;>
      simp [Ev.isMark, emit, svcOf, *]

theorem marks_start_now {σ : Type} (L : Lib σ) :
    Steps (Keeps noMark false false) (start_now L) := by
  unfold start_now
  repeat' first
    | exact steps_get
    | exact steps_pure _
    | exact steps_call _
    | exact steps_call0 _
    | (apply steps_emit; rfl)
    | apply steps_forEach
    | apply steps_bind
    | apply steps_ite
    | (apply steps_modify; intro s; constructor <;> simp)
    | intro _
    | split

theorem marks_start_done {σ : Type} (L : Lib σ) :
    Steps (Keeps noMark false false) (start_done L) := by
  unfold start_done
  repeat' first
    | exact steps_get
    | exact steps_pure _
    | exact steps_call _
    | exact steps_call0 _
    | (apply steps_emit; rfl)
    | apply steps_forEach
    | apply steps_bind
    | apply steps_ite
    | (apply steps_modify; intro s; constructor <;> simp)
    | intro _
    | split

theorem marks_start_sched {σ : Type} (L : Lib σ) :
    Steps (Keeps noMark false false) (start_sched L) := by
  unfold start_sched
  repeat' first
    | exact steps_get
    | exact steps_pure _
    | exact steps_call _
    | exact steps_call0 _
    | (apply steps_emit; rfl)
    | apply steps_forEach
    | apply steps_bind
    | apply steps_ite
    | (apply steps_modify; intro s; constructor <;> simp)
    | intro _
    | split

theorem marks_start_out {σ : Type} (L : Lib σ) :
    Steps (Keeps noMark false false) (start_out L) := by
  unfold start_out
  repeat' first
    | exact steps_get
    | exact steps_pure _
    | exact steps_call _
    | exact steps_call0 _
    | (apply steps_emit; rfl)
    | apply steps_forEach
    | apply steps_bind
    | apply steps_ite
    | (apply steps_modify; intro s; constructor <;> simp)
    | intro _
    | split

theorem marks_stop_now {σ : Type} (L : Lib σ) :
    Steps (Keeps noMark false false) (stop_now L) := by
  unfold stop_now
  repeat' first
    | exact steps_get
    | exact steps_pure _
    | exact steps_call _
    | exact steps_call0 _
    | (apply steps_emit; rfl)
    | apply steps_forEach
    | apply steps_bind
    | apply steps_ite
    | (apply steps_modify; intro s; constructor <;> simp)
    | intro _
    | split

theorem marks_stop_done {σ : Type} (L : Lib σ) :
    Steps (Keeps noMark false false) (stop_done L) := by
  unfold stop_done
  repeat' first
    | exact steps_get
    | exact steps_pure _
    | exact steps_call _
    | exact steps_call0 _
    | (apply steps_emit; rfl)
    | apply steps_forEach
    | apply steps_bind
    | apply steps_ite
    | (apply steps_modify; intro s; constructor <;> simp)
    | intro _
    | split

theorem marks_stop_unlink {σ : Type} (L : Lib σ) :
    Steps (Keeps noMark false false) (stop_unlink L) := by
  unfold stop_unlink
  repeat' first
    | exact steps_get
    | exact steps_pure _
    | exact steps_call _
    | exact steps_call0 _
    | (apply steps_emit; rfl)
    | apply steps_forEach
    | apply steps_bind
    | apply steps_ite
    | (apply steps_modify; intro s; constructor <;> simp)
    | intro _
    | split

theorem marks_stop_out {σ : Type} (L : Lib σ) :
    Steps (Keeps noMark false false) (stop_out L) := by
  unfold stop_out
  repeat' first
    | exact steps_get
    | exact steps_pure _
    | exact steps_call _
    | exact steps_call0 _
    | (apply steps_emit; rfl)
    | apply steps_forEach
    | apply steps_bind
    | apply steps_ite
    | (apply steps_modify; intro s; constructor <;> simp)
    | intro _
    | split

theorem stop_run_ok {σ : Type} (L : Lib σ) (s : Sup σ) :
    ((stop_run L s).1 = Res.ok () ↔
      ((svc_exec L "stop" none s).1 = Res.ok true ∧
        in_control L (svc_exec L "stop" none s).2 = true)) ∧
    ((stop_run L s).1 = Res.ok () →
      marksOf (since s (stop_run L s).2) =
        [Ev.mark (svcOf s) (if s.in_background then L.bits.INACTIVE else L.bits.STOPPED)]) ∧
    ((stop_run L s).1 ≠ Res.ok () → marksOf (since s (stop_run L s).2) = []) := by
  simp only [stop_run, svc_exec, bind_eq, M.bind, get, emit, call, since, marksOf,
    rc_service_mark, unlink_mtime_test, unlink]
  generalize L.run_child _ _ _ _ = rc
  obtain ⟨r, w⟩ := rc
  cases r with
  | none => simp [eerrorx, eerror, exit, bind_eq, M.bind, emit, Ev.isMark]
  | some b =>
    cases hib : s.ibsave <;> cases b <;> cases hbg : s.in_background <;>
      simp only [pure_eq, hib, hbg, bind_eq, M.bind, emit, call, Bool.not_true, Bool.not_false,
        Bool.false_eq_true, if_true, if_false] <;>
      split_ifs <;>
      simp only [eerrorx, ewarnx, eerror, ewarn, exit, bind_eq, M.bind, emit, call, modify,
        pure_eq] <;>
      (try split_ifs) <;>
      simp_all [Ev.isMark, emit, call, svcOf]

theorem marksOf_append (a b : List Ev) : marksOf (a ++ b) = marksOf a ++ marksOf b := by
  simp [marksOf]

theorem marksOf_noMark (evs : List Ev) (h : evs.all noMark = true) : marksOf evs = [] := by
  induction evs with
  | nil => rfl
  | cons e evs ih =>
    simp only [List.all_cons, Bool.and_eq_true] at h
    cases e <;> simp_all [marksOf, noMark, Ev.isMark]

/-- A piece `F; m; R` whose `F` and `R` return and make no mark: it returns exactly
when `m` returns, and its marks are those of `m`. -/
theorem bind_marks {σ : Type} {P : Ev → Bool} {k h : Bool} {F m R : M σ Unit}
    (hF : Returns F) (hFs : Steps (Keeps noMark false false) F)
    (hm : Steps (Keeps P k h) m)
    (hR : Returns R) (hRs : Steps (Keeps noMark false false) R) (s : Sup σ) :
    (((F >>= fun _ => m >>= fun _ => R) s).1 = Res.ok () ↔ (m (F s).2).1 = Res.ok ()) ∧
    marksOf (since s ((F >>= fun _ => m >>= fun _ => R) s).2) =
      marksOf (since (F s).2 (m (F s).2).2) := by
  refine ⟨bind_returns_iff hF hR s, ?_⟩
  obtain ⟨a, ha⟩ := hF.run s
  obtain ⟨e1, he1, hp1⟩ := (hFs.run s).trace
  obtain ⟨e2, he2, hp2⟩ := (hm.run (F s).2).trace
  have hsince : since (F s).2 (m (F s).2).2 = e2 := by
    unfold since
    rw [he2, List.drop_left]
  rw [hsince]
  rcases bind_cases F (fun _ => m >>= fun _ => R) s with ⟨a1, _, heq⟩ | ⟨hno, _⟩
  · rw [heq]
    rcases bind_cases m (fun _ => R) (F s).2 with ⟨a2, hok, heq2⟩ | ⟨hno2, hst, _⟩
    · rw [heq2]
      obtain ⟨e3, he3, hp3⟩ := (hRs.run (m (F s).2).2).trace
      unfold since
      rw [he3, he2, he1, List.append_assoc, List.append_assoc, List.drop_left, marksOf_append,
        marksOf_append, marksOf_noMark e1 hp1, marksOf_noMark e3 hp3]
      simp
    · rw [hst]
      unfold since
      rw [he2, he1, List.append_assoc, List.drop_left, marksOf_append, marksOf_noMark e1 hp1]
      simp
  · exact absurd ha (hno a)

/-- C14: the lines of `svc_start` from the hook START_NOW on return normally if and
only if exec("start") succeeded and `in_control ()` held after it; they make one
mark, STARTED, if they return and no mark otherwise.  The lines of `svc_stop` from
the hook STOP_NOW on return normally if and only if exec("stop") succeeded and
`in_control ()` held after it; they make one mark if they return, INACTIVE when
running in the background and STOPPED otherwise, and no mark if they do not
return. -/
theorem final_mark {σ : Type} (L : Lib σ) (s : Sup σ) :
    ((svc_start_exec L s).1 = Res.ok () ↔
      ((svc_exec L "start" none (start_now L s).2).1 = Res.ok true ∧
        in_control L (svc_exec L "start" none (start_now L s).2).2 = true)) ∧
    marksOf (since s (svc_start_exec L s).2) =
      (if (svc_start_exec L s).1 = Res.ok () then [Ev.mark (svcOf s) L.bits.STARTED] else []) ∧
    ((svc_stop_exec L s).1 = Res.ok () ↔
      ((svc_exec L "stop" none (stop_now L s).2).1 = Res.ok true ∧
        in_control L (svc_exec L "stop" none (stop_now L s).2).2 = true)) ∧
    marksOf (since s (svc_stop_exec L s).2) =
      (if (svc_stop_exec L s).1 = Res.ok () then
        [Ev.mark (svcOf s) (if s.in_background then L.bits.INACTIVE else L.bits.STOPPED)]
      else []) := by
  have hstart := bind_marks (returns_of_fires (fires_start_now L)) (marks_start_now L)
    (steps_start_run L)
    (returns_bind (returns_of_fires (fires_start_done L)) (fun _ =>
      returns_bind (returns_start_sched L) (fun _ => returns_of_fires (fires_start_out L))))
    (steps_bind (marks_start_done L) (fun _ =>
      steps_bind (marks_start_sched L) (fun _ => marks_start_out L))) s
  have hstop := bind_marks (returns_of_fires (fires_stop_now L)) (marks_stop_now L)
    (steps_stop_run L)
    (returns_bind (returns_of_fires (fires_stop_done L)) (fun _ =>
      returns_bind (returns_stop_unlink L) (fun _ => returns_of_fires (fires_stop_out L))))
    (steps_bind (marks_stop_done L) (fun _ =>
      steps_bind (marks_stop_unlink L) (fun _ => marks_stop_out L))) s
  have hs1 := start_run_ok L (start_now L s).2
  have hs2 := stop_run_ok L (stop_now L s).2
  have hk1 := (marks_start_now L).run s
  have hk2 := (marks_stop_now L).run s
  have hsvc1 : svcOf (start_now L s).2 = svcOf s := by simp [svcOf, hk1.service]
  have hsvc2 : svcOf (stop_now L s).2 = svcOf s := by simp [svcOf, hk2.service]
  rw [hsvc1] at hs1
  rw [hsvc2, hk2.in_background] at hs2
  have e1 : svc_start_exec L s = (start_now L >>= fun _ => start_run L >>= fun _ =>
      (start_done L >>= fun _ => start_sched L >>= fun _ => start_out L)) s := rfl
  have e2 : svc_stop_exec L s = (stop_now L >>= fun _ => stop_run L >>= fun _ =>
      (stop_done L >>= fun _ => stop_unlink L >>= fun _ => stop_out L)) s := rfl
  rw [e1, e2]
  refine ⟨hstart.1.trans hs1.1, ?_, hstop.1.trans hs2.1, ?_⟩
  · rw [hstart.2]
    by_cases h : (start_run L (start_now L s).2).1 = Res.ok ()
    · rw [if_pos (hstart.1.2 h)]
      exact hs1.2.1 h
    · rw [if_neg (fun x => h (hstart.1.1 x))]
      exact hs1.2.2 h
  · rw [hstop.2]
    by_cases h : (stop_run L (stop_now L s).2).1 = Res.ok ()
    · rw [if_pos (hstop.1.2 h)]
      exact hs2.2.1 h
    · rw [if_neg (fun x => h (hstop.1.1 x))]
      exact hs2.2.2 h

/-! ## uncoldplug -/

theorem quiet_noEnter (e : Ev) (h : quiet e = true) : noEnter e = true := by
  cases e <;> simp_all [quiet, noEnter, Ev.isHook, Ev.isExec, Ev.isEnter]

theorem plain_noEnter (e : Ev) (h : plain e = true) : noEnter e = true :=
  quiet_noEnter e (plain_quiet e h)

theorem noHook_noEnter (e : Ev) (h : noHook e = true) : noEnter e = true := by
  cases e <;> simp_all [noHook, noEnter, Ev.isHook, Ev.isEnter]

theorem noExec_noEnter (e : Ev) (h : noExec e = true) : noEnter e = true := by
  cases e <;> simp_all [noExec, noEnter, Ev.isExec, Ev.isEnter]

theorem enter_svc_exec {σ : Type} (L : Lib σ) (arg1 : String) (arg2 : Option String) :
    Steps (Keeps noEnter false false) (svc_exec L arg1 arg2) := by
  unfold svc_exec
  repeat' first
    | exact steps_get
    | exact steps_pure _
    | exact steps_call _
    | (apply steps_emit; rfl)
    | (apply steps_eerrorx; rfl)
    | apply steps_bind
    | intro _
    | split

theorem enter_svc_status {σ : Type} (L : Lib σ) :
    Steps (Keeps noEnter false false) (svc_status L) := by
  constructor
  intro s
  refine ⟨⟨_, rfl, ?_⟩, rfl, rfl, rfl, fun _ => rfl, rfl, rfl, rfl, rfl, rfl, rfl,
    fun _ => ⟨rfl, rfl⟩, fun _ => rfl⟩
  simp only [List.all_cons, List.all_nil, Bool.and_true]
  split_ifs <;> rfl

theorem enter_svc_start {σ : Type} (L : Lib σ) (fuel : Nat) (deps : Bool) :
    Steps (Keeps noEnter false false) (svc_start L fuel deps) := by
  unfold svc_start svc_start_body svc_start_pre svc_start_exec start_in start_now start_done
    start_out rc_plugin_run
  repeat' first
    | exact steps_get
    | exact steps_pure _
    | exact steps_exit _
    | exact steps_call0 _
    | (apply steps_emit; rfl)
    | (apply steps_ewarnx; rfl)
    | exact steps_mono quiet_noEnter (by simp) (by simp) (steps_start_mark L)
    | exact steps_mono quiet_noEnter (by simp) (by simp) (steps_start_deps L _ _)
    | exact steps_mono noHook_noEnter (by simp) (by simp) (steps_start_run L)
    | exact steps_mono quiet_noEnter (by simp) (by simp) (steps_start_sched L)
    | apply steps_bind
    | apply steps_ite
    | (apply steps_modify; intro s; constructor <;> simp)
    | intro _
    | split

theorem enter_svc_stop {σ : Type} (L : Lib σ) (fuel : Nat) (deps : Bool) :
    Steps (Keeps noEnter false false) (svc_stop L fuel deps) := by
  unfold svc_stop svc_stop_body svc_stop_exec stop_now stop_done stop_out rc_plugin_run
  repeat' first
    | exact steps_get
    | exact steps_pure _
    | exact steps_exit _
    | exact steps_call0 _
    | (apply steps_emit; rfl)
    | (apply steps_ewarnx; rfl)
    | exact steps_mono noExec_noEnter (by simp) (by simp) (steps_svc_stop_pre L _ _ _)
    | exact steps_mono noHook_noEnter (by simp) (by simp) (steps_stop_run L)
    | exact steps_mono quiet_noEnter (by simp) (by simp) (steps_stop_unlink L)
    | apply steps_bind
    | apply steps_ite
    | (apply steps_modify; intro s; constructor <;> simp)
    | intro _
    | split

theorem enter_get_started_services {σ : Type} (L : Lib σ) :
    Steps (Keeps noEnter false false) (get_started_services L) := by
  unfold get_started_services
  apply steps_modify
  intro s
  constructor <;> simp

theorem enter_svc_restart {σ : Type} (L : Lib σ) (fuel : Nat) (deps : Bool) :
    Steps (Keeps noEnter false false) (svc_restart L fuel deps) := by
  unfold svc_restart
  repeat' first
    | exact steps_get
    | exact steps_pure _
    | exact enter_svc_exec L _ _
    | exact enter_svc_start L _ _
    | exact enter_svc_stop L _ _
    | exact enter_get_started_services L
    | exact steps_mono plain_noEnter (by simp) (by simp) (steps_start_services L _)
    | apply steps_bind
    | apply steps_ite
    | (apply steps_modify; intro s; constructor <;> simp)
    | intro _
    | split

theorem enter_stop_reschedule {σ : Type} (L : Lib σ) :
    Steps (Keeps noEnter false false) (stop_reschedule L) := by
  unfold stop_reschedule rc_service_schedule_start
  repeat' first
    | exact steps_get
    | exact steps_pure _
    | exact steps_call0 _
    | (apply steps_emit; rfl)
    | apply steps_forEach
    | apply steps_bind
    | apply steps_ite
    | intro _
    | split

theorem any_stop_uncoldplug {σ : Type} (L : Lib σ) :
    Steps (Keeps anyEv false false) (stop_uncoldplug L) := by
  unfold stop_uncoldplug uncoldplug unlink eerror
  repeat' first
    | exact steps_get
    | exact steps_pure _
    | exact steps_call _
    | (apply steps_emit; rfl)
    | apply steps_bind
    | apply steps_ite
    | intro _
    | split

/-- The dispatcher for an action other than `stop` and `zap` never enters
`uncoldplug`. -/
theorem enter_action_other {σ : Type} (L : Lib σ) (fuel : Nat) (deps : Bool) (optarg : String)
    (h1 : optarg ≠ "stop") (h2 : optarg ≠ "zap") :
    Steps (Keeps noEnter false false) (runscript_action L fuel deps optarg) := by
  have e1 : (optarg == "stop") = false := by simpa using h1
  have e2 : (optarg == "zap") = false := by simpa using h2
  unfold runscript_action action_root action_status load_deptree
  simp only [e1, e2, Bool.false_eq_true, if_false]
  repeat' first
    | exact steps_get
    | exact steps_pure _
    | exact steps_exit _
    | (apply steps_emit; rfl)
    | (apply steps_eerrorx; rfl)
    | exact enter_svc_exec L _ _
    | exact enter_svc_start L _ _
    | exact enter_svc_restart L _ _
    | exact enter_svc_status L
    | apply steps_bind
    | apply steps_ite
    | (apply steps_modify; intro s; constructor <;> simp)
    | intro _
    | split

theorem enter_not_mem {evs : List Ev} (h : evs.all noEnter = true) (fn : String) :
    Ev.enter fn ∉ evs := by
  intro hm
  have := List.all_eq_true.1 h _ hm
  simp [noEnter, Ev.isEnter] at this

/-- The events of `m >>= f` are those of `m`, followed by those of `f` if `m`
returns. -/
theorem mem_since_bind {σ α β : Type} {P Q : Ev → Bool} {k h k1 h1 : Bool} {m : M σ α}
    {f : α → M σ β} (hm : Steps (Keeps P k h) m) (hf : ∀ a, Steps (Keeps Q k1 h1) (f a))
    (s : Sup σ) (e : Ev) :
    e ∈ since s ((m >>= f) s).2 ↔
      (e ∈ since s (m s).2 ∨ ∃ a, (m s).1 = Res.ok a ∧ e ∈ since (m s).2 (f a (m s).2).2) := by
  obtain ⟨e1, he1, _⟩ := (hm.run s).trace
  rcases bind_cases m f s with ⟨a, hok, heq⟩ | ⟨hno, hst, _⟩
  · obtain ⟨e2, he2, _⟩ := ((hf a).run (m s).2).trace
    rw [heq]
    have h1 : since s (f a (m s).2).2 = e1 ++ e2 := by
      unfold since
      rw [he2, he1, List.append_assoc, List.drop_left]
    have h2 : since s (m s).2 = e1 := by
      unfold since
      rw [he1, List.drop_left]
    have h3 : ∀ b, since (m s).2 (f b (m s).2).2 =
        (f b (m s).2).2.trace.drop (m s).2.trace.length := fun _ => rfl
    rw [h1, h2, List.mem_append]
    constructor
    · rintro (h | h)
      · exact Or.inl h
      · refine Or.inr ⟨a, hok, ?_⟩
        rw [h3, he2, List.drop_left]
        exact h
    · rintro (h | ⟨b, hb, h⟩)
      · exact Or.inl h
      · rw [hok] at hb
        cases hb
        rw [h3, he2, List.drop_left] at h
        exact Or.inr h
  · rw [hst]
    constructor
    · intro h
      exact Or.inl h
    · rintro (h | ⟨b, hb, _⟩)
      · exact h
      · exact absurd hb (hno b)

theorem any_of_noEnter {σ α : Type} {m : M σ α} (hm : Steps (Keeps noEnter false false) m) :
    Steps (Keeps anyEv false false) m :=
  steps_mono (fun _ _ => rfl) (by simp) (by simp) hm

theorem any_uncoldplug {σ : Type} (L : Lib σ) :
    Steps (Keeps anyEv false false) (uncoldplug L) := by
  unfold uncoldplug unlink eerror
  repeat' first
    | exact steps_get
    | exact steps_pure _
    | exact steps_call _
    | (apply steps_emit; rfl)
    | apply steps_bind
    | apply steps_ite
    | intro _
    | split

theorem uncoldplug_enter {σ : Type} (L : Lib σ) (t : Sup σ) :
    Ev.enter "uncoldplug" ∈ since t (uncoldplug L t).2 := by
  have h : Steps (Keeps anyEv false false) (do
      let s ← get
      let cold := rc_strcatpaths L.RC_SVCDIR "coldplugged" s.applet
      if L.fexists s.w cold then do
        let ok ← unlink L (some cold)
        if !ok then eerror (s.applet ++ ": unlink " ++ cold) else pure ()
      else pure () : M σ Unit) := by
    unfold unlink eerror
    repeat' first
      | exact steps_get
      | exact steps_pure _
      | exact steps_call _
      | (apply steps_emit; rfl)
      | apply steps_bind
      | apply steps_ite
      | intro _
      | split
  have hm : Steps (Keeps anyEv false false) (emit (Ev.enter "uncoldplug") : M σ Unit) := by
    apply steps_emit
    rfl
  unfold uncoldplug
  rw [mem_since_bind hm (fun _ => h) t]
  left
  simp [since, emit]

theorem stop_uncoldplug_enter {σ : Type} (L : Lib σ) (t : Sup σ) :
    Ev.enter "uncoldplug" ∈ since t (stop_uncoldplug L t).2 ↔
      (t.in_background = false ∧ L.rc_runlevel_stopping t.w = false ∧
        has (L.rc_service_state t.w (svcOf t)) L.bits.STOPPED = true) := by
  unfold stop_uncoldplug
  rw [get_bind]
  by_cases hc : (!t.in_background && !L.rc_runlevel_stopping t.w &&
      has (L.rc_service_state t.w (svcOf t)) L.bits.STOPPED) = true
  · rw [if_pos hc]
    simp only [Bool.and_eq_true, Bool.not_eq_true'] at hc
    exact ⟨fun _ => ⟨hc.1.1, hc.1.2, hc.2⟩, fun _ => uncoldplug_enter L t⟩
  · rw [if_neg hc]
    simp only [Bool.and_eq_true, Bool.not_eq_true'] at hc
    constructor
    · intro h
      simp [since, pure_eq] at h
    · rintro ⟨h1, h2, h3⟩
      exact absurd ⟨⟨h1, h2⟩, h3⟩ hc

/-- The `stop` branch of the dispatcher enters `uncoldplug` exactly when dependencies
are on, the supervisor is not in the background, `svc_stop` returned, no runlevel is
stopping and the service is STOPPED. -/
theorem action_stop_enter {σ : Type} (L : Lib σ) (fuel : Nat) (deps : Bool) (s : Sup σ) :
    Ev.enter "uncoldplug" ∈ since s (action_stop L fuel deps s).2 ↔
      (deps = true ∧ s.in_background = false ∧
        ∃ t, svc_stop L fuel deps s = (Res.ok (), t) ∧ L.rc_runlevel_stopping t.w = false ∧
          has (L.rc_service_state t.w (svcOf t)) L.bits.STOPPED = true) := by
  have htail : ∀ a : Unit, Steps (Keeps anyEv false false)
      (if deps = true then (do stop_uncoldplug L; stop_reschedule L) else (pure () : M σ Unit)) := by
    intro _
    apply steps_ite
    · exact steps_bind (any_stop_uncoldplug L) (fun _ => any_of_noEnter (enter_stop_reschedule L))
    · exact steps_pure _
  have hrest : ∀ a : Unit, Steps (Keeps anyEv false false)
      (svc_stop L fuel deps >>= fun _ =>
        if deps = true then (do stop_uncoldplug L; stop_reschedule L) else (pure () : M σ Unit)) :=
    fun _ => steps_bind (any_of_noEnter (enter_svc_stop L fuel deps)) htail
  have hpre : Steps (Keeps noEnter false false)
      (if (deps && s.in_background) = true then get_started_services L else (pure () : M σ Unit)) := by
    apply steps_ite
    · exact enter_get_started_services L
    · exact steps_pure _
  have hrun : action_stop L fuel deps s =
      ((if (deps && s.in_background) = true then get_started_services L else (pure () : M σ Unit)) >>=
        fun _ => svc_stop L fuel deps >>= fun _ =>
          if deps = true then (do stop_uncoldplug L; stop_reschedule L) else (pure () : M σ Unit)) s := rfl
  rw [hrun, mem_since_bind hpre hrest s]
  have hno1 := enter_not_mem (since_of_keeps (hpre.run s)) "uncoldplug"
  cases hd : deps with
  | false =>
    subst hd
    simp only [Bool.false_and, Bool.false_eq_true, if_false, false_and, iff_false, not_or,
      not_exists, not_and]
    refine ⟨by simpa using hno1, ?_⟩
    intro a _
    rw [mem_since_bind (enter_svc_stop L fuel false) (fun _ => (steps_pure () : Steps (Keeps noEnter false false) (pure () : M σ Unit)))]
    rintro (h | ⟨b, _, h⟩)
    · exact enter_not_mem (since_of_keeps ((enter_svc_stop L fuel false).run _)) "uncoldplug" h
    · simp [since, pure_eq] at h
  | true =>
    subst hd
    simp only [Bool.true_and, if_true, true_and] at hno1 ⊢
    cases hbg : s.in_background with
    | true =>
      simp only [hbg, if_true, Bool.true_eq_false, false_and, iff_false, not_or, not_exists,
        not_and] at hno1 ⊢
      refine ⟨hno1, ?_⟩
      intro a _
      generalize hs1 : (get_started_services L s).2 = s1
      have hb1 : s1.in_background = true := by
        rw [← hs1, ((enter_get_started_services L).run s).in_background, hbg]
      rw [mem_since_bind (enter_svc_stop L fuel true)
        (fun _ => steps_bind (any_stop_uncoldplug L) (fun _ => any_of_noEnter (enter_stop_reschedule L)))]
      rintro (h | ⟨b, _, h⟩)
      · exact enter_not_mem (since_of_keeps ((enter_svc_stop L fuel true).run _)) "uncoldplug" h
      · rw [mem_since_bind (any_stop_uncoldplug L) (fun _ => enter_stop_reschedule L)] at h
        rcases h with h | ⟨c, _, h⟩
        · have h2 := ((stop_uncoldplug_enter L _).1 h).1
          rw [((enter_svc_stop L fuel true).run s1).in_background, hb1] at h2
          cases h2
        · exact enter_not_mem (since_of_keeps ((enter_stop_reschedule L).run _)) "uncoldplug" h
    | false =>
      simp only [hbg, Bool.false_eq_true, if_false, pure_eq, true_and] at hno1 ⊢
      rw [mem_since_bind (enter_svc_stop L fuel true)
        (fun _ => steps_bind (any_stop_uncoldplug L) (fun _ => any_of_noEnter (enter_stop_reschedule L)))]
      have hno2 := enter_not_mem (since_of_keeps ((enter_svc_stop L fuel true).run s)) "uncoldplug"
      constructor
      · rintro (h | ⟨_, h | ⟨b, hb, h⟩⟩)
        · simp [since] at h
        · exact absurd h hno2
        · rw [mem_since_bind (any_stop_uncoldplug L) (fun _ => enter_stop_reschedule L)] at h
          rcases h with h | ⟨c, _, h⟩
          · obtain ⟨_, h2, h3⟩ := (stop_uncoldplug_enter L _).1 h
            refine ⟨(svc_stop L fuel true s).2, ?_, h2, h3⟩
            rw [← hb]
          · exact absurd h
              (enter_not_mem (since_of_keeps ((enter_stop_reschedule L).run _)) "uncoldplug")
      · rintro ⟨t, ht, h2, h3⟩
        refine Or.inr ⟨(), Or.inr ⟨(), by rw [ht], ?_⟩⟩
        rw [mem_since_bind (any_stop_uncoldplug L) (fun _ => enter_stop_reschedule L)]
        left
        rw [ht]
        refine (stop_uncoldplug_enter L t).2 ⟨?_, h2, h3⟩
        have := ((enter_svc_stop L fuel true).run s).in_background
        rw [ht] at this
        rw [this, hbg]

theorem stop_strings :
    ("stop" == "describe" || "stop" == "help") = false ∧
    ¬ ("stop" ∈ dep_actions) ∧ ("stop" == "status") = false ∧
    ("stop" == "conditionalrestart" || "stop" == "condrestart") = false ∧
    ("stop" == "restart") = false ∧ ("stop" == "start") = false ∧ "stop" ≠ "zap" := by
  decide

theorem zap_strings :
    ("zap" == "describe" || "zap" == "help") = false ∧
    ¬ ("zap" ∈ dep_actions) ∧ ("zap" == "status") = false ∧
    ("zap" == "conditionalrestart" || "zap" == "condrestart") = false ∧
    ("zap" == "restart") = false ∧ ("zap" == "start") = false ∧ ("zap" == "stop") = false := by
  decide

/-- The events since `s` are those up to `s0` and those since `s0`. -/
theorem mem_since_pre {σ : Type} (s s0 u : Sup σ) (pre : List Ev)
    (h0 : s0.trace = s.trace ++ pre) (hu : ∃ evs, u.trace = s0.trace ++ evs) (e : Ev) :
    e ∈ since s u ↔ (e ∈ pre ∨ e ∈ since s0 u) := by
  obtain ⟨evs, he⟩ := hu
  unfold since
  rw [he, List.drop_left, h0, List.append_assoc, List.drop_left, List.mem_append]

/-- The round of the dispatcher for `stop` by root. -/
theorem runscript_action_stop {σ : Type} (L : Lib σ) (fuel : Nat) (deps : Bool) (s : Sup σ)
    (hs : s.sighup = false) (heu : L.geteuid = 0) :
    runscript_action L fuel deps "stop" s =
      (action_stop L fuel deps >>= fun _ => modify (fun s => { s with restart_services := [] }))
        { s with trace := s.trace ++ [Ev.unsetenv "RC_CMD", Ev.setenv "RC_CMD" "stop"] } := by
  obtain ⟨h1, h2, h3, h4, h5, h6, _⟩ := stop_strings
  simp [runscript_action, action_root, bind_eq, M.bind, get, hs, heu, emit, h1, h2, h3, h4, h5,
    h6]

/-- The round of the dispatcher for `zap` by root. -/
theorem runscript_action_zap {σ : Type} (L : Lib σ) (fuel : Nat) (deps : Bool) (s : Sup σ)
    (hs : s.sighup = false) (heu : L.geteuid = 0) :
    runscript_action L fuel deps "zap" s =
      ((do
        einfo ("Manually resetting " ++ s.applet ++ " to stopped state")
        let _ ← rc_service_mark L s.applet L.bits.STOPPED
        uncoldplug L) >>= fun _ => modify (fun s => { s with restart_services := [] }))
        { s with trace := s.trace ++ [Ev.unsetenv "RC_CMD", Ev.setenv "RC_CMD" "zap"] } := by
  obtain ⟨h1, h2, h3, h4, h5, h6, h7⟩ := zap_strings
  simp [runscript_action, action_root, bind_eq, M.bind, get, hs, heu, emit, h1, h2, h3, h4, h5,
    h6, h7]

/-- A round of the dispatcher that is refused (SIGHUP seen, or not root, for `stop`
and `zap`) does not enter `uncoldplug`. -/
theorem runscript_action_refused {σ : Type} (L : Lib σ) (fuel : Nat) (deps : Bool)
    (optarg : String) (s : Sup σ) (ho : optarg = "stop" ∨ optarg = "zap")
    (h : s.sighup = true ∨ L.geteuid ≠ 0) :
    Ev.enter "uncoldplug" ∉ since s (runscript_action L fuel deps optarg s).2 := by
  obtain ⟨h1, h2, h3, h4, h5, h6, _⟩ := stop_strings
  obtain ⟨z1, z2, z3, z4, z5, z6, z7⟩ := zap_strings
  by_cases hs : s.sighup = true
  · simp [runscript_action, bind_eq, M.bind, get, hs, exit, since]
  · have hs1 : s.sighup = false := by simpa using hs
    have heu : (L.geteuid != 0) = true := by
      rcases h with h | h
      · exact absurd h hs
      · simpa using h
    rcases ho with rfl | rfl
    · simp [runscript_action, action_root, bind_eq, M.bind, get, hs1, heu, emit, h1, h2, h3,
        eerrorx, eerror, exit, since]
    · simp [runscript_action, action_root, bind_eq, M.bind, get, hs1, heu, emit, z1, z2, z3,
        eerrorx, eerror, exit, since]

/-- C15 fails on the code: with a runlevel starting, the action `stop` (as root, not
in the background) stops the service and removes its coldplugged marker. -/
theorem uncoldplug_counterexample :
    demoLib.rc_runlevel_starting wColdStarting = true ∧
    (runscript_action demoLib 10 true "stop" (sup0 wColdStarting)).1 = Res.ok () ∧
    Ev.enter "uncoldplug" ∈ (runscript_action demoLib 10 true "stop" (sup0 wColdStarting)).2.trace ∧
    Ev.unlink (some "/lib/rc/init.d/coldplugged/svc") ∈
      (runscript_action demoLib 10 true "stop" (sup0 wColdStarting)).2.trace := by
  decide!

/-- C15, amended: across all actions of the dispatcher, `uncoldplug` is called in
exactly two cases, both as root and with no SIGHUP seen: the action is `zap`; or the
action is `stop`, dependencies are on (no `--nodeps`), the supervisor is not in the
background, `svc_stop` returned, no runlevel is stopping (a runlevel that is starting
does not prevent it) and the state of the service is STOPPED then. -/
theorem uncoldplug_cases {σ : Type} (L : Lib σ) (fuel : Nat) (deps : Bool) (optarg : String)
    (s : Sup σ) :
    Ev.enter "uncoldplug" ∈ since s (runscript_action L fuel deps optarg s).2 ↔
      (s.sighup = false ∧ L.geteuid = 0 ∧
        (optarg = "zap" ∨
          (optarg = "stop" ∧ deps = true ∧ s.in_background = false ∧
            ∃ t, svc_stop L fuel deps
                { s with trace := s.trace ++ [Ev.unsetenv "RC_CMD", Ev.setenv "RC_CMD" optarg] } =
                  (Res.ok (), t) ∧
              L.rc_runlevel_stopping t.w = false ∧
              has (L.rc_service_state t.w (svcOf t)) L.bits.STOPPED = true))) := by
  by_cases ho : optarg = "stop" ∨ optarg = "zap"
  · by_cases hr : s.sighup = true ∨ L.geteuid ≠ 0
    · constructor
      · intro h
        exact absurd h (runscript_action_refused L fuel deps optarg s ho hr)
      · rintro ⟨h1, h2, _⟩
        rcases hr with hr | hr
        · rw [h1] at hr
          cases hr
        · exact absurd h2 hr
    · have hs : s.sighup = false := by
        cases h : s.sighup
        · rfl
        · exact absurd (Or.inl h) hr
      have heu : L.geteuid = 0 := by
        by_contra h
        exact hr (Or.inr h)
      have hmod : ∀ a : Unit, Steps (Keeps noEnter false false)
          (modify (fun s : Sup σ => { s with restart_services := [] })) := by
        intro _
        apply steps_modify
        intro s
        constructor <;> simp
      rcases ho with rfl | rfl
      · rw [runscript_action_stop L fuel deps s hs heu]
        have hany : Steps (Keeps anyEv false false) (action_stop L fuel deps) := by
          unfold action_stop
          repeat' first
            | exact steps_get
            | exact steps_pure _
            | exact any_of_noEnter (enter_get_started_services L)
            | exact any_of_noEnter (enter_svc_stop L _ _)
            | exact any_of_noEnter (enter_stop_reschedule L)
            | exact any_stop_uncoldplug L
            | apply steps_bind
            | apply steps_ite
            | intro _
            | split
        generalize hs0 : ({ s with trace := s.trace ++
          [Ev.unsetenv "RC_CMD", Ev.setenv "RC_CMD" "stop"] } : Sup σ) = s0
        have h0 : s0.trace = s.trace ++ [Ev.unsetenv "RC_CMD", Ev.setenv "RC_CMD" "stop"] := by
          rw [← hs0]
        have hb0 : s0.in_background = s.in_background := by rw [← hs0]
        have hu : ∃ evs, ((action_stop L fuel deps >>= fun _ =>
            modify (fun s => { s with restart_services := [] })) s0).2.trace = s0.trace ++ evs := by
          obtain ⟨evs, h, _⟩ := ((steps_bind hany (fun a => any_of_noEnter (hmod a))).run s0).trace
          exact ⟨evs, h⟩
        rw [mem_since_pre s s0 _ _ h0 hu, mem_since_bind hany hmod, action_stop_enter, hb0]
        constructor
        · rintro (h | h | ⟨_, _, h⟩)
          · simp at h
          · exact ⟨hs, heu, Or.inr ⟨rfl, h⟩⟩
          · exact absurd h (enter_not_mem (since_of_keeps ((hmod ()).run _)) "uncoldplug")
        · rintro ⟨_, _, h | ⟨_, h⟩⟩
          · exact absurd h stop_strings.2.2.2.2.2.2
          · exact Or.inr (Or.inl h)
      · rw [runscript_action_zap L fuel deps s hs heu]
        constructor
        · intro _
          exact ⟨hs, heu, Or.inl rfl⟩
        · intro _
          have hm1 : Steps (Keeps anyEv false false)
              (einfo ("Manually resetting " ++ s.applet ++ " to stopped state") : M σ Unit) := by
            unfold einfo
            apply steps_emit
            rfl
          have hm2 : Steps (Keeps anyEv false false)
              (rc_service_mark L s.applet L.bits.STOPPED) := by
            unfold rc_service_mark
            apply steps_bind
            · apply steps_emit
              rfl
            · intro _
              exact steps_call _
          have hz : Steps (Keeps anyEv false false) (do
              einfo ("Manually resetting " ++ s.applet ++ " to stopped state")
              let _ ← rc_service_mark L s.applet L.bits.STOPPED
              uncoldplug L : M σ Unit) :=
            steps_bind hm1 (fun _ => steps_bind hm2 (fun _ => any_uncoldplug L))
          generalize hs0 : ({ s with trace := s.trace ++
            [Ev.unsetenv "RC_CMD", Ev.setenv "RC_CMD" "zap"] } : Sup σ) = s0
          have h0 : s0.trace = s.trace ++ [Ev.unsetenv "RC_CMD", Ev.setenv "RC_CMD" "zap"] := by
            rw [← hs0]
          have hu : ∃ evs, (((do
              einfo ("Manually resetting " ++ s.applet ++ " to stopped state")
              let _ ← rc_service_mark L s.applet L.bits.STOPPED
              uncoldplug L : M σ Unit) >>= fun _ =>
              modify (fun s => { s with restart_services := [] })) s0).2.trace =
                s0.trace ++ evs := by
            obtain ⟨evs, h, _⟩ := ((steps_bind hz (fun a => any_of_noEnter (hmod a))).run s0).trace
            exact ⟨evs, h⟩
          rw [mem_since_pre s s0 _ _ h0 hu, mem_since_bind hz hmod]
          refine Or.inr (Or.inl ?_)
          rw [mem_since_bind hm1 (fun _ => steps_bind hm2 (fun _ => any_uncoldplug L))]
          refine Or.inr ⟨(), rfl, ?_⟩
          rw [mem_since_bind hm2 (fun _ => any_uncoldplug L)]
          exact Or.inr ⟨_, rfl, uncoldplug_enter L _⟩
  · have h1 : optarg ≠ "stop" := fun h => ho (Or.inl h)
    have h2 : optarg ≠ "zap" := fun h => ho (Or.inr h)
    constructor
    · intro h
      exact absurd h (enter_not_mem
        (since_of_keeps ((enter_action_other L fuel deps optarg h1 h2).run s)) "uncoldplug")
    · rintro ⟨_, _, h | ⟨h, _⟩⟩
      · exact absurd h h2
      · exact absurd h h1

/-! ## The peers that svc_start needs -/

theorem same_refl {σ : Type} (s : Sup σ) : Same s s := ⟨rfl, rfl, [], by simp⟩

theorem same_trans {σ : Type} {s t u : Sup σ} (h1 : Same s t) (h2 : Same t u) : Same s u := by
  obtain ⟨d1, hd1⟩ := h1.tmp
  obtain ⟨d2, hd2⟩ := h2.tmp
  exact ⟨h2.need.trans h1.need, h2.use.trans h1.use, d1 ++ d2, by rw [hd2, hd1, List.append_assoc]⟩

theorem same_pure {σ α : Type} (a : α) : Steps Same (pure a : M σ α) := ⟨fun s => same_refl s⟩

theorem same_get {σ : Type} : Steps Same (get : M σ (Sup σ)) := ⟨fun s => same_refl s⟩

theorem same_exit {σ α : Type} (c : Int) : Steps Same (exit c : M σ α) := ⟨fun s => same_refl s⟩

theorem same_emit {σ : Type} (e : Ev) : Steps Same (emit e : M σ Unit) :=
  ⟨fun s => ⟨rfl, rfl, [], by simp [emit]⟩⟩

theorem same_eerrorx {σ α : Type} (msg : String) : Steps Same (eerrorx msg : M σ α) :=
  ⟨fun s => ⟨rfl, rfl, [], by simp [eerrorx]⟩⟩

theorem same_call {σ α : Type} (f : σ → α × σ) : Steps Same (call f) :=
  ⟨fun s => ⟨rfl, rfl, [], by simp [call]⟩⟩

theorem same_bind {σ α β : Type} {m : M σ α} {f : α → M σ β}
    (hm : Steps Same m) (hf : ∀ a, Steps Same (f a)) : Steps Same (m >>= f) := by
  constructor
  intro s
  rcases bind_cases m f s with ⟨a, _, heq⟩ | ⟨_, hst, _⟩
  · rw [heq]
    exact same_trans (hm.run s) ((hf a).run _)
  · rw [hst]
    exact hm.run s

theorem same_forEach {σ : Type} {body : String → M σ Unit}
    (hb : ∀ x, Steps Same (body x)) (xs : List String) : Steps Same (forEach body xs) := by
  induction xs with
  | nil => exact same_pure ()
  | cons x xs ih => exact same_bind (hb x) (fun _ => ih)

theorem same_svc_wait_loop {σ : Type} (L : Lib σ) (fifo : String) (forever : Bool)
    (fuel n : Nat) : Steps Same (svc_wait_loop L fifo forever fuel n) := by
  induction fuel generalizing n with
  | zero =>
    cases n with
    | zero => exact ⟨fun s => same_refl s⟩
    | succ n => exact ⟨fun s => same_refl s⟩
  | succ fuel ih =>
    cases n with
    | zero => exact ⟨fun s => same_refl s⟩
    | succ n =>
      constructor
      intro s
      simp only [svc_wait_loop]
      split
      · exact ⟨rfl, rfl, [], by simp⟩
      · have hsleep : Same s
            { s with w := (L.nanosleep s.w WAIT_INTERVAL).2,
                     trace := s.trace ++ [Ev.poll fifo] ++ [Ev.sleep WAIT_INTERVAL] } :=
          ⟨rfl, rfl, [], by simp⟩
        split
        · exact hsleep
        · exact same_trans hsleep ((ih _).run _)

theorem same_svc_wait {σ : Type} (L : Lib σ) (fuel : Nat) (svc : String) :
    Steps Same (svc_wait L fuel svc) := by
  constructor
  intro s
  unfold svc_wait
  split
  · exact same_refl s
  · have h := (same_svc_wait_loop L
      (rc_strcatpaths L.RC_SVCDIR "exclusive" (basename_c svc))
      ((L.rc_deptree_depend s.w svc "keywords").contains "notimeout") fuel svc_wait_nloops).run s
    dsimp only
    split
    · next heq => rw [heq] at h; exact h
    · next heq => rw [heq] at h; exact h
    · next heq => rw [heq] at h; exact h

theorem same_start_need_body {σ : Type} (L : Lib σ) (svc : String) (svcs : Nat) (svc2 : String) :
    Steps Same (start_need_body L svc svcs svc2) := by
  unfold start_need_body
  repeat' first
    | exact same_get
    | exact same_pure _
    | exact same_eerrorx _
    | exact ⟨fun s => ⟨rfl, rfl, [svc], rfl⟩⟩
    | apply same_bind
    | apply steps_ite
    | intro _

theorem same_start_wait_body {σ : Type} (L : Lib σ) (fuel : Nat) (svc : String) :
    Steps Same (start_wait_body L fuel svc) := by
  unfold start_wait_body eerror
  repeat' first
    | exact same_get
    | exact same_pure _
    | exact same_emit _
    | exact same_svc_wait L _ _
    | exact same_forEach (same_start_need_body L _ _) _
    | apply same_bind
    | apply steps_ite
    | intro _

/-- The inner loop over `need_services` for a peer that is INACTIVE or WASINACTIVE:
the peer is added to the queue once for each time it is in the list. -/
theorem start_need_loop_enqueue {σ : Type} (L : Lib σ) (svc : String) (svcs : Nat)
    (h : (has svcs L.bits.INACTIVE || has svcs L.bits.WASINACTIVE) = true) :
    ∀ (xs : List String) (s : Sup σ),
      forEach (start_need_body L svc svcs) xs s =
        (Res.ok (), { s with tmplist := s.tmplist ++ List.replicate (xs.count svc) svc }) := by
  intro xs
  induction xs with
  | nil => intro s; simp [forEach, pure_eq]
  | cons x xs ih =>
    intro s
    by_cases hx : svc = x
    · subst hx
      simp only [forEach, M.bind, start_need_body, bind_eq, get, beq_self_eq_true, if_true, h,
        modify, ih]
      simp [List.replicate_succ]
    · have hx2 : (svc == x) = false := by simpa using hx
      have hx3 : ¬ (x = svc) := fun h => hx h.symm
      simp only [forEach, M.bind, start_need_body, bind_eq, get, hx2, Bool.false_eq_true,
        if_false, pure_eq, ih]
      simp [List.count_cons, hx3]

/-- The inner loop over `need_services` for a needed peer that is neither INACTIVE nor
WASINACTIVE: the start aborts. -/
theorem start_need_loop_abort {σ : Type} (L : Lib σ) (svc : String) (svcs : Nat)
    (h : (has svcs L.bits.INACTIVE || has svcs L.bits.WASINACTIVE) = false) :
    ∀ (xs : List String) (s : Sup σ), svc ∈ xs →
      forEach (start_need_body L svc svcs) xs s =
        (Res.exit EXIT_FAILURE, { s with trace := s.trace ++
          [Ev.eerror ("ERROR: cannot start " ++ s.applet ++ " as " ++ svc ++ " would not start")] }) := by
  intro xs
  induction xs with
  | nil => intro s hm; cases hm
  | cons x xs ih =>
    intro s hm
    by_cases hx : svc = x
    · subst hx
      simp [forEach, M.bind, start_need_body, bind_eq, get, h, eerrorx]
    · have hx2 : (svc == x) = false := by simpa using hx
      have hm2 : svc ∈ xs := by
        rcases List.mem_cons.1 hm with h1 | h1
        · exact absurd h1 hx
        · exact h1
      simp only [forEach, M.bind, start_need_body, bind_eq, get, hx2, Bool.false_eq_true,
        if_false, pure_eq, ih s hm2]

/-- A round of the wait loop for a peer that is not STARTED, is not skipped, and is
still not STARTED after `svc_wait` returned: the round is the inner loop over
`need_services`, after the message of a timeout. -/
theorem start_wait_body_round {σ : Type} (L : Lib σ) (fuel : Nat) (svc : String) (s t : Sup σ)
    (b : Bool)
    (h1 : has (L.rc_service_state s.w svc) L.bits.STARTED = false)
    (h2 : (has (L.rc_service_state s.w svc) L.bits.STARTING &&
      has (L.rc_service_state s.w svc) L.bits.WASINACTIVE && !s.use_services.contains svc) = false)
    (hw : svc_wait L fuel svc s = (Res.ok b, t))
    (h3 : has (L.rc_service_state t.w svc) L.bits.STARTED = false) :
    start_wait_body L fuel svc s =
      forEach (start_need_body L svc (L.rc_service_state t.w svc)) s.need_services
        (if b then t
          else { t with trace := t.trace ++ [Ev.eerror (s.applet ++ ": timed out waiting for " ++ svc)] }) := by
  have hn : t.need_services = s.need_services := by
    have := (same_svc_wait L fuel svc).run s
    rw [hw] at this
    exact this.need
  cases b <;>
    simp only [start_wait_body, bind_eq, M.bind, get, h1, h2, Bool.false_eq_true, if_false, hw,
      h3, eerror, emit, pure_eq, hn, Bool.not_false, Bool.not_true, if_true]

/-- A round of the wait loop in which `svc_wait` does not return does not return. -/
theorem start_wait_body_stuck {σ : Type} (L : Lib σ) (fuel : Nat) (svc : String) (s : Sup σ)
    (h1 : has (L.rc_service_state s.w svc) L.bits.STARTED = false)
    (h2 : (has (L.rc_service_state s.w svc) L.bits.STARTING &&
      has (L.rc_service_state s.w svc) L.bits.WASINACTIVE && !s.use_services.contains svc) = false)
    (hw : ∀ b, (svc_wait L fuel svc s).1 ≠ Res.ok b) :
    (start_wait_body L fuel svc s).1 ≠ Res.ok () := by
  rcases hr : svc_wait L fuel svc s with ⟨r, t⟩
  cases r with
  | ok b => exact absurd (by rw [hr]) (hw b)
  | exit c =>
    simp only [start_wait_body, bind_eq, M.bind, get, h1, h2, Bool.false_eq_true, if_false, hr]
    simp
  | hang =>
    simp only [start_wait_body, bind_eq, M.bind, get, h1, h2, Bool.false_eq_true, if_false, hr]
    simp

/-- A round of the wait loop that returns and leaves the queue as it was saw the
peer STARTED, if the peer is needed. -/
theorem round_observed {σ : Type} (L : Lib σ) (fuel : Nat) (svc : String) (s : Sup σ)
    (hsub : ∀ x ∈ s.need_services, s.use_services.contains x = true)
    (hok : (start_wait_body L fuel svc s).1 = Res.ok ())
    (htmp : (start_wait_body L fuel svc s).2.tmplist = s.tmplist) :
    (!s.need_services.contains svc ||
      has (L.rc_service_state s.w svc) L.bits.STARTED ||
      has (L.rc_service_state (svc_wait L fuel svc s).2.w svc) L.bits.STARTED) = true := by
  by_cases hn : svc ∈ s.need_services
  swap
  · simp [hn]
  by_cases h1 : has (L.rc_service_state s.w svc) L.bits.STARTED = true
  · simp [h1]
  have h1f : has (L.rc_service_state s.w svc) L.bits.STARTED = false := by simpa using h1
  have h2 : (has (L.rc_service_state s.w svc) L.bits.STARTING &&
      has (L.rc_service_state s.w svc) L.bits.WASINACTIVE && !s.use_services.contains svc) = false := by
    have hu := hsub svc hn
    simp only [hu, Bool.not_true, Bool.and_false]
  rcases hr : svc_wait L fuel svc s with ⟨r, t⟩
  cases r with
  | exit c =>
    exact absurd hok (start_wait_body_stuck L fuel svc s h1f h2 (by simp [hr]))
  | hang =>
    exact absurd hok (start_wait_body_stuck L fuel svc s h1f h2 (by simp [hr]))
  | ok b =>
    by_cases h3 : has (L.rc_service_state t.w svc) L.bits.STARTED = true
    · simp [h3]
    have h3f : has (L.rc_service_state t.w svc) L.bits.STARTED = false := by simpa using h3
    have hsame := (same_svc_wait L fuel svc).run s
    rw [hr] at hsame
    obtain ⟨d, hd⟩ := hsame.tmp
    rw [start_wait_body_round L fuel svc s t b h1f h2 hr h3f] at hok htmp
    by_cases hi : (has (L.rc_service_state t.w svc) L.bits.INACTIVE ||
        has (L.rc_service_state t.w svc) L.bits.WASINACTIVE) = true
    · rw [start_need_loop_enqueue L svc _ hi] at htmp
      have hpos : 0 < s.need_services.count svc := List.count_pos_iff.2 hn
      have hlen := congrArg List.length htmp
      have hd1 : t.tmplist = s.tmplist ++ d := hd
      have hl : t.tmplist.length = s.tmplist.length + d.length := by
        rw [hd1, List.length_append]
      cases b <;> simp only [List.length_append, List.length_replicate, if_true, if_false,
        Bool.false_eq_true] at hlen <;> omega
    · have hif : (has (L.rc_service_state t.w svc) L.bits.INACTIVE ||
          has (L.rc_service_state t.w svc) L.bits.WASINACTIVE) = false := by simpa using hi
      rw [start_need_loop_abort L svc _ hif _ _ hn] at hok
      cases hok

/-- The wait loop of `svc_start`: if it returns with the queue as it was, every
needed peer of the list was seen STARTED. -/
theorem wait_loop_needed {σ : Type} (L : Lib σ) (fuel : Nat) :
    ∀ (xs : List String) (s : Sup σ),
      (∀ x ∈ s.need_services, s.use_services.contains x = true) →
      (forEach (start_wait_body L fuel) xs s).1 = Res.ok () →
      (forEach (start_wait_body L fuel) xs s).2.tmplist = s.tmplist →
      needed_started L fuel xs s = true := by
  intro xs
  induction xs with
  | nil => intro s _ _ _; rfl
  | cons x xs ih =>
    intro s hsub hok htmp
    have hrun : forEach (start_wait_body L fuel) (x :: xs) s =
        (start_wait_body L fuel x >>= fun _ => forEach (start_wait_body L fuel) xs) s := rfl
    rw [hrun] at hok htmp
    rcases bind_cases (start_wait_body L fuel x) (fun _ => forEach (start_wait_body L fuel) xs) s
      with ⟨a, hoka, heq⟩ | ⟨_, _, hno, _⟩
    · rw [heq] at hok htmp
      have hs1 := (same_start_wait_body L fuel x).run s
      have hs2 := (same_forEach (same_start_wait_body L fuel) xs).run (start_wait_body L fuel x s).2
      obtain ⟨d1, hd1⟩ := hs1.tmp
      obtain ⟨d2, hd2⟩ := hs2.tmp
      have hd : d1 = [] := by
        rw [hd2, hd1, List.append_assoc] at htmp
        have := congrArg List.length htmp
        rw [List.length_append, List.length_append] at this
        exact List.eq_nil_of_length_eq_zero (by omega)
      have ht1 : (start_wait_body L fuel x s).2.tmplist = s.tmplist := by
        rw [hd1, hd, List.append_nil]
      have hsub1 : ∀ y ∈ (start_wait_body L fuel x s).2.need_services,
          (start_wait_body L fuel x s).2.use_services.contains y = true := by
        rw [hs1.need, hs1.use]
        exact hsub
      have hrest := ih (start_wait_body L fuel x s).2 hsub1 hok (by rw [htmp, ht1])
      have hfirst := round_observed L fuel x s hsub (by rw [hoka]) ht1
      simp only [needed_started, Bool.and_eq_true]
      exact ⟨hfirst, hrest⟩
    · exact absurd hok (hno ())

theorem schedule_run {σ : Type} (L : Lib σ) (a b : String) (s : Sup σ) :
    rc_service_schedule_start L a b s =
      (Res.ok (), { s with w := L.rc_service_schedule_start s.w a b,
                           trace := s.trace ++ [Ev.schedule a b] }) := by
  simp [rc_service_schedule_start, bind_eq, M.bind, emit, call0]

theorem sched_inner {σ : Type} (L : Lib σ) (target : String) :
    ∀ (ps : List String) (s : Sup σ),
      forEach (fun p => rc_service_schedule_start L p target) ps s =
        (Res.ok (), { s with
          w := ps.foldl (fun w p => L.rc_service_schedule_start w p target) s.w,
          trace := s.trace ++ ps.map (fun p => Ev.schedule p target) }) := by
  intro ps
  induction ps with
  | nil => intro s; simp [forEach, pure_eq]
  | cons p ps ih =>
    intro s
    simp only [forEach, M.bind, schedule_run, ih]
    simp

/-- The loop of `svc_start` over the scheduled-by list installs the edges of
`sched_edges`, and returns. -/
theorem sched_loop {σ : Type} (L : Lib σ) :
    ∀ (xs : List String) (s : Sup σ),
      forEach (start_sched_body L) xs s =
        (Res.ok (), { s with
          w := (sched_edges L (svcOf s) xs s.w).2,
          providelist := sched_provide L (svcOf s) xs s.w s.providelist,
          trace := s.trace ++ (sched_edges L (svcOf s) xs s.w).1 }) := by
  intro xs
  induction xs with
  | nil => intro s; simp [forEach, pure_eq, sched_edges, sched_provide]
  | cons x xs ih =>
    intro s
    simp only [forEach, M.bind, start_sched_body, bind_eq, get, schedule_run, modify,
      sched_inner, ih, sched_edges, sched_provide]
    simp [svcOf]

/-- The branch `if (tmplist)` of `svc_start`: the mark STOPPED, the removal of the
probe, the edges, the warning, and the exit. -/
theorem start_scheduled_run {σ : Type} (L : Lib σ) (s : Sup σ) :
    (start_scheduled L s).1 = Res.exit EXIT_FAILURE ∧
    (start_scheduled L s).2.trace = s.trace ++
      (Ev.mark (svcOf s) L.bits.STOPPED :: Ev.unlink s.mtime_test ::
        ((if (L.unlink (L.rc_service_mark s.w (svcOf s) L.bits.STOPPED).2 s.mtime_test).1 then []
          else [Ev.eerror (s.applet ++ ": unlink " ++ s.mtime_test.getD "(null)")]) ++
        (sched_edges L (svcOf s) s.tmplist
          (L.unlink (L.rc_service_mark s.w (svcOf s) L.bits.STOPPED).2 s.mtime_test).2).1 ++
        [Ev.ewarn ("WARNING: " ++ s.applet ++ " is scheduled to start when " ++
          sched_text s.tmplist.length 1 s.tmplist ++ " has started")])) := by
  simp only [svcOf]
  rcases Bool.eq_false_or_eq_true (L.unlink (L.rc_service_mark s.w (s.service.getD "")
      L.bits.STOPPED).2 s.mtime_test).1 with hu | hu <;>
    simp [start_scheduled, bind_eq, M.bind, get, rc_service_mark, emit, call, unlink_mtime_test,
      unlink, modify, eerror, pure_eq, hu, sched_loop, ewarnx, svcOf]

theorem start_deps_wait_queue {σ : Type} (L : Lib σ) (fuel : Nat) (s : Sup σ)
    (hl : (forEach (start_wait_body L fuel) s.services s).1 = Res.ok ())
    (hq : (forEach (start_wait_body L fuel) s.services s).2.tmplist ≠ []) :
    start_deps_wait L fuel s = start_scheduled L (forEach (start_wait_body L fuel) s.services s).2 := by
  have hrun : start_deps_wait L fuel s =
      (forEach (start_wait_body L fuel) s.services >>= fun _ => get >>= fun s2 =>
        (if !s2.tmplist.isEmpty then start_scheduled L else pure ()) >>= fun _ =>
          modify (fun s => { s with services := [] })) s := rfl
  rw [hrun]
  rcases bind_cases (forEach (start_wait_body L fuel) s.services) (fun _ => get >>= fun s2 =>
        (if !s2.tmplist.isEmpty then start_scheduled L else pure ()) >>= fun _ =>
          modify (fun s => { s with services := [] })) s with ⟨a, _, heq⟩ | ⟨hno, _⟩
  · rw [heq, get_bind]
    have hne : (!(forEach (start_wait_body L fuel) s.services s).2.tmplist.isEmpty) = true := by
      simpa using hq
    rw [if_pos hne]
    have h1 := (start_scheduled_run L (forEach (start_wait_body L fuel) s.services s).2).1
    rcases bind_cases (start_scheduled L) (fun _ => modify (fun s => { s with services := [] }))
      (forEach (start_wait_body L fuel) s.services s).2 with ⟨a, hok, _⟩ | ⟨_, hst, _, _, hex⟩
    · rw [h1] at hok
      cases hok
    · exact Prod.ext ((hex _).1 h1 |>.trans h1.symm) hst
  · exact absurd hl (hno ())

theorem start_deps_wait_ok {σ : Type} (L : Lib σ) (fuel : Nat) (s : Sup σ)
    (h : (start_deps_wait L fuel s).1 = Res.ok ()) :
    (forEach (start_wait_body L fuel) s.services s).1 = Res.ok () ∧
    (forEach (start_wait_body L fuel) s.services s).2.tmplist = [] := by
  have hrun : start_deps_wait L fuel s =
      (forEach (start_wait_body L fuel) s.services >>= fun _ => get >>= fun s2 =>
        (if !s2.tmplist.isEmpty then start_scheduled L else pure ()) >>= fun _ =>
          modify (fun s => { s with services := [] })) s := rfl
  rcases bind_cases (forEach (start_wait_body L fuel) s.services) (fun _ => get >>= fun s2 =>
        (if !s2.tmplist.isEmpty then start_scheduled L else pure ()) >>= fun _ =>
          modify (fun s => { s with services := [] })) s with ⟨a, hok, _⟩ | ⟨_, _, hno, _⟩
  · refine ⟨hok, ?_⟩
    by_contra hq
    rw [start_deps_wait_queue L fuel s hok hq, (start_scheduled_run L _).1] at h
    cases h
  · rw [hrun] at h
    exact absurd h (hno ())

theorem quiet_noRun (e : Ev) (h : quiet e = true) : noRun e = true := by
  cases e <;> simp_all [quiet, noRun, Ev.isHook, Ev.isExec, Ev.isEnter]

theorem run_svc_start_pre {σ : Type} (L : Lib σ) (fuel : Nat) (deps : Bool) :
    Steps (Keeps noRun false false) (svc_start_pre L fuel deps) := by
  unfold svc_start_pre start_in rc_plugin_run
  repeat' first
    | exact steps_get
    | exact steps_pure _
    | exact steps_call0 _
    | (apply steps_emit; rfl)
    | exact steps_mono quiet_noRun (by simp) (by simp) (steps_start_mark L)
    | exact steps_mono quiet_noRun (by simp) (by simp) (steps_start_deps L _ _)
    | apply steps_bind
    | (apply steps_modify; intro s; constructor <;> simp)
    | intro _

theorem same_call0 {σ : Type} (f : σ → σ) : Steps Same (call0 f) :=
  ⟨fun s => ⟨rfl, rfl, [], by simp [call0]⟩⟩

theorem same_start_use_body {σ : Type} (L : Lib σ) (svc : String) :
    Steps Same (start_use_body L svc) := by
  unfold start_use_body rc_service_start rc_waitpid
  repeat' first
    | exact same_get
    | exact same_pure _
    | exact same_emit _
    | exact same_call0 _
    | apply same_bind
    | apply steps_ite
    | intro _

theorem ensures_true {σ α : Type} {P : Sup σ → Prop} (m : M σ α) :
    Ensures P (fun _ => True) m := ⟨fun _ _ _ _ => trivial⟩

theorem ensures_bind {σ α β : Type} {P R Q : Sup σ → Prop} {m : M σ α} {f : α → M σ β}
    (hm : Ensures P R m) (hf : ∀ a, Ensures R Q (f a)) : Ensures P Q (m >>= f) := by
  constructor
  intro s hP b hb
  rcases bind_cases m f s with ⟨a, hok, heq⟩ | ⟨_, _, hno, _⟩
  · rw [heq] at hb ⊢
    exact (hf a).run _ (hm.run s hP a hok) b hb
  · exact absurd hb (hno b)

theorem ensures_ite {σ α : Type} {P Q : Sup σ → Prop} {c : Prop} [Decidable c] {a b : M σ α}
    (ha : Ensures P Q a) (hb : Ensures P Q b) : Ensures P Q (if c then a else b) := by
  split
  · exact ha
  · exact hb

theorem ensures_exit {σ α : Type} {P Q : Sup σ → Prop} (c : Int) :
    Ensures P Q (exit c : M σ α) :=
  ⟨fun _ _ _ h => by simp [exit] at h⟩

theorem ensures_get {σ : Type} {P : Sup σ → Prop} : Ensures P P (get : M σ (Sup σ)) :=
  ⟨fun _ h _ _ => h⟩

theorem ensures_modify {σ : Type} {P Q : Sup σ → Prop} (f : Sup σ → Sup σ)
    (h : ∀ s, P s → Q (f s)) : Ensures P Q (modify f) :=
  ⟨fun s hP _ _ => h s hP⟩

theorem ensures_same {σ α : Type} {m : M σ α} (hm : Steps Same m) :
    Ensures need_in_use need_in_use m := by
  constructor
  intro s hP _ _
  have h := hm.run s
  unfold need_in_use
  rw [h.need, h.use]
  exact hP

/-- The state that `start_deps_use` leaves for the wait loop: the queue is empty, and
every needed service is in `use_services` if the answer of the library for
`{ineed}` is within its answer for `{ineed, iuse}`. -/
theorem start_deps_use_end {σ : Type} (L : Lib σ) (d : Nat)
    (hsub : ∀ w a sl x, x ∈ L.rc_deptree_depends w types_n a sl d →
      x ∈ L.rc_deptree_depends w types_nu a sl d) :
    Ensures (fun _ => True) (fun t => t.tmplist = [] ∧ need_in_use t) (start_deps_use L d) := by
  unfold start_deps_use
  refine ensures_bind (ensures_true _) (fun _ => ensures_bind (ensures_true _) (fun s0 =>
    ensures_bind (ensures_true _) (fun _ => ?_)))
  apply ensures_ite
  · exact ensures_bind (ensures_true _) (fun _ =>
      ensures_bind (ensures_true _) (fun _ => ensures_exit _))
  · refine ensures_bind (ensures_modify _ (fun s _ => ?_)) (fun _ =>
      ensures_bind (ensures_same ?_) (fun _ =>
        ensures_bind ensures_get (fun s1 => ensures_modify _ (fun s h => ⟨rfl, h⟩))))
    · intro x hx
      simpa using hsub _ _ _ x hx
    · apply steps_ite
      · exact same_forEach (same_start_use_body L) _
      · exact same_pure _

theorem run_not_mem {evs : List Ev} (h : evs.all noRun = true) (a : String)
    (b : Option String) : Ev.exec a b ∉ evs := by
  intro hm
  have := List.all_eq_true.1 h _ hm
  simp [noRun] at this

theorem svc_start_split {σ : Type} (L : Lib σ) (fuel : Nat) (deps : Bool) (s : Sup σ) :
    svc_start L fuel deps s = svc_start_body L fuel deps s ∨
    (since s (svc_start L fuel deps s).2).all noRun = true := by
  unfold svc_start
  simp only [get_bind]
  by_cases hb : (s.in_hotplug || s.in_background) = true
  · by_cases hg : svc_start_guard_test L.bits (L.rc_service_state s.w (svcOf s)) = true
    · right
      simp [hb, hg, bind_eq, M.bind, exit, since]
    · by_cases h1 : has (L.rc_service_state s.w (svcOf s)) L.bits.STARTED = true
      · right
        simp [hb, hg, bind_eq, M.bind, pure_eq, h1, ewarn, emit, since, noRun]
      · by_cases h2 : has (L.rc_service_state s.w (svcOf s)) L.bits.STARTING = true
        · right
          simp [hb, hg, bind_eq, M.bind, pure_eq, h1, h2, ewarnx, since, noRun]
        · by_cases h3 : has (L.rc_service_state s.w (svcOf s)) L.bits.STOPPING = true
          · right
            simp [hb, hg, bind_eq, M.bind, pure_eq, h1, h2, h3, ewarnx, since, noRun]
          · left
            simp [hb, hg, bind_eq, M.bind, pure_eq, h1, h2, h3]
  · by_cases h1 : has (L.rc_service_state s.w (svcOf s)) L.bits.STARTED = true
    · right
      simp [hb, bind_eq, M.bind, pure_eq, h1, ewarn, emit, since, noRun]
    · by_cases h2 : has (L.rc_service_state s.w (svcOf s)) L.bits.STARTING = true
      · right
        simp [hb, bind_eq, M.bind, pure_eq, h1, h2, ewarnx, since, noRun]
      · by_cases h3 : has (L.rc_service_state s.w (svcOf s)) L.bits.STOPPING = true
        · right
          simp [hb, bind_eq, M.bind, pure_eq, h1, h2, h3, ewarnx, since, noRun]
        · by_cases h4 : has (L.rc_service_state s.w (svcOf s)) L.bits.INACTIVE = true
          · right
            simp [hb, bind_eq, M.bind, pure_eq, h1, h2, h3, h4, ewarnx, since, noRun]
          · left
            simp [hb, bind_eq, M.bind, pure_eq, h1, h2, h3, h4]

/-- If `svc_start` with dependencies makes its exec, the branch `if (deps)` was run
from the state after the hook START_IN, with the options of that state, and
returned. -/
theorem start_exec_waited {σ : Type} (L : Lib σ) (fuel : Nat) (s : Sup σ)
    (hexec : Ev.exec "start" none ∈ since s (svc_start L fuel true s).2) :
    (svc_start_deps L fuel
      ((L.RC_DEP_TRACE ||| (if L.rc_conf_yesno "rc_depend_strict" then L.RC_DEP_STRICT else 0)) |||
        (if L.rc_runlevel_starting (start_in L (start_mark L s).2).2.w then L.RC_DEP_START
          else 0))
      (start_in L (start_mark L s).2).2).1 = Res.ok () := by
  rcases svc_start_split L fuel true s with heq | hplain
  swap
  · exact absurd hexec (run_not_mem hplain _ _)
  rw [heq] at hexec
  by_cases hpre : (svc_start_pre L fuel true s).1 = Res.ok ()
  swap
  · rcases bind_cases (svc_start_pre L fuel true) (fun _ => svc_start_exec L) s with
      ⟨a, hok, _⟩ | ⟨_, hst, _, _⟩
    · exact absurd hok hpre
    · have hrun : svc_start_body L fuel true s =
          (svc_start_pre L fuel true >>= fun _ => svc_start_exec L) s := rfl
      rw [hrun, hst] at hexec
      exact absurd hexec (run_not_mem (since_of_keeps ((run_svc_start_pre L fuel true).run s)) _ _)
  have hpre1 : ((start_mark L >>= fun _ => start_in L >>= fun _ =>
      start_deps L fuel true) s).1 = Res.ok () := hpre
  obtain ⟨_, _, h1, _⟩ := ok_bind hpre1
  obtain ⟨_, _, h2, _⟩ := ok_bind h1
  exact h2

/-- C13: in `svc_start` with dependencies.
(1) A round of the wait loop for a peer of `need_services` that is not STARTED, is
waited for, and is still not STARTED after `svc_wait` returned: if the peer is
INACTIVE or WASINACTIVE it is added to the queue and the round returns; otherwise
the start aborts with "cannot start ... as ... would not start".
(2) If the queue is not empty after the loop, the service is marked STOPPED, the
probe is removed, an edge from every peer of the queue and from every service it
provides is installed, and the supervisor exits with the warning.
(3) If the lines before the hook START_NOW do not return, `svc_start` ends there:
no hook START_NOW is fired and no exec is made.
(4) Hence, if the branch `if (deps)` returns, the wait loop saw every needed peer of
the wait list STARTED (the library answering `{ineed, iuse}` with at least its
answer for `{ineed}`).
(5) And if `svc_start` with dependencies makes its exec("start"), the branch was run
from the state after the hook START_IN and returned: the wait loop, run from the
state `start_at_wait`, saw every needed peer of the wait list STARTED. -/
theorem start_needed_peers {σ : Type} (L : Lib σ) (fuel : Nat) :
    (∀ (s t : Sup σ) (svc : String) (b : Bool),
      has (L.rc_service_state s.w svc) L.bits.STARTED = false →
      (has (L.rc_service_state s.w svc) L.bits.STARTING &&
        has (L.rc_service_state s.w svc) L.bits.WASINACTIVE &&
        !s.use_services.contains svc) = false →
      svc_wait L fuel svc s = (Res.ok b, t) →
      has (L.rc_service_state t.w svc) L.bits.STARTED = false →
      svc ∈ s.need_services →
      (((has (L.rc_service_state t.w svc) L.bits.INACTIVE ||
          has (L.rc_service_state t.w svc) L.bits.WASINACTIVE) = true →
        (start_wait_body L fuel svc s).1 = Res.ok () ∧
        svc ∈ (start_wait_body L fuel svc s).2.tmplist) ∧
       ((has (L.rc_service_state t.w svc) L.bits.INACTIVE ||
          has (L.rc_service_state t.w svc) L.bits.WASINACTIVE) = false →
        (start_wait_body L fuel svc s).1 = Res.exit EXIT_FAILURE ∧
        (start_wait_body L fuel svc s).2.trace.getLast? = some (Ev.eerror
          ("ERROR: cannot start " ++ s.applet ++ " as " ++ svc ++ " would not start"))))) ∧
    (∀ s : Sup σ, (forEach (start_wait_body L fuel) s.services s).1 = Res.ok () →
      (forEach (start_wait_body L fuel) s.services s).2.tmplist ≠ [] →
      ∃ t, t = (forEach (start_wait_body L fuel) s.services s).2 ∧
        (start_deps_wait L fuel s).1 = Res.exit EXIT_FAILURE ∧
        (start_deps_wait L fuel s).2.trace = t.trace ++
          (Ev.mark (svcOf t) L.bits.STOPPED :: Ev.unlink t.mtime_test ::
            ((if (L.unlink (L.rc_service_mark t.w (svcOf t) L.bits.STOPPED).2 t.mtime_test).1
              then [] else [Ev.eerror (t.applet ++ ": unlink " ++ t.mtime_test.getD "(null)")]) ++
            (sched_edges L (svcOf t) t.tmplist
              (L.unlink (L.rc_service_mark t.w (svcOf t) L.bits.STOPPED).2 t.mtime_test).2).1 ++
            [Ev.ewarn ("WARNING: " ++ t.applet ++ " is scheduled to start when " ++
              sched_text t.tmplist.length 1 t.tmplist ++ " has started")]))) ∧
    (∀ (target : String) (xs : List String) (w : σ) (x : String), x ∈ xs →
      Ev.schedule x target ∈ (sched_edges L target xs w).1) ∧
    (∀ (deps : Bool) (s : Sup σ), (svc_start_pre L fuel deps s).1 ≠ Res.ok () →
      (svc_start_body L fuel deps s).1 ≠ Res.ok () ∧
      (svc_start_body L fuel deps s).2 = (svc_start_pre L fuel deps s).2 ∧
      (since s (svc_start_body L fuel deps s).2).all noRun = true) ∧
    (∀ (d : Nat) (s : Sup σ),
      (∀ w a sl x, x ∈ L.rc_deptree_depends w types_n a sl d →
        x ∈ L.rc_deptree_depends w types_nu a sl d) →
      (svc_start_deps L fuel d s).1 = Res.ok () →
      (start_deps_use L d s).1 = Res.ok () ∧
      needed_started L fuel (start_deps_use L d s).2.services (start_deps_use L d s).2 = true) ∧
    (∀ s : Sup σ,
      (∀ d w a sl x, x ∈ L.rc_deptree_depends w types_n a sl d →
        x ∈ L.rc_deptree_depends w types_nu a sl d) →
      Ev.exec "start" none ∈ since s (svc_start L fuel true s).2 →
      needed_started L fuel (start_at_wait L s).services (start_at_wait L s) = true) := by
  have hdeps : ∀ (d : Nat) (s : Sup σ),
      (∀ w a sl x, x ∈ L.rc_deptree_depends w types_n a sl d →
        x ∈ L.rc_deptree_depends w types_nu a sl d) →
      (svc_start_deps L fuel d s).1 = Res.ok () →
      (start_deps_use L d s).1 = Res.ok () ∧
      needed_started L fuel (start_deps_use L d s).2.services (start_deps_use L d s).2 = true := by
    intro d s hsub hok
    have hrun : svc_start_deps L fuel d s =
        (start_deps_use L d >>= fun _ => start_deps_wait L fuel) s := rfl
    rw [hrun] at hok
    rcases bind_cases (start_deps_use L d) (fun _ => start_deps_wait L fuel) s with
      ⟨a, hoka, heq⟩ | ⟨_, _, hno, _⟩
    · rw [heq] at hok
      obtain ⟨ht, hu⟩ := (start_deps_use_end L d hsub).run s trivial a hoka
      obtain ⟨hl, hq⟩ := start_deps_wait_ok L fuel _ hok
      exact ⟨hoka, wait_loop_needed L fuel _ _ hu hl (by rw [hq, ht])⟩
    · exact absurd hok (hno ())
  refine ⟨?_, ?_, ?_, ?_, hdeps, ?_⟩
  · intro s t svc b h1 h2 hw h3 hn
    rw [start_wait_body_round L fuel svc s t b h1 h2 hw h3]
    constructor
    · intro hi
      rw [start_need_loop_enqueue L svc _ hi]
      refine ⟨rfl, ?_⟩
      have hpos : 0 < s.need_services.count svc := List.count_pos_iff.2 hn
      obtain ⟨n, hn1⟩ : ∃ n, s.need_services.count svc = n + 1 := ⟨_, (Nat.succ_pred_eq_of_pos hpos).symm⟩
      rw [hn1]
      cases b <;> simp [List.replicate_succ]
    · intro hi
      rw [start_need_loop_abort L svc _ hi _ _ hn]
      have ha : t.applet = s.applet := by
        have := (steps_svc_wait L fuel svc).run s
        rw [hw] at this
        exact this.applet
      cases b <;> simp [ha]
  · intro s hl hq
    refine ⟨_, rfl, ?_⟩
    rw [start_deps_wait_queue L fuel s hl hq]
    exact start_scheduled_run L _
  · intro target xs
    induction xs with
    | nil => intro w x hx; cases hx
    | cons y ys ih =>
      intro w x hx
      simp only [sched_edges, List.mem_cons, List.mem_append]
      rcases List.mem_cons.1 hx with rfl | hx
      · exact Or.inl rfl
      · exact Or.inr (Or.inr (ih _ x hx))
  · intro deps s hne
    have hrun : svc_start_body L fuel deps s =
        (svc_start_pre L fuel deps >>= fun _ => svc_start_exec L) s := rfl
    rcases bind_cases (svc_start_pre L fuel deps) (fun _ => svc_start_exec L) s with
      ⟨a, hok, _⟩ | ⟨_, hst, hno, _⟩
    · exact absurd hok hne
    · rw [hrun]
      refine ⟨hno (), hst, ?_⟩
      rw [hst]
      exact since_of_keeps ((run_svc_start_pre L fuel deps).run s)
  · intro s hsub hexec
    exact (hdeps _ _ (hsub _) (start_exec_waited L fuel s hexec)).2

theorem start_needed_peers_witness :
    (svc_start demoLib 10 true (sup0 wNeedInactive)).1 = Res.exit EXIT_FAILURE ∧
    (svc_start demoLib 10 true (sup0 wNeedInactive)).2.trace =
      [Ev.mark "/etc/init.d/svc" rcBits.STARTING,
        Ev.mkfifo "/lib/rc/init.d/exclusive/svc",
        Ev.symlink "/etc/init.d/svc" "/lib/rc/init.d/exclusive/svc.42",
        Ev.hook Hook.START_IN "svc",
        Ev.poll "/lib/rc/init.d/exclusive/net",
        Ev.mark "/etc/init.d/svc" rcBits.STOPPED,
        Ev.unlink (some "/lib/rc/init.d/exclusive/svc.42"),
        Ev.schedule "net" "/etc/init.d/svc",
        Ev.schedule "lan" "/etc/init.d/svc",
        Ev.ewarn "WARNING: svc is scheduled to start when net has started"] ∧
    ((start_wait_body demoLib 10 "net" (start_at_wait demoLib (sup0 wNeedInactive))).1 =
        Res.ok () ∧
      "net" ∈ (start_wait_body demoLib 10 "net"
        (start_at_wait demoLib (sup0 wNeedInactive))).2.tmplist) ∧
    (start_deps_wait demoLib 10 (start_at_wait demoLib (sup0 wNeedInactive))).1 =
      Res.exit EXIT_FAILURE ∧
    Ev.schedule "net" "/etc/init.d/svc" ∈
      (sched_edges demoLib "/etc/init.d/svc" ["net"] wNeedInactive).1 ∧
    Ev.exec "start" none ∈
      since (sup0 wNeedStarted) (svc_start demoLib 10 true (sup0 wNeedStarted)).2 ∧
    (start_at_wait demoLib (sup0 wNeedStarted)).services = ["net"] ∧
    needed_started demoLib 10 (start_at_wait demoLib (sup0 wNeedStarted)).services
      (start_at_wait demoLib (sup0 wNeedStarted)) = true :=
  ⟨by decide!, by decide!,
    ((start_needed_peers demoLib 10).1 (start_at_wait demoLib (sup0 wNeedInactive))
      (svc_wait demoLib 10 "net" (start_at_wait demoLib (sup0 wNeedInactive))).2 "net" true
      (by decide!) (by decide!) (Prod.ext (by decide!) rfl) (by decide!) (by decide!)).1
      (by decide!),
    (Exists.elim ((start_needed_peers demoLib 10).2.1
        (start_at_wait demoLib (sup0 wNeedInactive)) (by decide!) (by decide!))
      (fun _ h => h.2.1)),
    (start_needed_peers demoLib 10).2.2.1 "/etc/init.d/svc" ["net"] wNeedInactive "net"
      (by decide),
    by decide!, by decide!,
    (start_needed_peers demoLib 10).2.2.2.2.2 (sup0 wNeedStarted)
      (fun d w a sl x hx => by
        simp only [demoLib, types_n, types_nu, List.foldr, List.append_nil,
          List.mem_append] at hx ⊢
        exact Or.inl hx)
      (by decide!)⟩

end Runscript
